import Mathlib

/-!
# linkedin-bot: behaviour-simulation core and session store

A shallow embedding of `pkg/stealth/mouse.go`, `pkg/stealth/typing.go`,
`pkg/stealth/fingerprint.go`, `pkg/browser/session.go` and of `contains`, `BulkConnect`
and `Search` of `pkg/linkedin`, followed by theorems about it.

Conventions of the embedding

* A finite `float64` value is the rational (`ℚ`) it denotes.  In the geometry of the
  pointer path (`NewBezierCurve`, `CalculatePoint`, `GeneratePath`, `MoveMouseBezier`)
  the operations are the exact ones, and `math.Pow x 3` is `x ^ 3`; in
  `ScrollWithVariation` and in the namespace `Float64`, which holds the same geometry
  once more, every operation is followed by the rounding `round64` of IEEE 754.  The
  bounds on the scroll chunks, on the control points of the curve and on its middle
  sample are about the rounded functions.
* `int` and `time.Duration` are `Int`; where a product can leave the 64-bit range
  it is reduced with `wrap64`.  Go's `/` on integers is `Int.tdiv`.
* The process-wide random source is a `RandSource`: the value of the `k`-th draw is
  a function of `k` (and of the bound for `Intn`).  `rand.Intn n` panics for `n ≤ 0`.
* Library functions that are not part of the repository (`math.Sqrt`, `math.Cos`,
  `math.Sin`, `math.Pow`, the Unicode case tables, `encoding/json`) are parameters.
* The browser page is a record of oracles telling which driver calls fail; every
  driver call and every `time.Sleep` is recorded in a trace.
-/

namespace LinkedinBot

/-! ## Runtime -/

/-- How a call ends: normal return with a nil error, a returned error, or a runtime panic. -/
inductive Outcome where
  | ok
  | error (msg : String)
  | panic (msg : String)
  deriving DecidableEq, Repr

/-- The random source behind `math/rand`: `float64 k` is what `rand.Float64()` returns
when it is the `k`-th draw, `intn k n` what `rand.Intn(n)` returns when it is the
`k`-th draw (for `n > 0`). -/
structure RandSource where
  float64 : Nat → ℚ
  intn : Nat → Int → Int
  /-- The contract of `rand.Float64`: the value lies in `[0, 1)`. -/
  float64_range : ∀ k, 0 ≤ float64 k ∧ float64 k < 1
  /-- The contract of `rand.Intn`: for `n > 0` the value lies in `[0, n)`. -/
  intn_range : ∀ k n, 0 < n → 0 ≤ intn k n ∧ intn k n < n

/-- The call `rand.Intn(n)` as the `k`-th draw: `none` is its panic on `n ≤ 0`,
otherwise the value drawn and the number of draws made afterwards. -/
def RandSource.Intn (r : RandSource) (k : Nat) (n : Int) : Option (Int × Nat) :=
  if n ≤ 0 then none else some (r.intn k n, k + 1)

/-- The functions of package `math` used by the repository. -/
structure MathLib where
  Sqrt : ℚ → ℚ
  Cos : ℚ → ℚ
  Sin : ℚ → ℚ
  Pi : ℚ
  /-- The function `math.Pow`; by default the exact power, the exponent truncated to a
  natural number. -/
  Pow : ℚ → ℚ → ℚ := fun x y => x ^ ⌊y⌋₊

/-- Reduction of an integer to the signed 64-bit range (two's complement). -/
def wrap64 (x : Int) : Int := (x + 2 ^ 63) % 2 ^ 64 - 2 ^ 63

/-- The constant `time.Millisecond`, in nanoseconds. -/
def Millisecond : Int := 1000000

/-- The constant `time.Hour`, in nanoseconds. -/
def Hour : Int := 3600000000000

/-- The expression `time.Duration(n) * time.Millisecond`. -/
def msDuration (n : Int) : Int := wrap64 (wrap64 n * Millisecond)

/-! ## float64 arithmetic

A finite `float64` value is the rational it denotes.  An arithmetic operation of the
source on `float64` operands is the exact operation on these rationals followed by
`round64`, the rounding of IEEE 754 binary64 to the nearest value, ties to even; each
operation is rounded on its own (no fused multiply-add).  Overflow to an infinity, which
needs a result of magnitude `2^1024` or more, is outside this embedding. -/

/-- Rounding of a rational to the nearest integer, a tie going to the even one. -/
def roundHalfEven (x : ℚ) : Int :=
  if x - (⌊x⌋ : Int) < 1 / 2 then ⌊x⌋
  else if 1 / 2 < x - (⌊x⌋ : Int) then ⌊x⌋ + 1
  else if ⌊x⌋ % 2 = 0 then ⌊x⌋ else ⌊x⌋ + 1

/-- The spacing of the `float64` values around `x`: `2^(e-52)` for `2^e ≤ |x| < 2^(e+1)`,
and `2^(-1074)` in the subnormal range `|x| < 2^(-1022)`. -/
def ulp64 (x : ℚ) : ℚ :=
  if x = 0 then (2 : ℚ) ^ (-1074 : Int) else (2 : ℚ) ^ (max (Int.log 2 |x|) (-1022) - 52)

/-- The `float64` value nearest to `x`, ties to even. -/
def round64 (x : ℚ) : ℚ := (roundHalfEven (x / ulp64 x) : ℚ) * ulp64 x

/-! ## pkg/stealth/mouse.go : geometry -/

structure Point where
  X : ℚ
  Y : ℚ
  deriving DecidableEq, Repr

structure BezierCurve where
  Start : Point
  End : Point
  Control1 : Point
  Control2 : Point
  deriving DecidableEq, Repr

/-- The function `NewBezierCurve(start, end)`; `k` is the number of draws already made,
the result carries the number of draws made afterwards. -/
def NewBezierCurve (m : MathLib) (rng : RandSource) (k : Nat) (start stop : Point) :
    BezierCurve × Nat :=
  let dx := stop.X - start.X
  let dy := stop.Y - start.Y
  let distance := m.Sqrt (dx * dx + dy * dy)
  let offsetMagnitude := distance * (2 / 10 + rng.float64 k * (3 / 10))
  let angle1 := rng.float64 (k + 1) * m.Pi * 2
  let angle2 := rng.float64 (k + 2) * m.Pi * 2
  let control1 : Point :=
    { X := start.X + dx * (25 / 100) + m.Cos angle1 * offsetMagnitude
      Y := start.Y + dy * (25 / 100) + m.Sin angle1 * offsetMagnitude }
  let control2 : Point :=
    { X := start.X + dx * (75 / 100) + m.Cos angle2 * offsetMagnitude
      Y := start.Y + dy * (75 / 100) + m.Sin angle2 * offsetMagnitude }
  ({ Start := start, End := stop, Control1 := control1, Control2 := control2 }, k + 3)

/-- The method `(*BezierCurve).CalculatePoint(t)`. -/
def BezierCurve.CalculatePoint (bc : BezierCurve) (t : ℚ) : Point :=
  let oneMinusT := 1 - t
  let x := oneMinusT ^ 3 * bc.Start.X + 3 * oneMinusT ^ 2 * t * bc.Control1.X
    + 3 * oneMinusT * t ^ 2 * bc.Control2.X + t ^ 3 * bc.End.X
  let y := oneMinusT ^ 3 * bc.Start.Y + 3 * oneMinusT ^ 2 * t * bc.Control1.Y
    + 3 * oneMinusT * t ^ 2 * bc.Control2.Y + t ^ 3 * bc.End.Y
  { X := x, Y := y }

/-- The method `(*BezierCurve).GeneratePath(numPoints)`.  `none` is the panic of
`make([]Point, numPoints)` on a negative length.  For `numPoints = 1` the source
divides `0.0 / 0.0`; the rational division used here is meaningful for
`numPoints ≠ 1` only. -/
def BezierCurve.GeneratePath (bc : BezierCurve) (numPoints : Int) : Option (List Point) :=
  if numPoints < 0 then none
  else some ((List.range numPoints.toNat).map fun (i : Nat) =>
    bc.CalculatePoint (((i : Int) : ℚ) / ((numPoints - 1 : Int) : ℚ)))


/-! ## The cookie types of the driver -/

/-- The fields of `proto.NetworkCookie` that the repository reads. -/
structure NetworkCookie where
  Name : String
  Value : String
  Domain : String
  Path : String
  Expires : ℚ
  HTTPOnly : Bool
  Secure : Bool
  SameSite : String
  Priority : String
  SameParty : Bool
  SourceScheme : String
  SourcePort : Int
  deriving DecidableEq, Repr

/-- The fields of `proto.NetworkCookieParam` that the repository writes; `SourcePort`
is a pointer. -/
structure NetworkCookieParam where
  Name : String
  Value : String
  URL : String
  Domain : String
  Path : String
  Secure : Bool
  HTTPOnly : Bool
  SameSite : String
  Expires : ℚ
  Priority : String
  SameParty : Bool
  SourceScheme : String
  SourcePort : Option Int
  deriving DecidableEq, Repr

/-! ## The page driver -/

/-- The type `input.Key` of go-rod, declared `type Key rune`: a key is an integer, and
the keys of the characters and the named keys are values of this one type. -/
abbrev Key := Int

/-- The conversion `input.Key(r)` of a rune `r`. -/
abbrev Key.char (r : Int) : Key := r

/-- The constant `input.Backspace`.  go-rod declares the named keys with `AddKey`, which
gives a key whose name is not a single character the value
`Key(keyCode + (location+1)*256)`; for Backspace, of key code 8 and location 0, this is
`Key(8 + 256)`: the same value as `input.Key(r)` for the rune `r` = U+0108. -/
abbrev Key.Backspace : Key := 8 + 256

/-- A driver call on the page, or a `time.Sleep` (duration in nanoseconds). -/
inductive Action where
  | mouseMoveTo (p : Point)
  | mouseScroll (x y : ℚ) (steps : Int)
  | keyType (key : Key)
  | sleep (d : Int)
  deriving DecidableEq, Repr

/-- The page as the functions of this file see it: `fails tr a` tells whether the
driver call `a`, attempted after the actions `tr` of the running function, returns
an error. -/
structure Page where
  fails : List Action → Action → Bool
  /-- The result of `page.Cookies([]string{})`; `none` is an error, an entry `none` a
  nil pointer. -/
  Cookies : Option (List (Option NetworkCookie)) := some []
  /-- The string value of evaluating `navigator.userAgent`; `none` is an error. -/
  UserAgent : Option String := some ""
  /-- Whether `page.SetCookies` returns an error on the given parameters. -/
  setCookiesFails : List NetworkCookieParam → Bool := fun _ => false
  /-- Whether `page.EvalOnNewDocument` returns an error on the given script. -/
  evalOnNewDocumentFails : String → Bool := fun _ => false

/-! ## pkg/stealth/mouse.go : pointer motion and scrolling -/

structure MoveMouseOptions where
  Duration : Int
  Overshoot : Bool
  Steps : Int
  deriving DecidableEq, Repr

/-- The function `DefaultMoveMouseOptions()`, with the draws in source order. -/
def DefaultMoveMouseOptions (rng : RandSource) (k : Nat) : MoveMouseOptions × Nat :=
  ({ Duration := 300 + rng.intn k 500
     Overshoot := decide (rng.float64 (k + 1) < 15 / 100)
     Steps := 20 + rng.intn (k + 2) 30 }, k + 3)

/-- The delay of step `i` in the loop of `MoveMouseBezier`: `stepDelay`, or
`stepDelay * 3 / 2` when `i < len(path)/4 || i > len(path)*3/4`.  The product
`len(path)*3` cannot leave the 64-bit range, a slice of 16-byte points being
shorter than `2^60`. -/
def pathDelay (stepDelay len i : Int) : Int :=
  if i < len.tdiv 4 ∨ i > (len * 3).tdiv 4 then (wrap64 (stepDelay * 3)).tdiv 2
  else stepDelay

/-- The loop `for i, point := range path` of `MoveMouseBezier`, from index `i` on,
`tr` being the actions performed so far. -/
def movePath (page : Page) (stepDelay len : Int) :
    List Point → Int → List Action → List Action × Outcome
  | [], _, tr => (tr, .ok)
  | point :: rest, i, tr =>
    if page.fails tr (.mouseMoveTo point) then
      (tr ++ [.mouseMoveTo point], .error "Mouse.MoveTo")
    else
      movePath page stepDelay len rest (i + 1)
        (tr ++ [.mouseMoveTo point, .sleep (pathDelay stepDelay len i)])

/-- The expression `time.Duration(opts.Duration/opts.Steps) * time.Millisecond`. -/
def stepDelayOf (opts : MoveMouseOptions) : Int :=
  msDuration (opts.Duration.tdiv opts.Steps)

/-- The function `MoveMouseBezier(page, targetX, targetY, opts)`; `opts = none` is the
nil pointer.  The result is the trace of actions and the way the call ends. -/
def MoveMouseBezier (m : MathLib) (rng : RandSource) (k : Nat) (page : Page)
    (targetX targetY : ℚ) (opts : Option MoveMouseOptions) : List Action × Outcome :=
  let o : MoveMouseOptions × Nat :=
    match opts with
    | some o => (o, k)
    | none => DefaultMoveMouseOptions rng k
  let start : Point := { X := 500, Y := 500 }
  let stop : Point := { X := targetX, Y := targetY }
  let c := NewBezierCurve m rng o.2 start stop
  match c.1.GeneratePath o.1.Steps with
  | none => ([], .panic "makeslice: len out of range")
  | some path =>
    if o.1.Steps = 0 then ([], .panic "integer divide by zero")
    else
      let r := movePath page (stepDelayOf o.1) path.length path 0 []
      if r.2 = .ok then
        if o.1.Overshoot then
          let overshootDistance := 5 + rng.float64 c.2 * 15
          let angle := rng.float64 (c.2 + 1) * m.Pi * 2
          let overshootX := targetX + m.Cos angle * overshootDistance
          let overshootY := targetY + m.Sin angle * overshootDistance
          (r.1 ++ [.mouseMoveTo { X := overshootX, Y := overshootY },
                   .sleep (msDuration (50 + rng.intn (c.2 + 2) 100)),
                   .mouseMoveTo { X := targetX, Y := targetY }], .ok)
        else (r.1, .ok)
      else r

/-- The expression `0.8 + rand.Float64()*0.4` of `ScrollWithVariation` for the draw `f`,
in `float64` arithmetic: the constants are rounded to `float64`, then the product and
the sum. -/
def scrollFactor (f : ℚ) : ℚ :=
  round64 (round64 (8 / 10) + round64 (f * round64 (4 / 10)))

/-- The loop `for i := 0; i < chunks; i++` of `ScrollWithVariation` with `n` iterations
left, `k` draws made and `tr` the actions so far; the result also carries the number
of draws made. -/
def scrollChunks (rng : RandSource) (page : Page) (chunks : Int) (chunkSize : ℚ) :
    Nat → Nat → List Action → List Action × Outcome × Nat
  | 0, k, tr => (tr, .ok, k)
  | n + 1, k, tr =>
    let variation := round64 (chunkSize * scrollFactor (rng.float64 k))
    if page.fails tr (.mouseScroll 0 variation chunks) then
      (tr ++ [.mouseScroll 0 variation chunks], .error "Mouse.Scroll", k + 1)
    else
      scrollChunks rng page chunks chunkSize n (k + 2)
        (tr ++ [.mouseScroll 0 variation chunks,
                .sleep (msDuration (50 + rng.intn (k + 1) 150))])

/-- The function `ScrollWithVariation(page, deltaY)`, in `float64` arithmetic.  The
conversion `float64(chunks)` of an integer between 3 and 7 is exact. -/
def ScrollWithVariation (rng : RandSource) (k : Nat) (page : Page) (deltaY : ℚ) :
    List Action × Outcome :=
  let chunks := 3 + rng.intn k 5
  let chunkSize := round64 (deltaY / ((chunks : Int) : ℚ))
  let r := scrollChunks rng page chunks chunkSize chunks.toNat (k + 1) []
  if r.2.1 = .ok then
    if rng.float64 r.2.2 < 2 / 10 then
      (r.1 ++ [.sleep (msDuration (100 + rng.intn (r.2.2 + 1) 200)),
               .mouseScroll 0 (round64 (-deltaY * round64 (1 / 10))) 1], .ok)
    else (r.1, .ok)
  else (r.1, r.2.1)

/-- The delays of the sleeps of the loop of `MoveMouseBezier` when every step of the
path is traversed: `pathDelay` at the indices `0 .. len(path)-1`, the path having
`opts.Steps` points. -/
def stepDelays (opts : MoveMouseOptions) : List Int :=
  (List.range opts.Steps.toNat).map fun (i : Nat) =>
    pathDelay (stepDelayOf opts) (opts.Steps.toNat : Int) (i : Int)

/-! ## pkg/stealth/typing.go -/

structure TypingOptions where
  MinDelay : Int
  MaxDelay : Int
  TypoProbability : ℚ
  WordPauseMultiplier : ℚ
  BurstProbability : ℚ
  deriving DecidableEq, Repr

/-- The function `DefaultTypingOptions()`. -/
def DefaultTypingOptions : TypingOptions :=
  { MinDelay := 50, MaxDelay := 200, TypoProbability := 5 / 100,
    WordPauseMultiplier := 2, BurstProbability := 15 / 100 }

/-- The case tables of package `unicode` (for runes outside ASCII), which are not
part of the repository. -/
structure Unicode where
  ToLower : Int → Int
  ToUpper : Int → Int

/-- The rune of a character literal. -/
def rune (c : Char) : Int := (c.toNat : Int)

/-- Whether `r` is a Unicode scalar value, i.e. what `string(r)` encodes as itself. -/
def validRune (r : Int) : Bool :=
  decide (0 ≤ r ∧ r ≤ 0x10FFFF ∧ ¬ (0xD800 ≤ r ∧ r ≤ 0xDFFF))

/-- The first byte of the UTF-8 encoding of the rune `r`; an invalid rune is encoded
as U+FFFD, whose first byte is `0xEF`. -/
def utf8FirstByte (r : Int) : Int :=
  if validRune r = false then 0xEF
  else if r < 0x80 then r
  else if r < 0x800 then 0xC0 + r / 64
  else if r < 0x10000 then 0xE0 + r / 4096
  else 0xF0 + r / 262144

/-- The expression `rune(strings.ToLower(string(char))[0])`: `strings.ToLower` lowers an
all-ASCII string bytewise and maps any other string rune by rune through
`unicode.ToLower`. -/
def lowerFirstByte (u : Unicode) (char : Int) : Int :=
  let r := if validRune char then char else 0xFFFD
  if r < 0x80 then (if rune 'A' ≤ r ∧ r ≤ rune 'Z' then r + (rune 'a' - rune 'A') else r)
  else utf8FirstByte (u.ToLower r)

/-- The expression `rune(strings.ToUpper(string(typo))[0])`. -/
def upperFirstByte (u : Unicode) (typo : Int) : Int :=
  let r := if validRune typo then typo else 0xFFFD
  if r < 0x80 then (if rune 'a' ≤ r ∧ r ≤ rune 'z' then r - (rune 'a' - rune 'A') else r)
  else utf8FirstByte (u.ToUpper r)

/-- The map literal `typoMap` of `getTypoChar`. -/
def typoMap : List (Int × List Int) :=
  [ (rune 'a', [rune 's', rune 'q', rune 'w', rune 'z']),
    (rune 'b', [rune 'v', rune 'g', rune 'h', rune 'n']),
    (rune 'c', [rune 'x', rune 'd', rune 'f', rune 'v']),
    (rune 'd', [rune 's', rune 'e', rune 'r', rune 'f']),
    (rune 'e', [rune 'w', rune 'r', rune 'd', rune 's']),
    (rune 'f', [rune 'd', rune 'r', rune 't', rune 'g']),
    (rune 'g', [rune 'f', rune 't', rune 'y', rune 'h']),
    (rune 'h', [rune 'g', rune 'y', rune 'u', rune 'j']),
    (rune 'i', [rune 'u', rune 'o', rune 'k', rune 'j']),
    (rune 'j', [rune 'h', rune 'u', rune 'i', rune 'k']),
    (rune 'k', [rune 'j', rune 'i', rune 'o', rune 'l']),
    (rune 'l', [rune 'k', rune 'o', rune 'p']),
    (rune 'm', [rune 'n', rune 'j', rune 'k']),
    (rune 'n', [rune 'b', rune 'h', rune 'j', rune 'm']),
    (rune 'o', [rune 'i', rune 'p', rune 'l', rune 'k']),
    (rune 'p', [rune 'o', rune 'l']),
    (rune 'q', [rune 'w', rune 'a']),
    (rune 'r', [rune 'e', rune 't', rune 'f', rune 'd']),
    (rune 's', [rune 'a', rune 'w', rune 'e', rune 'd']),
    (rune 't', [rune 'r', rune 'y', rune 'g', rune 'f']),
    (rune 'u', [rune 'y', rune 'i', rune 'j', rune 'h']),
    (rune 'v', [rune 'c', rune 'f', rune 'g', rune 'b']),
    (rune 'w', [rune 'q', rune 'e', rune 's', rune 'a']),
    (rune 'x', [rune 'z', rune 's', rune 'd', rune 'c']),
    (rune 'y', [rune 't', rune 'u', rune 'h', rune 'g']),
    (rune 'z', [rune 'a', rune 's', rune 'x']) ]

/-- The slice literal `nearby` of `getTypoChar`. -/
def nearby : List Int := [rune 'a', rune 'e', rune 'i', rune 'o', rune 'u']

/-- The index expression `l[i]`: `none` is the panic on an index out of range. -/
def index (l : List Int) (i : Int) : Option Int :=
  if i < 0 then none else l[i.toNat]?

/-- The function `getTypoChar(char)` as the `k`-th draw: `none` is a panic, otherwise
the rune returned and the number of draws made afterwards. -/
def getTypoChar (u : Unicode) (rng : RandSource) (k : Nat) (char : Int) : Option (Int × Nat) :=
  let lowerChar := lowerFirstByte u char
  match typoMap.lookup lowerChar with
  | some typos =>
    match rng.Intn k (typos.length : Int) with
    | none => none
    | some d =>
      match index typos d.1 with
      | none => none
      | some typo =>
        if rune 'A' ≤ char ∧ char ≤ rune 'Z' then some (upperFirstByte u typo, d.2)
        else some (typo, d.2)
  | none =>
    match rng.Intn k (nearby.length : Int) with
    | none => none
    | some d =>
      match index nearby d.1 with
      | none => none
      | some c => some (c, d.2)

/-- The conversion of a `float64` to `time.Duration`: truncation towards zero. -/
def truncQ (q : ℚ) : Int := if 0 ≤ q then ⌊q⌋ else ⌈q⌉

/-- The update of `inBurst` at the head of the loop body of `TypeHumanLike`, with the
draws that the short-circuit evaluation makes. -/
def burstStep (rng : RandSource) (opts : TypingOptions) (inBurst : Bool) (char : Int)
    (k : Nat) : Bool × Nat :=
  if inBurst = false then
    (if rng.float64 k < opts.BurstProbability then (true, k + 1) else (false, k + 1))
  else if char = rune ' ' then (false, k)
  else (if rng.float64 k < 3 / 10 then (false, k + 1) else (true, k + 1))

/-- The computation of `delay` in the loop body of `TypeHumanLike`; `none` is the panic
of `rand.Intn` on a non-positive argument. -/
def delayStep (rng : RandSource) (opts : TypingOptions) (inBurst : Bool) (char : Int)
    (k : Nat) : Option (Int × Nat) :=
  let d : Option (Int × Nat) :=
    if inBurst then
      match rng.Intn k opts.MinDelay with
      | none => none
      | some v => some (msDuration (opts.MinDelay.tdiv 2 + v.1), v.2)
    else
      match rng.Intn k (wrap64 (opts.MaxDelay - opts.MinDelay)) with
      | none => none
      | some v => some (msDuration (opts.MinDelay + v.1), v.2)
  match d with
  | none => none
  | some v =>
    if char = rune ' ' then some (truncQ ((v.1 : ℚ) * opts.WordPauseMultiplier), v.2)
    else some v

/-- The block `if rand.Float64() < opts.TypoProbability && char != ' '` of
`TypeHumanLike`: the actions so far, how the block ends, and the draws made. -/
def typoStep (u : Unicode) (rng : RandSource) (page : Page) (opts : TypingOptions)
    (char : Int) (k : Nat) (tr : List Action) : List Action × Outcome × Nat :=
  if rng.float64 k < opts.TypoProbability ∧ char ≠ rune ' ' then
    match getTypoChar u rng (k + 1) char with
    | none => (tr, .panic "getTypoChar", k + 1)
    | some w =>
      if page.fails tr (.keyType (.char w.1)) then
        (tr ++ [.keyType (.char w.1)], .error "Keyboard.Type", w.2)
      else if page.fails
          (tr ++ [.keyType (.char w.1), .sleep (msDuration (100 + rng.intn w.2 300))])
          (.keyType .Backspace) then
        (tr ++ [.keyType (.char w.1), .sleep (msDuration (100 + rng.intn w.2 300)),
                .keyType .Backspace], .error "Keyboard.Type", w.2 + 1)
      else
        (tr ++ [.keyType (.char w.1), .sleep (msDuration (100 + rng.intn w.2 300)),
                .keyType .Backspace, .sleep (msDuration (50 + rng.intn (w.2 + 1) 100))],
          .ok, w.2 + 2)
  else (tr, .ok, k + 1)

/-- The loop `for i := 0; i < len(runes); i++` of `TypeHumanLike` over the remaining
runes. -/
def typeRunes (u : Unicode) (rng : RandSource) (page : Page) (opts : TypingOptions) :
    List Int → Bool → Nat → List Action → List Action × Outcome
  | [], _, _, tr => (tr, .ok)
  | char :: rest, inBurst, k, tr =>
    let b := burstStep rng opts inBurst char k
    match delayStep rng opts b.1 char b.2 with
    | none => (tr, .panic "invalid argument to Intn")
    | some d =>
      let t := typoStep u rng page opts char d.2 tr
      if t.2.1 = .ok then
        if page.fails t.1 (.keyType (.char char)) then
          (t.1 ++ [.keyType (.char char)], .error "Keyboard.Type")
        else
          typeRunes u rng page opts rest b.1 t.2.2
            (t.1 ++ [.keyType (.char char), .sleep d.1])
      else (t.1, t.2.1)

/-- The function `TypeHumanLike(page, text, opts)`; `runes` is `[]rune(text)` and
`opts = none` the nil pointer. -/
def TypeHumanLike (u : Unicode) (rng : RandSource) (k : Nat) (page : Page)
    (runes : List Int) (opts : Option TypingOptions) : List Action × Outcome :=
  typeRunes u rng page (opts.getD DefaultTypingOptions) runes false k []

/-- A random source whose every `Float64` draw is 1/2 and every `Intn` draw 0. -/
def RandSource.half : RandSource :=
  { float64 := fun _ => 1 / 2
    intn := fun _ _ => 0
    float64_range := fun _ => ⟨by norm_num, by norm_num⟩
    intn_range := fun _ _ h => ⟨le_refl _, h⟩ }

/-- Case tables that leave every rune unchanged, for evaluating examples. -/
def Unicode.sample : Unicode := { ToLower := fun r => r, ToUpper := fun r => r }

/-! ## pkg/browser/session.go -/

/-- The struct `Session`; `Timestamp` is an instant in nanoseconds, an entry `none` of
`Cookies` a nil pointer. -/
structure Session where
  Cookies : List (Option NetworkCookie)
  UserAgent : String
  Timestamp : Int
  deriving DecidableEq, Repr

/-- The functions of `encoding/json` on `Session`, over the byte representation
`Data`; `none` is an error. -/
structure JsonCodec (Data : Type) where
  MarshalIndent : Session → Option Data
  Unmarshal : Data → Option Session

/-- What a storage location holds: nothing, a file that cannot be read, or a file
with its content. -/
inductive FileState (Data : Type) where
  | absent
  | unreadable
  | file (data : Data)

/-- The file system: the state of every location, and whether writing to a location
or removing its file fails. -/
structure FileSystem (Data : Type) where
  files : String → FileState Data
  writeFails : String → Bool
  /-- Whether removing an existing file at a location fails. -/
  removeFails : String → Bool := fun _ => false

/-- Whether `os.Stat(filename)` returns an error for which `os.IsNotExist` holds. -/
def FileSystem.statNotExist {Data : Type} (fs : FileSystem Data) (filename : String) : Bool :=
  match fs.files filename with
  | .absent => true
  | _ => false

/-- The call `os.ReadFile(filename)`; `none` is an error. -/
def FileSystem.ReadFile {Data : Type} (fs : FileSystem Data) (filename : String) :
    Option Data :=
  match fs.files filename with
  | .file data => some data
  | _ => none

/-- The call `os.WriteFile(filename, data, 0600)`; `none` is an error, otherwise the
file system in which the location holds exactly `data`. -/
def FileSystem.WriteFile {Data : Type} (fs : FileSystem Data) (filename : String)
    (data : Data) : Option (FileSystem Data) :=
  if fs.writeFails filename then none
  else some { fs with files := fun f => if f = filename then .file data else fs.files f }

/-- The least and the greatest `time.Duration`. -/
def minDuration : Int := -2 ^ 63

def maxDuration : Int := 2 ^ 63 - 1

/-- The call `time.Since(t)` at the instant `now`: the difference, saturated to the
range of `time.Duration`. -/
def timeSince (now t : Int) : Int := max minDuration (min maxDuration (now - t))

/-- The function `SaveSession(page, filename)` at the instant `now`. -/
def SaveSession {Data : Type} (codec : JsonCodec Data) (page : Page) (fs : FileSystem Data)
    (filename : String) (now : Int) : FileSystem Data × Outcome :=
  match page.Cookies with
  | none => (fs, .error "failed to get cookies")
  | some cookies =>
    match page.UserAgent with
    | none => (fs, .error "failed to get user agent")
    | some userAgent =>
      let ua := if userAgent ≠ "" then userAgent else ""
      let session : Session := { Cookies := cookies, UserAgent := ua, Timestamp := now }
      match codec.MarshalIndent session with
      | none => (fs, .error "failed to marshal session")
      | some data =>
        match fs.WriteFile filename data with
        | none => (fs, .error "failed to write session file")
        | some fs1 => (fs1, .ok)

/-- The struct literal built in the loop of `LoadSession` for the cookie `c`. -/
def cookieParam (c : NetworkCookie) : NetworkCookieParam :=
  { Name := c.Name, Value := c.Value, URL := "", Domain := c.Domain, Path := c.Path,
    Secure := c.Secure, HTTPOnly := c.HTTPOnly, SameSite := c.SameSite,
    Expires := c.Expires, Priority := c.Priority, SameParty := c.SameParty,
    SourceScheme := c.SourceScheme, SourcePort := some c.SourcePort }

/-- The loop `for i, c := range session.Cookies` of `LoadSession`; `none` is the panic
of `c.SourcePort` on a nil pointer. -/
def cookieParams : List (Option NetworkCookie) → Option (List NetworkCookieParam)
  | [] => some []
  | none :: _ => none
  | some c :: rest =>
    match cookieParams rest with
    | none => none
    | some ps => some (cookieParam c :: ps)

/-- What a call of `LoadSession` does: how it ends, the value of its variable
`session` once decoded, and the parameters it passes to `page.SetCookies`. -/
structure LoadResult where
  outcome : Outcome
  session : Option Session
  params : Option (List NetworkCookieParam)
  deriving DecidableEq, Repr

/-- The function `LoadSession(page, filename)` at the instant `now`. -/
def LoadSession {Data : Type} (codec : JsonCodec Data) (page : Page) (fs : FileSystem Data)
    (filename : String) (now : Int) : LoadResult :=
  if fs.statNotExist filename then
    { outcome := .error "session file not found", session := none, params := none }
  else
    match fs.ReadFile filename with
    | none => { outcome := .error "failed to read session file", session := none, params := none }
    | some data =>
      match codec.Unmarshal data with
      | none =>
        { outcome := .error "failed to unmarshal session", session := none, params := none }
      | some session =>
        if timeSince now session.Timestamp > 7 * 24 * Hour then
          { outcome := .error "session expired (older than 7 days)", session := some session,
            params := none }
        else
          match cookieParams session.Cookies with
          | none =>
            { outcome := .panic "nil pointer dereference", session := some session,
              params := none }
          | some ps =>
            if page.setCookiesFails ps then
              { outcome := .error "failed to set cookies", session := some session,
                params := some ps }
            else { outcome := .ok, session := some session, params := some ps }

/-- The function `IsSessionValid(filename)` at the instant `now`. -/
def IsSessionValid {Data : Type} (codec : JsonCodec Data) (fs : FileSystem Data)
    (filename : String) (now : Int) : Bool :=
  if fs.statNotExist filename then false
  else
    match fs.ReadFile filename with
    | none => false
    | some data =>
      match codec.Unmarshal data with
      | none => false
      | some session =>
        if timeSince now session.Timestamp > 7 * 24 * Hour then false
        else if session.Cookies.length = 0 then false
        else true

/-- A codec whose byte representation is the record itself, for evaluating examples. -/
def JsonCodec.sample : JsonCodec Session := { MarshalIndent := some, Unmarshal := some }

/-- An empty file system on which writing succeeds, for evaluating examples. -/
def FileSystem.empty (Data : Type) : FileSystem Data :=
  { files := fun _ => .absent, writeFails := fun _ => false }

/-- A session cookie, for evaluating examples. -/
def NetworkCookie.sample (name value : String) : NetworkCookie :=
  { Name := name, Value := value, Domain := ".example.com", Path := "/", Expires := -1,
    HTTPOnly := true, Secure := true, SameSite := "Lax", Priority := "Medium",
    SameParty := false, SourceScheme := "Secure", SourcePort := 443 }

/-- A session with one cookie and user agent "UA-X" saved at instant 0. -/
def Session.sample : Session :=
  { Cookies := [some (NetworkCookie.sample "li_at" "v")], UserAgent := "UA-X", Timestamp := 0 }

/-- A file system whose location "session.json" holds `Session.sample`. -/
def FileSystem.stored : FileSystem Session :=
  { files := fun f => if f = "session.json" then .file Session.sample else .absent
    writeFails := fun _ => false }

/-- Three cookies, for evaluating examples. -/
def NetworkCookie.samples : List NetworkCookie :=
  [NetworkCookie.sample "li_at" "v1", NetworkCookie.sample "JSESSIONID" "v2",
   NetworkCookie.sample "lang" "v3"]

/-- A page holding the three sample cookies and the user agent "UA-X". -/
def Page.loggedIn : Page :=
  { fails := fun _ _ => false
    Cookies := some (NetworkCookie.samples.map some)
    UserAgent := some "UA-X" }

/-- A codec that rejects every content, for evaluating examples. -/
def JsonCodec.rejecting : JsonCodec Session :=
  { MarshalIndent := some, Unmarshal := fun _ => none }

/-- A curve from (0,0) to (100,0), for evaluating examples. -/
def BezierCurve.sample : BezierCurve :=
  { Start := { X := 0, Y := 0 }, End := { X := 100, Y := 0 },
    Control1 := { X := 25, Y := 30 }, Control2 := { X := 75, Y := -30 } }

/-! ## Traces -/

/-- The positions of the pointer moves of a trace, in order. -/
def moveTargets (tr : List Action) : List Point :=
  tr.filterMap fun a => match a with
    | .mouseMoveTo p => some p
    | _ => none

/-- The durations of the sleeps of a trace, in order. -/
def sleeps (tr : List Action) : List Int :=
  tr.filterMap fun a => match a with
    | .sleep d => some d
    | _ => none

/-- The scroll calls of a trace, in order, as (deltaY, steps). -/
def scrolls (tr : List Action) : List (ℚ × Int) :=
  tr.filterMap fun a => match a with
    | .mouseScroll _ y s => some (y, s)
    | _ => none

/-- A page on which no driver call fails. -/
def Page.reliable : Page := { fails := fun _ _ => false }

/-- A random source whose every draw is the least value of its range. -/
def RandSource.zero : RandSource :=
  { float64 := fun _ => 0
    intn := fun _ _ => 0
    float64_range := fun _ => ⟨le_refl _, by norm_num⟩
    intn_range := fun _ _ h => ⟨le_refl _, h⟩ }

/-- A random source whose every `Intn` draw is the greatest value of its range and
whose every `Float64` draw is 0. -/
def RandSource.top : RandSource :=
  { float64 := fun _ => 0
    intn := fun _ n => n - 1
    float64_range := fun _ => ⟨le_refl _, by norm_num⟩
    intn_range := fun _ n h => by
      show 0 ≤ n - 1 ∧ n - 1 < n
      omega }

/-- A stand-in for package `math` with rational values, for evaluating examples. -/
def MathLib.sample : MathLib :=
  { Sqrt := fun x => x, Cos := fun _ => 1, Sin := fun _ => 0, Pi := 3 }

/-- The square of the distance between two points. -/
def distSq (p q : Point) : ℚ := (p.X - q.X) ^ 2 + (p.Y - q.Y) ^ 2

/-- The point of the chord from `start` to `stop` at parameter `t`. -/
def chordPoint (start stop : Point) (t : ℚ) : Point :=
  { X := start.X + t * (stop.X - start.X), Y := start.Y + t * (stop.Y - start.Y) }

/-- A stand-in for package `math` that is exact on the chord from (0,0) to (100,0):
`Sqrt 10000 = 100`, and `Cos`, `Sin` are those of the angle 0. -/
def MathLib.axis : MathLib :=
  { Sqrt := fun x => x / 100, Cos := fun _ => 1, Sin := fun _ => 0, Pi := 3 }

/-- The straight-line midpoint `(start + end) / 2`. -/
def midpoint (start stop : Point) : Point :=
  { X := (start.X + stop.X) / 2, Y := (start.Y + stop.Y) / 2 }

/-- The result of `os.Remove(filename)`: the file system without the file, an error
for which `os.IsNotExist` holds, or another error. -/
inductive RemoveResult (Data : Type) where
  | removed (fs : FileSystem Data)
  | notExist
  | failed

/-- The call `os.Remove(filename)`. -/
def FileSystem.Remove {Data : Type} (fs : FileSystem Data) (filename : String) :
    RemoveResult Data :=
  match fs.files filename with
  | .absent => .notExist
  | _ =>
    if fs.removeFails filename then .failed
    else .removed { fs with files := fun f => if f = filename then .absent else fs.files f }

/-- The function `ClearSession(filename)`. -/
def ClearSession {Data : Type} (fs : FileSystem Data) (filename : String) :
    FileSystem Data × Outcome :=
  match fs.Remove filename with
  | .failed => (fs, .error "failed to remove session file")
  | .notExist => (fs, .ok)
  | .removed fs1 => (fs1, .ok)

/-- The file system `FileSystem.stored` with a session file that cannot be removed. -/
def FileSystem.locked : FileSystem Session :=
  { FileSystem.stored with removeFails := fun _ => true }

/-- The lower-case form of a character: the rune of `strings.ToLower(string(char))`,
of which `lowerFirstByte` is the first byte. -/
def lowerRune (u : Unicode) (char : Int) : Int :=
  let r := if validRune char then char else 0xFFFD
  if r < 0x80 then (if rune 'A' ≤ r ∧ r ≤ rune 'Z' then r + (rune 'a' - rune 'A') else r)
  else u.ToLower r

/-! ## pkg/stealth/mouse.go : geometry in float64 arithmetic

The functions `NewBezierCurve`, `CalculatePoint` and `GeneratePath` once more, with
every operation on `float64` rounded by `round64`, in the order in which the source
evaluates it.  The constants 0.25, 0.75, 2 and 3 are `float64` values; 0.2 and 0.3 are
rounded. -/

/-- The argument `dx*dx + dy*dy` of `math.Sqrt` in `NewBezierCurve`. -/
def Float64.sumSquares (start stop : Point) : ℚ :=
  round64 (round64 (round64 (stop.X - start.X) * round64 (stop.X - start.X))
    + round64 (round64 (stop.Y - start.Y) * round64 (stop.Y - start.Y)))

/-- The value of the variable `distance` of `NewBezierCurve`. -/
def Float64.chordDistance (m : MathLib) (start stop : Point) : ℚ :=
  m.Sqrt (Float64.sumSquares start stop)

/-- The expression `0.2 + rand.Float64()*0.3` of `NewBezierCurve` for the draw `f`. -/
def Float64.offsetFactor (f : ℚ) : ℚ :=
  round64 (round64 (2 / 10) + round64 (f * round64 (3 / 10)))

/-- The value of the variable `offsetMagnitude` of `NewBezierCurve`, `k` draws having
been made before the call. -/
def Float64.offsetMagnitudeOf (m : MathLib) (rng : RandSource) (k : Nat) (start stop : Point) : ℚ :=
  round64 (Float64.chordDistance m start stop * Float64.offsetFactor (rng.float64 k))

/-- The expression `rand.Float64() * math.Pi * 2` for the draw `f`; `m.Pi` is the
`float64` value of the constant `math.Pi`. -/
def Float64.angleOf (m : MathLib) (f : ℚ) : ℚ :=
  round64 (round64 (f * m.Pi) * 2)

/-- The function `NewBezierCurve(start, end)`; `k` is the number of draws already made,
the result carries the number of draws made afterwards. -/
def Float64.NewBezierCurve (m : MathLib) (rng : RandSource) (k : Nat) (start stop : Point) :
    BezierCurve × Nat :=
  let dx := round64 (stop.X - start.X)
  let dy := round64 (stop.Y - start.Y)
  let distance := m.Sqrt (round64 (round64 (dx * dx) + round64 (dy * dy)))
  let offsetMagnitude :=
    round64 (distance * round64 (round64 (2 / 10) + round64 (rng.float64 k * round64 (3 / 10))))
  let angle1 := round64 (round64 (rng.float64 (k + 1) * m.Pi) * 2)
  let angle2 := round64 (round64 (rng.float64 (k + 2) * m.Pi) * 2)
  let control1 : Point :=
    { X := round64 (round64 (start.X + round64 (dx * (25 / 100)))
        + round64 (m.Cos angle1 * offsetMagnitude))
      Y := round64 (round64 (start.Y + round64 (dy * (25 / 100)))
        + round64 (m.Sin angle1 * offsetMagnitude)) }
  let control2 : Point :=
    { X := round64 (round64 (start.X + round64 (dx * (75 / 100)))
        + round64 (m.Cos angle2 * offsetMagnitude))
      Y := round64 (round64 (start.Y + round64 (dy * (75 / 100)))
        + round64 (m.Sin angle2 * offsetMagnitude)) }
  ({ Start := start, End := stop, Control1 := control1, Control2 := control2 }, k + 3)

/-- One coordinate of `CalculatePoint(t)`: the sum of the four products, evaluated from
the left as in the source, for the coordinates `s`, `c1`, `c2`, `e` of the start, the
two control points and the end. -/
def Float64.bezierCoordinate (m : MathLib) (t s c1 c2 e : ℚ) : ℚ :=
  let oneMinusT := round64 (1 - t)
  round64 (round64 (round64 (
        round64 (m.Pow oneMinusT 3 * s)
      + round64 (round64 (round64 (3 * m.Pow oneMinusT 2) * t) * c1))
      + round64 (round64 (round64 (3 * oneMinusT) * m.Pow t 2) * c2))
      + round64 (m.Pow t 3 * e))

/-- The method `(*BezierCurve).CalculatePoint(t)`. -/
def Float64.CalculatePoint (m : MathLib) (bc : BezierCurve) (t : ℚ) : Point :=
  { X := Float64.bezierCoordinate m t bc.Start.X bc.Control1.X bc.Control2.X bc.End.X
    Y := Float64.bezierCoordinate m t bc.Start.Y bc.Control1.Y bc.Control2.Y bc.End.Y }

/-- The method `(*BezierCurve).GeneratePath(numPoints)`; `float64(i)` and
`float64(numPoints-1)` are the conversions of the integers, the quotient is rounded.
`none` is the panic of `make([]Point, numPoints)` on a negative length.  For
`numPoints = 1` the source divides `0.0 / 0.0`; the division used here is meaningful
for `numPoints ≠ 1` only. -/
def Float64.GeneratePath (m : MathLib) (bc : BezierCurve) (numPoints : Int) : Option (List Point) :=
  if numPoints < 0 then none
  else some ((List.range numPoints.toNat).map fun (i : Nat) =>
    Float64.CalculatePoint m bc
      (round64 (round64 (((i : Int) : ℚ)) / round64 (((numPoints - 1 : Int) : ℚ)))))

/-- A stand-in for package `math` at the arguments of one call of `NewBezierCurve`:
`d` is the value of `math.Sqrt` and `c`, `s` are the values of `math.Cos` and `math.Sin`
there; `Pi` is the `float64` value of the constant `math.Pi`, and `Pow` is exact. -/
def MathLib.constant (d c s : ℚ) : MathLib :=
  { Sqrt := fun _ => d, Cos := fun _ => c, Sin := fun _ => s,
    Pi := 884279719003555 / 281474976710656 }

/-- A random source whose every `Float64` draw is 1/8 and every `Intn` draw 0. -/
def RandSource.eighth : RandSource :=
  { float64 := fun _ => 1 / 8
    intn := fun _ _ => 0
    float64_range := fun _ => ⟨by norm_num, by norm_num⟩
    intn_range := fun _ _ h => ⟨le_refl _, h⟩ }

/-- The values of package `math` for a call of `NewBezierCurve` with a chord of length
500 and both angles `math.Pi / 4` (every `Float64` draw 1/8): `math.Sqrt(250000) = 500`,
and for the cosine and the sine the `float64` values 0.7071067811865476 and
0.7071067811865475. -/
def MathLib.diagonal : MathLib :=
  MathLib.constant 500 (6369051672525773 / 9007199254740992)
    (1592262918131443 / 2251799813685248)

/-! ## pkg/stealth/fingerprint.go -/

/-- The fields of `proto.EmulationSetDeviceMetricsOverride` that the repository sets. -/
structure Viewport where
  Width : Int
  Height : Int
  DeviceScaleFactor : ℚ
  Mobile : Bool
  deriving DecidableEq, Repr

/-- The struct `FingerprintConfig`; `Viewport` is a pointer. -/
structure FingerprintConfig where
  UserAgent : String
  Viewport : Option Viewport
  Language : String
  Timezone : String
  WebRTCPolicy : String
  DisableWebGL : Bool
  CanvasNoise : Bool
  deriving DecidableEq, Repr

/-- The variable `UserAgents`. -/
def UserAgents : List String :=
  [ "Mozilla/5.0 (Windows NT 10.0; Win64; x64) AppleWebKit/537.36 (KHTML, like Gecko) Chrome/120.0.0.0 Safari/537.36",
    "Mozilla/5.0 (Windows NT 10.0; Win64; x64) AppleWebKit/537.36 (KHTML, like Gecko) Chrome/119.0.0.0 Safari/537.36",
    "Mozilla/5.0 (Macintosh; Intel Mac OS X 10_15_7) AppleWebKit/537.36 (KHTML, like Gecko) Chrome/120.0.0.0 Safari/537.36",
    "Mozilla/5.0 (Macintosh; Intel Mac OS X 10_15_7) AppleWebKit/537.36 (KHTML, like Gecko) Chrome/119.0.0.0 Safari/537.36",
    "Mozilla/5.0 (Windows NT 10.0; Win64; x64; rv:121.0) Gecko/20100101 Firefox/121.0",
    "Mozilla/5.0 (Macintosh; Intel Mac OS X 10_15_7) AppleWebKit/605.1.15 (KHTML, like Gecko) Version/17.1 Safari/605.1.15" ]

/-- The variable `CommonViewports`, as (Width, Height). -/
def CommonViewports : List (Int × Int) :=
  [(1920, 1080), (1366, 768), (1536, 864), (1440, 900), (1280, 720)]

/-- The index expression `l[i]` on a slice: `none` is the panic on an index out of
range. -/
def indexAt {α : Type} (l : List α) (i : Int) : Option α :=
  if i < 0 then none else l[i.toNat]?

/-- The function `NewRandomFingerprintConfig()`; `rng` is the random stream that
`rand.Seed` installs and `k` the number of draws made from it.  `none` is a panic. -/
def NewRandomFingerprintConfig (rng : RandSource) (k : Nat) : Option (FingerprintConfig × Nat) :=
  match indexAt UserAgents (rng.intn k (UserAgents.length : Int)) with
  | none => none
  | some userAgent =>
    match indexAt CommonViewports (rng.intn (k + 1) (CommonViewports.length : Int)) with
    | none => none
    | some viewport =>
      let viewportWidth := viewport.1 + rng.intn (k + 2) 100 - 50
      let viewportHeight := viewport.2 + rng.intn (k + 3) 100 - 50
      some ({ UserAgent := userAgent
              Viewport := some { Width := viewportWidth, Height := viewportHeight,
                                 DeviceScaleFactor := 1, Mobile := false }
              Language := "en-US,en;q=0.9"
              Timezone := "America/New_York"
              WebRTCPolicy := "default_public_interface_only"
              DisableWebGL := false
              CanvasNoise := true }, k + 4)

/-- The part of the first raw string of `injectStealthScripts` that holds removal of `navigator.webdriver`. -/
def webdriverFragment : String :=
  "\n" ++
  "\t\t// Remove webdriver property\n" ++
  "\t\tObject.defineProperty(navigator, \x27webdriver\x27, \x7b\n" ++
  "\t\t\tget: () => undefined\n" ++
  "\t\t\x7d);\n" ++
  "\t\t\n"

/-- The part of the first raw string of `injectStealthScripts` that holds the fabricated plugin list. -/
def pluginsFragment : String :=
  "\t\t// Override plugins to appear more realistic\n" ++
  "\t\tObject.defineProperty(navigator, \x27plugins\x27, \x7b\n" ++
  "\t\t\tget: () => [\n" ++
  "\t\t\t\t\x7b\n" ++
  "\t\t\t\t\t0: \x7btype: \"application/x-google-chrome-pdf\", suffixes: \"pdf\", description: \"Portable Document Format\"\x7d,\n" ++
  "\t\t\t\t\tdescription: \"Portable Document Format\",\n" ++
  "\t\t\t\t\tfilename: \"internal-pdf-viewer\",\n" ++
  "\t\t\t\t\tlength: 1,\n" ++
  "\t\t\t\t\tname: \"Chrome PDF Plugin\"\n" ++
  "\t\t\t\t\x7d,\n" ++
  "\t\t\t\t\x7b\n" ++
  "\t\t\t\t\t0: \x7btype: \"application/pdf\", suffixes: \"pdf\", description: \"Portable Document Format\"\x7d,\n" ++
  "\t\t\t\t\tdescription: \"Portable Document Format\",\n" ++
  "\t\t\t\t\tfilename: \"mhjfbmdgcfjbbpaeojofohoefgiehjai\",\n" ++
  "\t\t\t\t\tlength: 1,\n" ++
  "\t\t\t\t\tname: \"Chrome PDF Viewer\"\n" ++
  "\t\t\t\t\x7d\n" ++
  "\t\t\t]\n" ++
  "\t\t\x7d);\n" ++
  "\t\t\n"

/-- The part of the first raw string of `injectStealthScripts` that holds the override of `navigator.languages`. -/
def languagesFragment : String :=
  "\t\t// Override languages\n" ++
  "\t\tObject.defineProperty(navigator, \x27languages\x27, \x7b\n" ++
  "\t\t\tget: () => [\x27en-US\x27, \x27en\x27]\n" ++
  "\t\t\x7d);\n" ++
  "\t\t\n"

/-- The part of the first raw string of `injectStealthScripts` that holds the patch of `navigator.permissions.query`. -/
def permissionsFragment : String :=
  "\t\t// Override permissions\n" ++
  "\t\tconst originalQuery = window.navigator.permissions.query;\n" ++
  "\t\twindow.navigator.permissions.query = (parameters) => (\n" ++
  "\t\t\tparameters.name === \x27notifications\x27 ?\n" ++
  "\t\t\t\tPromise.resolve(\x7b state: Notification.permission \x7d) :\n" ++
  "\t\t\t\toriginalQuery(parameters)\n" ++
  "\t\t);\n" ++
  "\t\t\n"

/-- The part of the first raw string of `injectStealthScripts` that holds the stub of `window.chrome.runtime`. -/
def chromeRuntimeFragment : String :=
  "\t\t// Add chrome runtime (makes it look like a real Chrome browser)\n" ++
  "\t\twindow.chrome = \x7b\n" ++
  "\t\t\truntime: \x7b\x7d\n" ++
  "\t\t\x7d;\n" ++
  "\t\t\n"

/-- The part of the first raw string of `injectStealthScripts` that holds the disguise of the patched query function in `Function.prototype.toString`. -/
def toStringFragment : String :=
  "\t\t// Override the toString of functions to hide modifications\n" ++
  "\t\tconst originalToString = Function.prototype.toString;\n" ++
  "\t\tFunction.prototype.toString = function() \x7b\n" ++
  "\t\t\tif (this === window.navigator.permissions.query) \x7b\n" ++
  "\t\t\t\treturn \x27function query() \x7b [native code] \x7d\x27;\n" ++
  "\t\t\t\x7d\n" ++
  "\t\t\treturn originalToString.call(this);\n" ++
  "\t\t\x7d;\n" ++
  "\t"

/-- The raw string appended when `config.CanvasNoise` holds. -/
def canvasNoiseFragment : String :=
  "\n" ++
  "\t\t// Add noise to canvas fingerprinting\n" ++
  "\t\tconst originalGetContext = HTMLCanvasElement.prototype.getContext;\n" ++
  "\t\tHTMLCanvasElement.prototype.getContext = function(type, ...args) \x7b\n" ++
  "\t\t\tconst context = originalGetContext.call(this, type, ...args);\n" ++
  "\t\t\t\n" ++
  "\t\t\tif (type === \x272d\x27) \x7b\n" ++
  "\t\t\t\tconst originalFillText = context.fillText;\n" ++
  "\t\t\t\tcontext.fillText = function(...args) \x7b\n" ++
  "\t\t\t\t\t// Add tiny random noise\n" ++
  "\t\t\t\t\tconst noise = Math.random() * 0.0001;\n" ++
  "\t\t\t\t\tcontext.globalAlpha = 1 - noise;\n" ++
  "\t\t\t\t\treturn originalFillText.apply(this, args);\n" ++
  "\t\t\t\t\x7d;\n" ++
  "\t\t\t\x7d\n" ++
  "\t\t\t\n" ++
  "\t\t\treturn context;\n" ++
  "\t\t\x7d;\n" ++
  "\t\t"

/-- The raw string appended when `config.DisableWebGL` does not hold. -/
def webglFragment : String :=
  "\n" ++
  "\t\t// Mask WebGL fingerprinting\n" ++
  "\t\tconst getParameter = WebGLRenderingContext.prototype.getParameter;\n" ++
  "\t\tWebGLRenderingContext.prototype.getParameter = function(parameter) \x7b\n" ++
  "\t\t\t// Randomize UNMASKED_VENDOR_WEBGL and UNMASKED_RENDERER_WEBGL\n" ++
  "\t\t\tif (parameter === 37445) \x7b\n" ++
  "\t\t\t\treturn \x27Intel Inc.\x27;\n" ++
  "\t\t\t\x7d\n" ++
  "\t\t\tif (parameter === 37446) \x7b\n" ++
  "\t\t\t\treturn \x27Intel Iris OpenGL Engine\x27;\n" ++
  "\t\t\t\x7d\n" ++
  "\t\t\treturn getParameter.call(this, parameter);\n" ++
  "\t\t\x7d;\n" ++
  "\t\t"

/-- The parts of the first raw string of `injectStealthScripts`, in order. -/
def baseFragments : List String :=
  [webdriverFragment, pluginsFragment, languagesFragment, permissionsFragment,
   chromeRuntimeFragment, toStringFragment]

/-- The first raw string of `injectStealthScripts`, the initial value of `stealthScript`. -/
def baseScript : String :=
  webdriverFragment ++ pluginsFragment ++ languagesFragment ++ permissionsFragment
    ++ chromeRuntimeFragment ++ toStringFragment

/-- The value of `stealthScript` after the two conditional appends, as a function of
`config.CanvasNoise` and `config.DisableWebGL`. -/
def stealthScript (canvasNoise disableWebGL : Bool) : String :=
  let s := baseScript
  let s := if canvasNoise then s ++ canvasNoiseFragment else s
  if !disableWebGL then s ++ webglFragment else s

/-- The value of `finalScript`: the format string with `stealthScript` for its verb. -/
def finalScript (canvasNoise disableWebGL : Bool) : String :=
  "(() => \x7b\n" ++ stealthScript canvasNoise disableWebGL ++ "\n\x7d)();"

/-- The function `injectStealthScripts(page, config)`: the script passed to
`page.EvalOnNewDocument` and the way the call ends. -/
def injectStealthScripts (page : Page) (config : FingerprintConfig) : String × Outcome :=
  (finalScript config.CanvasNoise config.DisableWebGL,
    if page.evalOnNewDocumentFails (finalScript config.CanvasNoise config.DisableWebGL) then
      .error "EvalOnNewDocument"
    else .ok)

/-- Whether the characters `frag` begin the characters `text`. -/
def startsWithChars : List Char → List Char → Bool
  | [], _ => true
  | _ :: _, [] => false
  | a :: as, b :: bs => a == b && startsWithChars as bs

/-- Whether the characters `frag` occur contiguously in the characters `text`. -/
def occursInChars (frag : List Char) : List Char → Bool
  | [] => frag.isEmpty
  | c :: cs => startsWithChars frag (c :: cs) || occursInChars frag cs

/-- Whether the text `frag` occurs in the text `text`. -/
def occursIn (frag text : String) : Bool := occursInChars frag.data text.data

/-- The value of `delay` in the loop body of `TypeHumanLike` before the word-pause
multiplier is applied; `none` is the panic of `rand.Intn` on a non-positive argument. -/
def baseDelayStep (rng : RandSource) (opts : TypingOptions) (inBurst : Bool) (k : Nat) :
    Option (Int × Nat) :=
  if inBurst then
    match rng.Intn k opts.MinDelay with
    | none => none
    | some v => some (msDuration (opts.MinDelay.tdiv 2 + v.1), v.2)
  else
    match rng.Intn k (wrap64 (opts.MaxDelay - opts.MinDelay)) with
    | none => none
    | some v => some (msDuration (opts.MinDelay + v.1), v.2)

/-- A session whose cookie list holds one nil pointer, as `json.Unmarshal` decodes the
content `"cookies": [null]`, stored at instant 0. -/
def Session.nullCookie : Session :=
  { Cookies := [none], UserAgent := "UA-X", Timestamp := 0 }

/-- A file system whose location "session.json" holds `Session.nullCookie`. -/
def FileSystem.nullStored : FileSystem Session :=
  { files := fun f => if f = "session.json" then .file Session.nullCookie else .absent
    writeFails := fun _ => false }

/-! ## pkg/linkedin/login.go : contains -/

/-- The slice expression `s[lo:hi]` on a string, a string being its sequence of bytes:
`none` is the panic on bounds out of range. -/
def sliceOf (s : List Nat) (lo hi : Int) : Option (List Nat) :=
  if 0 ≤ lo ∧ lo ≤ hi ∧ hi ≤ (s.length : Int) then
    some ((s.drop lo.toNat).take (hi - lo).toNat)
  else none

/-- The loop of `containsMiddle` with `n` iterations left, at index `i`. -/
def containsMiddleFrom (s substr : List Nat) : Nat → Int → Option Bool
  | 0, _ => some false
  | n + 1, i =>
    match sliceOf s i (i + (substr.length : Int)) with
    | none => none
    | some x => if x = substr then some true else containsMiddleFrom s substr n (i + 1)

/-- The function `containsMiddle(s, substr)`: the loop runs for
`i = 0, ..., len(s)-len(substr)`, that is `len(s)-len(substr)+1` times when that is
positive and not at all otherwise. -/
def containsMiddle (s substr : List Nat) : Option Bool :=
  containsMiddleFrom s substr ((s.length : Int) - (substr.length : Int) + 1).toNat 0

/-- The function `contains(s, substr)`, with the short-circuit evaluation of `&&` and
`||`; `none` is a panic. -/
def contains (s substr : List Nat) : Option Bool :=
  if ¬ ((s.length : Int) ≥ (substr.length : Int)) then some false
  else if s = substr then some true
  else if ¬ ((s.length : Int) > (substr.length : Int)) then some false
  else
    match sliceOf s 0 (substr.length : Int) with
    | none => none
    | some p =>
      if p = substr then some true
      else
        match sliceOf s ((s.length : Int) - (substr.length : Int)) (s.length : Int) with
        | none => none
        | some q => if q = substr then some true else containsMiddle s substr

/-- That `substr` occurs in `s` as a contiguous substring: `s[i:i+len(substr)] == substr`
for some `i` with `0 <= i <= len(s) - len(substr)`. -/
def occursAsSubstring (substr s : List Nat) : Prop :=
  ∃ i : Nat, i + substr.length ≤ s.length ∧ (s.drop i).take substr.length = substr

instance occursAsSubstring.decidable (substr s : List Nat) :
    Decidable (occursAsSubstring substr s) :=
  decidable_of_iff
    (∃ i : Nat, i < s.length + 1 ∧
      (i + substr.length ≤ s.length ∧ (s.drop i).take substr.length = substr))
    ⟨fun ⟨i, _, h⟩ => ⟨i, h⟩, fun ⟨i, h⟩ => ⟨i, by omega, h⟩⟩

/-! ## pkg/linkedin/search.go and connect.go -/

/-- The struct `SearchResult`. -/
structure SearchResult where
  ProfileURL : String
  ProfileName : String
  Headline : String
  deriving DecidableEq, Repr

/-- The struct `ConnectOptions`. -/
structure ConnectOptions where
  Message : String
  DelayBetweenRequests : Int
  MaxRequestsPerSession : Int
  deriving DecidableEq, Repr

/-- The function `DefaultConnectOptions()`. -/
def DefaultConnectOptions : ConnectOptions :=
  { Message := "", DelayBetweenRequests := 30, MaxRequestsPerSession := 20 }

/-- The three counters of `BulkConnect`. -/
structure BulkCounts where
  successCount : Int
  errorCount : Int
  skippedCount : Int
  deriving DecidableEq, Repr

/-- The sum `successCount + skippedCount + errorCount`. -/
def BulkCounts.total (c : BulkCounts) : Int :=
  c.successCount + c.skippedCount + c.errorCount

/-- What a call of `BulkConnect` does: the counters it prints at the end, the counters
at the head of each loop iteration it enters, and whether it left the loop through the
`break` of the session limit. -/
structure BulkResult where
  counts : BulkCounts
  iterations : List BulkCounts
  limitReached : Bool
  deriving DecidableEq, Repr

/-- The loop `for i, profile := range profiles` of `BulkConnect` from index `i` on with
counters `c`.  `alreadySent i` is the result of `db.HasSentConnectionRequest` for the
profile of index `i`, `sendFails i` whether `SendConnectionRequest` returns an error
for it. -/
def bulkLoop (opts : ConnectOptions) (alreadySent sendFails : Nat → Bool) :
    List SearchResult → Nat → BulkCounts → BulkResult
  | [], _, c => { counts := c, iterations := [], limitReached := false }
  | _ :: rest, i, c =>
    if opts.MaxRequestsPerSession > 0 ∧ c.successCount ≥ opts.MaxRequestsPerSession then
      { counts := c, iterations := [c], limitReached := true }
    else
      let c1 : BulkCounts :=
        if alreadySent i then { c with skippedCount := c.skippedCount + 1 }
        else if sendFails i then { c with errorCount := c.errorCount + 1 }
        else { c with successCount := c.successCount + 1 }
      let r := bulkLoop opts alreadySent sendFails rest (i + 1) c1
      { r with iterations := c :: r.iterations }

/-- The function `BulkConnect(page, profiles, db, opts)`; `opts = none` is the nil
pointer.  The function itself always returns a nil error. -/
def BulkConnect (alreadySent sendFails : Nat → Bool) (profiles : List SearchResult)
    (opts : Option ConnectOptions) : BulkResult :=
  bulkLoop (opts.getD DefaultConnectOptions) alreadySent sendFails profiles 0
    { successCount := 0, errorCount := 0, skippedCount := 0 }

/-- What `Search` returns: the results with a nil error, or an error. -/
inductive SearchOutcome where
  | ok (results : List SearchResult)
  | error (msg : String)
  deriving DecidableEq, Repr

/-- The search pages as `Search` sees them: whether `page.Navigate` and `page.WaitLoad`
fail, the result of `extractSearchResults` on the page of number `p` (`none` is an
error), and the result of `goToNextPage` on that page (`none` is an error, otherwise
`hasNext`). -/
structure SearchPages where
  navigateFails : Bool
  waitLoadFails : Bool
  extract : Nat → Option (List SearchResult)
  next : Nat → Option Bool

/-- The loop `for len(results) < maxResults` of `Search`, at most `fuel` iterations of
it; `none` is returned when the iterations do not suffice. -/
def searchLoop (pages : SearchPages) (maxResults : Int) :
    Nat → Nat → List SearchResult → Option SearchOutcome
  | 0, _, results =>
    if (results.length : Int) < maxResults then none else some (.ok results)
  | fuel + 1, currentPage, results =>
    if ¬ ((results.length : Int) < maxResults) then some (.ok results)
    else
      match pages.extract currentPage with
      | none => some (.error "failed to extract search results")
      | some pageResults =>
        if pageResults.length = 0 then some (.ok results)
        else if ((results ++ pageResults).length : Int) ≥ maxResults then
          some (.ok ((results ++ pageResults).take maxResults.toNat))
        else
          match pages.next currentPage with
          | none => some (.ok (results ++ pageResults))
          | some hasNext =>
            if hasNext = false then some (.ok (results ++ pageResults))
            else searchLoop pages maxResults fuel (currentPage + 1) (results ++ pageResults)

/-- The function `Search(page, query, maxResults)`.  Every iteration that goes on adds a
result, so `maxResults` iterations are given to the loop. -/
def Search (pages : SearchPages) (maxResults : Int) : Option SearchOutcome :=
  if pages.navigateFails then some (.error "failed to navigate to search page")
  else if pages.waitLoadFails then some (.error "failed to wait for page load")
  else searchLoop pages maxResults maxResults.toNat 1 []

/-- The concatenation of the results extracted from the pages `1, ..., j`, in page
order; a page whose extraction fails contributes nothing. -/
def pagesConcat (pages : SearchPages) (j : Nat) : List SearchResult :=
  (List.range j).flatMap fun (p : Nat) => (pages.extract (p + 1)).getD []

/-- Three search results. -/
def SearchResult.samples : List SearchResult :=
  [{ ProfileURL := "https://www.linkedin.com/in/a", ProfileName := "A", Headline := "" },
   { ProfileURL := "https://www.linkedin.com/in/b", ProfileName := "B", Headline := "" },
   { ProfileURL := "https://www.linkedin.com/in/c", ProfileName := "C", Headline := "" }]

/-- Search pages that all load, hold the three sample results each and have a next
page. -/
def SearchPages.sample : SearchPages :=
  { navigateFails := false, waitLoadFails := false,
    extract := fun _ => some SearchResult.samples,
    next := fun _ => some true }

/-! ## Theorems -/

/-! ### float64 rounding -/

theorem roundHalfEven_err (x : ℚ) : |((roundHalfEven x : Int) : ℚ) - x| ≤ 1 / 2 := by
  have h1 := Int.floor_le x
  have h2 := Int.lt_floor_add_one x
  unfold roundHalfEven
  split_ifs with ha hb hc
  · rw [abs_le]; constructor <;> linarith
  · rw [abs_le]; push_cast; constructor <;> linarith
  · rw [abs_le]; constructor <;> linarith
  · rw [abs_le]; push_cast; constructor <;> linarith

theorem roundHalfEven_eq (x : ℚ) (n : Int) (h : |x - n| < 1 / 2) : roundHalfEven x = n := by
  have h1 := Int.floor_le x
  have h2 := Int.lt_floor_add_one x
  rw [abs_lt] at h
  have key : ∀ k : Int, |(k : ℚ) - x| ≤ 1 / 2 → k = n := by
    intro k hk
    rw [abs_le] at hk
    have h3 : (k : ℚ) - n < 1 := by linarith [hk.2, h.2]
    have h4 : -1 < (k : ℚ) - n := by linarith [hk.1, h.1]
    have h5 : k - n < 1 := by exact_mod_cast h3
    have h6 : -1 < k - n := by exact_mod_cast h4
    omega
  exact key _ (roundHalfEven_err x)

theorem roundHalfEven_tie (x : ℚ) (n : Int) (h : x = n + 1 / 2) :
    roundHalfEven x = if n % 2 = 0 then n else n + 1 := by
  have hf : ⌊x⌋ = n := by
    rw [Int.floor_eq_iff]
    constructor <;> linarith
  unfold roundHalfEven
  rw [hf]
  have h1 : ¬ (x - (n : ℚ) < 1 / 2) := by rw [h]; norm_num
  have h2 : ¬ (1 / 2 < x - (n : ℚ)) := by rw [h]; norm_num
  rw [if_neg h1, if_neg h2]

theorem roundHalfEven_nonneg (x : ℚ) (h : 0 ≤ x) : 0 ≤ roundHalfEven x := by
  have h0 : 0 ≤ ⌊x⌋ := Int.floor_nonneg.mpr h
  unfold roundHalfEven
  split_ifs <;> omega

theorem roundHalfEven_nonpos (x : ℚ) (h : x ≤ 0) : roundHalfEven x ≤ 0 := by
  have h1 := Int.floor_le x
  have h0 : ⌊x⌋ ≤ 0 := by
    have : ((⌊x⌋ : Int) : ℚ) ≤ 0 := le_trans h1 h
    exact_mod_cast this
  by_cases hz : ⌊x⌋ = 0
  · have hx : x = 0 := by
      have : (0 : ℚ) ≤ x := by
        have := Int.floor_le x
        rw [hz] at this
        exact_mod_cast this
      linarith
    subst hx
    simp [roundHalfEven]
  · have : ⌊x⌋ + 1 ≤ 0 := by omega
    unfold roundHalfEven
    split_ifs <;> omega

theorem ulp64_pos (x : ℚ) : 0 < ulp64 x := by
  unfold ulp64
  split <;> positivity

theorem round64_err (x : ℚ) : |round64 x - x| ≤ ulp64 x / 2 := by
  have hq := ulp64_pos x
  have h := roundHalfEven_err (x / ulp64 x)
  unfold round64
  have e : ((roundHalfEven (x / ulp64 x) : Int) : ℚ) * ulp64 x - x
      = (((roundHalfEven (x / ulp64 x) : Int) : ℚ) - x / ulp64 x) * ulp64 x := by
    field_simp
  rw [e, abs_mul, abs_of_pos hq]
  calc |((roundHalfEven (x / ulp64 x) : Int) : ℚ) - x / ulp64 x| * ulp64 x
      ≤ 1 / 2 * ulp64 x := mul_le_mul_of_nonneg_right h hq.le
    _ = ulp64 x / 2 := by ring

theorem round64_nonneg (x : ℚ) (h : 0 ≤ x) : 0 ≤ round64 x := by
  have hq := ulp64_pos x
  have := roundHalfEven_nonneg (x / ulp64 x) (div_nonneg h hq.le)
  unfold round64
  have h2 : (0 : ℚ) ≤ ((roundHalfEven (x / ulp64 x) : Int) : ℚ) := by exact_mod_cast this
  exact mul_nonneg h2 hq.le

theorem round64_nonpos (x : ℚ) (h : x ≤ 0) : round64 x ≤ 0 := by
  have hq := ulp64_pos x
  have := roundHalfEven_nonpos (x / ulp64 x) (div_nonpos_of_nonpos_of_nonneg h hq.le)
  unfold round64
  have h2 : ((roundHalfEven (x / ulp64 x) : Int) : ℚ) ≤ 0 := by exact_mod_cast this
  exact mul_nonpos_of_nonpos_of_nonneg h2 hq.le

theorem log2_eq (x : ℚ) (e : Int) (h1 : (2 : ℚ) ^ e ≤ |x|) (h2 : |x| < (2 : ℚ) ^ (e + 1)) :
    Int.log 2 |x| = e := by
  have hpos : 0 < |x| := lt_of_lt_of_le (by positivity) h1
  have a : e ≤ Int.log 2 |x| := by
    rw [← Int.zpow_le_iff_le_log (by norm_num) hpos]
    exact_mod_cast h1
  have b : Int.log 2 |x| < e + 1 := by
    rw [← Int.lt_zpow_iff_log_lt (by norm_num) hpos]
    exact_mod_cast h2
  omega

theorem ulp64_of_binade (x : ℚ) (e : Int) (he : -1022 ≤ e)
    (h1 : (2 : ℚ) ^ e ≤ |x|) (h2 : |x| < (2 : ℚ) ^ (e + 1)) :
    ulp64 x = (2 : ℚ) ^ (e - 52) := by
  have hx : x ≠ 0 := by
    intro h0
    rw [h0, abs_zero] at h1
    exact absurd h1 (not_le.mpr (by positivity))
  unfold ulp64
  rw [if_neg hx, log2_eq x e h1 h2, max_eq_left he]

theorem round64_of_binade (x : ℚ) (e : Int) (he : -1022 ≤ e)
    (h1 : (2 : ℚ) ^ e ≤ |x|) (h2 : |x| < (2 : ℚ) ^ (e + 1)) :
    round64 x = (roundHalfEven (x / (2 : ℚ) ^ (e - 52)) : ℚ) * (2 : ℚ) ^ (e - 52) := by
  unfold round64
  rw [ulp64_of_binade x e he h1 h2]

/-- Evaluation of `round64` away from a tie. -/
theorem round64_eq (x : ℚ) (e n : Int) (he : -1022 ≤ e)
    (h1 : (2 : ℚ) ^ e ≤ |x|) (h2 : |x| < (2 : ℚ) ^ (e + 1))
    (hn : |x / (2 : ℚ) ^ (e - 52) - n| < 1 / 2) :
    round64 x = (n : ℚ) * (2 : ℚ) ^ (e - 52) := by
  rw [round64_of_binade x e he h1 h2, roundHalfEven_eq _ n hn]

/-- Evaluation of `round64` at a tie. -/
theorem round64_tie (x : ℚ) (e n : Int) (he : -1022 ≤ e)
    (h1 : (2 : ℚ) ^ e ≤ |x|) (h2 : |x| < (2 : ℚ) ^ (e + 1))
    (hn : x / (2 : ℚ) ^ (e - 52) = n + 1 / 2) :
    round64 x = ((if n % 2 = 0 then n else n + 1 : Int) : ℚ) * (2 : ℚ) ^ (e - 52) := by
  rw [round64_of_binade x e he h1 h2, roundHalfEven_tie _ n hn]

theorem round64_zero : round64 0 = 0 := by
  simp [round64, roundHalfEven]

theorem ulp64_le_rel (x : ℚ) (h : 1 / 2 ^ 1022 ≤ |x|) : ulp64 x ≤ |x| / 2 ^ 52 := by
  have hpos : 0 < |x| := lt_of_lt_of_le (by positivity) h
  have hlog : (-1022 : Int) ≤ Int.log 2 |x| := by
    rw [← Int.zpow_le_iff_le_log (by norm_num) hpos]
    have e : (((2 : ℕ) : ℚ)) ^ (-1022 : Int) = 1 / 2 ^ 1022 := by
      rw [zpow_neg]; norm_num
    rw [e]; exact h
  have hle := Int.zpow_log_le_self (b := 2) (by norm_num) hpos
  have hx : x ≠ 0 := abs_pos.mp hpos
  unfold ulp64
  rw [if_neg hx, max_eq_left hlog, zpow_sub₀ (by norm_num)]
  have e2 : (2 : ℚ) ^ (52 : Int) = 2 ^ 52 := by norm_num
  rw [e2]
  have h3 : (2 : ℚ) ^ Int.log 2 |x| ≤ |x| := by exact_mod_cast hle
  exact div_le_div_of_nonneg_right h3 (by positivity)

theorem ulp64_le (x : ℚ) : ulp64 x ≤ |x| / 2 ^ 52 + 1 / 2 ^ 1074 := by
  by_cases h : 1 / 2 ^ 1022 ≤ |x|
  · have := ulp64_le_rel x h
    have : (0 : ℚ) ≤ 1 / 2 ^ 1074 := by positivity
    linarith
  · push_neg at h
    have e0 : (2 : ℚ) ^ (-1074 : Int) = 1 / 2 ^ 1074 := by
      rw [zpow_neg]; norm_num
    have hnn : (0 : ℚ) ≤ |x| / 2 ^ 52 := by positivity
    by_cases hx : x = 0
    · unfold ulp64
      rw [if_pos hx, e0]
      linarith
    · have hpos : 0 < |x| := abs_pos.mpr hx
      have hlog : Int.log 2 |x| ≤ -1022 := by
        have : Int.log 2 |x| < -1022 := by
          rw [← Int.lt_zpow_iff_log_lt (by norm_num) hpos]
          have e : (((2 : ℕ) : ℚ)) ^ (-1022 : Int) = 1 / 2 ^ 1022 := by
            rw [zpow_neg]; norm_num
          rw [e]; exact h
        omega
      unfold ulp64
      rw [if_neg hx, max_eq_right hlog]
      have e : (2 : ℚ) ^ ((-1022 : Int) - 52) = 1 / 2 ^ 1074 := by
        rw [show ((-1022 : Int) - 52) = -(1074 : Int) by norm_num, zpow_neg]; norm_num
      rw [e]
      linarith

/-- The relative error of `round64` in the normal range is at most `2^(-53)`. -/
theorem round64_rel (x : ℚ) (h : 1 / 2 ^ 1022 ≤ |x|) : |round64 x - x| ≤ |x| / 2 ^ 53 := by
  have h1 := round64_err x
  have h2 := ulp64_le_rel x h
  calc |round64 x - x| ≤ ulp64 x / 2 := h1
    _ ≤ |x| / 2 ^ 52 / 2 := by linarith
    _ = |x| / 2 ^ 53 := by ring

/-- The error of `round64` at any value. -/
theorem round64_abs (x : ℚ) : |round64 x - x| ≤ |x| / 2 ^ 53 + 1 / 2 ^ 1075 := by
  have h1 := round64_err x
  have h2 := ulp64_le x
  calc |round64 x - x| ≤ ulp64 x / 2 := h1
    _ ≤ (|x| / 2 ^ 52 + 1 / 2 ^ 1074) / 2 := by linarith
    _ = |x| / 2 ^ 53 + 1 / 2 ^ 1075 := by ring

theorem round64_pos_bounds (y : ℚ) (hy : 1 / 2 ^ 1022 ≤ y) :
    y * (1 - 1 / 2 ^ 53) ≤ round64 y ∧ round64 y ≤ y * (1 + 1 / 2 ^ 53) := by
  have hpos : 0 < y := lt_of_lt_of_le (by positivity) hy
  have h := round64_rel y (by rwa [abs_of_pos hpos])
  rw [abs_of_pos hpos, abs_le] at h
  constructor <;> linarith

theorem round64_abs_bounds (y : ℚ) (hy : 1 / 2 ^ 1022 ≤ |y|) :
    |y| * (1 - 1 / 2 ^ 53) ≤ |round64 y| ∧ |round64 y| ≤ |y| * (1 + 1 / 2 ^ 53) := by
  have h := round64_rel y hy
  have h1 := abs_sub_abs_le_abs_sub (round64 y) y
  have h2 := abs_sub_abs_le_abs_sub y (round64 y)
  rw [abs_sub_comm y (round64 y)] at h2
  constructor <;> linarith

theorem round64_sign (y : ℚ) (hy : 1 / 2 ^ 1022 ≤ |y|) :
    SignType.sign (round64 y) = SignType.sign y := by
  have hpos : 0 < |y| := lt_of_lt_of_le (by positivity) hy
  have h := round64_rel y hy
  rw [abs_le] at h
  rcases lt_trichotomy y 0 with hneg | hzero | hp
  · rw [abs_of_neg hneg] at h
    have : round64 y < 0 := by
      have : -y / 2 ^ 53 < -y := by
        rw [div_lt_iff₀ (by positivity)]
        nlinarith
      linarith
    rw [sign_neg this, sign_neg hneg]
  · rw [hzero, abs_zero] at hpos
    exact absurd hpos (lt_irrefl _)
  · rw [abs_of_pos hp] at h
    have : 0 < round64 y := by
      have : y / 2 ^ 53 < y := by
        rw [div_lt_iff₀ (by positivity)]
        nlinarith
      linarith
    rw [sign_pos this, sign_pos hp]

/-! ### Geometry -/

theorem CalculatePoint_zero (bc : BezierCurve) : bc.CalculatePoint 0 = bc.Start := by
  simp [BezierCurve.CalculatePoint]

theorem CalculatePoint_one (bc : BezierCurve) : bc.CalculatePoint 1 = bc.End := by
  simp [BezierCurve.CalculatePoint]

theorem GeneratePath_eq (bc : BezierCurve) (n : Int) (hn : 0 ≤ n) :
    bc.GeneratePath n = some ((List.range n.toNat).map fun (i : Nat) =>
      bc.CalculatePoint (((i : Int) : ℚ) / ((n - 1 : Int) : ℚ))) := by
  unfold BezierCurve.GeneratePath
  rw [if_neg (by omega)]

theorem GeneratePath_head (bc : BezierCurve) (n : Int) (hn : 2 ≤ n) (path : List Point)
    (h : bc.GeneratePath n = some path) : path.head? = some bc.Start := by
  rw [GeneratePath_eq bc n (by omega)] at h
  obtain ⟨m, hm⟩ : ∃ m : Nat, n.toNat = m + 1 := ⟨n.toNat - 1, by omega⟩
  have h1 := Option.some.inj h
  rw [← h1, hm, List.range_succ_eq_map]
  simp [CalculatePoint_zero]

theorem GeneratePath_getLast (bc : BezierCurve) (n : Int) (hn : 2 ≤ n) (path : List Point)
    (h : bc.GeneratePath n = some path) : path.getLast? = some bc.End := by
  rw [GeneratePath_eq bc n (by omega)] at h
  obtain ⟨m, hm⟩ : ∃ m : Nat, n.toNat = m + 1 := ⟨n.toNat - 1, by omega⟩
  have h1 := Option.some.inj h
  have hm1 : n - 1 = (m : Int) := by omega
  have hm0 : ((m : Int) : ℚ) ≠ 0 := by
    have : (1 : Int) ≤ m := by omega
    have : (0 : ℚ) < ((m : Int) : ℚ) := by exact_mod_cast this
    exact ne_of_gt this
  rw [← h1, hm, List.range_succ, List.map_append, hm1]
  simp only [List.map_cons, List.map_nil, List.getLast?_concat]
  rw [div_self hm0, CalculatePoint_one]

/-- C1: for every curve and every n ≥ 2, GeneratePath(n) returns a path whose first
element is the curve's Start and whose last element is the curve's End. -/
theorem C1_GeneratePath_endpoints (bc : BezierCurve) (n : Int) (hn : 2 ≤ n) :
    ∃ path, bc.GeneratePath n = some path ∧
      path.head? = some bc.Start ∧ path.getLast? = some bc.End := by
  refine ⟨_, GeneratePath_eq bc n (by omega), ?_, ?_⟩
  · exact GeneratePath_head bc n hn _ (GeneratePath_eq bc n (by omega))
  · exact GeneratePath_getLast bc n hn _ (GeneratePath_eq bc n (by omega))

/-- C10: for every curve and every n ≥ 2, GeneratePath(n) returns exactly n points. -/
theorem C10_GeneratePath_length (bc : BezierCurve) (n : Int) (hn : 2 ≤ n) :
    ∃ path, bc.GeneratePath n = some path ∧ (path.length : Int) = n := by
  refine ⟨_, GeneratePath_eq bc n (by omega), ?_⟩
  simp only [List.length_map, List.length_range]
  omega

/-! ### Pointer motion and scrolling -/

theorem wrap64_of_range (x : Int) (h1 : -2 ^ 63 ≤ x) (h2 : x < 2 ^ 63) : wrap64 x = x := by
  unfold wrap64
  omega

theorem msDuration_of_range (x : Int) (h1 : 0 ≤ x) (h2 : x * 1000000 < 2 ^ 63) :
    msDuration x = x * 1000000 := by
  unfold msDuration Millisecond
  rw [wrap64_of_range x (by omega) (by omega), wrap64_of_range _ (by omega) (by omega)]

theorem movePath_reliable (page : Page) (sd len : Int)
    (hok : ∀ tr p, page.fails tr (.mouseMoveTo p) = false) :
    ∀ (ps : List Point) (i : Int) (tr : List Action),
      (movePath page sd len ps i tr).2 = .ok ∧
      moveTargets (movePath page sd len ps i tr).1 = moveTargets tr ++ ps ∧
      sleeps (movePath page sd len ps i tr).1
        = sleeps tr ++ (List.range ps.length).map fun (j : Nat) => pathDelay sd len (i + j) := by
  intro ps
  induction ps with
  | nil => intro i tr; simp [movePath]
  | cons p rest ih =>
    intro i tr
    have h := ih (i + 1) (tr ++ [.mouseMoveTo p, .sleep (pathDelay sd len i)])
    simp only [movePath, hok, Bool.false_eq_true, if_false]
    refine ⟨h.1, ?_, ?_⟩
    · rw [h.2.1]; simp [moveTargets]
    · rw [h.2.2]
      simp [sleeps, List.range_succ_eq_map, Function.comp_def, add_assoc, add_comm]
      intro a _
      congr 1
      omega


theorem MoveMouseBezier_some (m : MathLib) (rng : RandSource) (k : Nat) (page : Page)
    (tx ty : ℚ) (opts : MoveMouseOptions) (hsteps : 1 ≤ opts.Steps) (path : List Point)
    (hpath : (NewBezierCurve m rng k ⟨500, 500⟩ ⟨tx, ty⟩).1.GeneratePath opts.Steps = some path)
    (hok : ∀ tr p, page.fails tr (.mouseMoveTo p) = false) :
    MoveMouseBezier m rng k page tx ty (some opts) =
      if opts.Overshoot then
        ((movePath page (stepDelayOf opts) path.length path 0 []).1 ++
          [.mouseMoveTo
              { X := tx + m.Cos (rng.float64 (k + 3 + 1) * m.Pi * 2) * (5 + rng.float64 (k + 3) * 15)
                Y := ty + m.Sin (rng.float64 (k + 3 + 1) * m.Pi * 2) * (5 + rng.float64 (k + 3) * 15) },
           .sleep (msDuration (50 + rng.intn (k + 3 + 2) 100)),
           .mouseMoveTo { X := tx, Y := ty }], .ok)
      else ((movePath page (stepDelayOf opts) path.length path 0 []).1, .ok) := by
  have h0 : opts.Steps ≠ 0 := by omega
  have hr := (movePath_reliable page (stepDelayOf opts) path.length hok path 0 []).1
  unfold MoveMouseBezier
  simp only [hpath, h0, if_false, hr, if_true]
  rfl

/-- C7: for every target point and every options value with Steps ≥ 2, when no pointer
move fails, MoveMouseBezier returns without error and the last pointer position it
issues is exactly (targetX, targetY), with Overshoot false as well as true. -/
theorem C7_MoveMouseBezier_last_position (m : MathLib) (rng : RandSource) (k : Nat)
    (page : Page) (targetX targetY : ℚ) (opts : MoveMouseOptions)
    (hsteps : 2 ≤ opts.Steps)
    (hok : ∀ tr p, page.fails tr (.mouseMoveTo p) = false) :
    (MoveMouseBezier m rng k page targetX targetY (some opts)).2 = .ok ∧
    (moveTargets (MoveMouseBezier m rng k page targetX targetY (some opts)).1).getLast?
      = some { X := targetX, Y := targetY } := by
  have hpath := GeneratePath_eq (NewBezierCurve m rng k ⟨500, 500⟩ ⟨targetX, targetY⟩).1
    opts.Steps (by omega)
  have hlast := GeneratePath_getLast _ opts.Steps hsteps _ hpath
  generalize hp : (List.range opts.Steps.toNat).map _ = path at hpath hlast
  have hmv := movePath_reliable page (stepDelayOf opts) path.length hok path 0 []
  rw [MoveMouseBezier_some m rng k page targetX targetY opts (by omega) path hpath hok]
  cases hov : opts.Overshoot
  · simp only [Bool.false_eq_true, if_false, hmv.2.1]
    refine ⟨trivial, ?_⟩
    simpa [moveTargets, NewBezierCurve] using hlast
  · simp only [if_true]
    refine ⟨trivial, ?_⟩
    simp [moveTargets, List.filterMap_append]

theorem sum_pathDelay (sd len half : Int) (hlen : 0 ≤ len)
    (hhalf : (wrap64 (sd * 3)).tdiv 2 = sd + half) (m : Nat) :
    ((List.range m).map fun (i : Nat) => pathDelay sd len (i : Int)).sum
      = m * sd + (min (m : Int) (len / 4) + max 0 ((m : Int) - 1 - len * 3 / 4)) * half := by
  have hq1 : len.tdiv 4 = len / 4 := Int.tdiv_eq_ediv hlen (by norm_num)
  have hq3 : (len * 3).tdiv 4 = len * 3 / 4 := Int.tdiv_eq_ediv (by omega) (by norm_num)
  induction m with
  | zero =>
    have e1 : min ((0 : Nat) : Int) (len / 4) = 0 := by omega
    have e2 : max 0 (((0 : Nat) : Int) - 1 - len * 3 / 4) = 0 := by omega
    simp only [List.range_zero, List.map_nil, List.sum_nil]
    rw [e1, e2]
    simp
  | succ m ih =>
    rw [List.range_succ, List.map_append, List.sum_append, ih]
    simp only [List.map_cons, List.map_nil, List.sum_cons, List.sum_nil, add_zero]
    unfold pathDelay
    rw [hq1, hq3, hhalf]
    by_cases h1 : (m : Int) < len / 4
    · have e1 : min ((m + 1 : Nat) : Int) (len / 4) = min (m : Int) (len / 4) + 1 := by omega
      have e2 : max 0 (((m + 1 : Nat) : Int) - 1 - len * 3 / 4)
          = max 0 ((m : Int) - 1 - len * 3 / 4) := by omega
      rw [if_pos (Or.inl h1), e1, e2]
      push_cast
      ring
    · by_cases h2 : (m : Int) > len * 3 / 4
      · have e1 : min ((m + 1 : Nat) : Int) (len / 4) = min (m : Int) (len / 4) := by omega
        have e2 : max 0 (((m + 1 : Nat) : Int) - 1 - len * 3 / 4)
            = max 0 ((m : Int) - 1 - len * 3 / 4) + 1 := by omega
        rw [if_pos (Or.inr h2), e1, e2]
        push_cast
        ring
      · have e1 : min ((m + 1 : Nat) : Int) (len / 4) = min (m : Int) (len / 4) := by omega
        have e2 : max 0 (((m + 1 : Nat) : Int) - 1 - len * 3 / 4)
            = max 0 ((m : Int) - 1 - len * 3 / 4) := by omega
        rw [if_neg (by intro h; rcases h with h | h; exact h1 h; exact h2 h), e1, e2]
        push_cast
        ring

theorem stepDelayOf_eq (D n : Int) (ov : Bool) (hD : 0 < D)
    (hmax : 3 * D * Millisecond < 2 ^ 63) (hn : 2 ≤ n) :
    stepDelayOf { Duration := D, Overshoot := ov, Steps := n } = D / n * Millisecond ∧
    (wrap64 (D / n * Millisecond * 3)).tdiv 2 = D / n * Millisecond + D / n * 500000 := by
  have hq : D.tdiv n = D / n := Int.tdiv_eq_ediv (by omega) (by omega)
  have hq0 : 0 ≤ D / n := Int.ediv_nonneg (by omega) (by omega)
  have hqD : D / n ≤ D := Int.ediv_le_self n (by omega)
  unfold Millisecond at hmax ⊢
  constructor
  · unfold stepDelayOf
    simp only [hq]
    exact msDuration_of_range _ hq0 (by omega)
  · rw [wrap64_of_range _ (by omega) (by omega), Int.tdiv_eq_ediv (by omega) (by norm_num)]
    omega

/-- C8, counterexample: for D = 1000 ms and n = 20 steps the per-step delays sum to
1225 ms, which differs from D by 225 ms, not by less than 20 ms. -/
theorem C8_counterexample :
    ¬ (|(stepDelays { Duration := 1000, Overshoot := false, Steps := 20 }).sum
        - 1000 * Millisecond| < 20 * Millisecond) := by
  have h : (stepDelays { Duration := 1000, Overshoot := false, Steps := 20 }).sum
      = 1225000000 := by decide
  rw [h]
  decide

/-- C8, amended: for 0 < D (with 3 * D ms inside the 64-bit nanosecond range) and
n ≥ 2 there are n per-step delays; their sum is n times the base delay (D div n) ms
plus half a base delay for each of the n/4 + (n - 1 - 3n/4) steps with i < n/4 or
i > 3n/4; hence it is more than D - n ms and at most 1.5 * D ms. -/
theorem C8_step_delay_sum (D n : Int) (ov : Bool) (hD : 0 < D)
    (hmax : 3 * D * Millisecond < 2 ^ 63) (hn : 2 ≤ n) :
    ((stepDelays { Duration := D, Overshoot := ov, Steps := n }).length : Int) = n ∧
    (stepDelays { Duration := D, Overshoot := ov, Steps := n }).sum
      = n * (D / n * Millisecond) + (n / 4 + (n - 1 - n * 3 / 4)) * (D / n * 500000) ∧
    D * Millisecond - n * Millisecond
      < (stepDelays { Duration := D, Overshoot := ov, Steps := n }).sum ∧
    (stepDelays { Duration := D, Overshoot := ov, Steps := n }).sum * 2
      ≤ D * Millisecond * 3 := by
  obtain ⟨hsd, hhalf⟩ := stepDelayOf_eq D n ov hD hmax hn
  have hN : ((n.toNat : Nat) : Int) = n := by omega
  have hsum : (stepDelays { Duration := D, Overshoot := ov, Steps := n }).sum
      = n * (D / n * Millisecond) + (n / 4 + (n - 1 - n * 3 / 4)) * (D / n * 500000) := by
    unfold stepDelays
    simp only [hsd, hN]
    rw [sum_pathDelay _ n _ (by omega) hhalf n.toNat, hN]
    have e1 : min n (n / 4) = n / 4 := by omega
    have e2 : max 0 (n - 1 - n * 3 / 4) = n - 1 - n * 3 / 4 := by omega
    rw [e1, e2]
  have hq0 : 0 ≤ D / n := Int.ediv_nonneg (by omega) (by omega)
  have hlow : D < (D / n + 1) * n := Int.lt_ediv_add_one_mul_self D (by omega)
  have hhigh : D / n * n ≤ D := Int.ediv_mul_le D (by omega)
  have hb0 : 0 ≤ n / 4 + (n - 1 - n * 3 / 4) := by omega
  have hb1 : n / 4 + (n - 1 - n * 3 / 4) ≤ n := by omega
  refine ⟨?_, hsum, ?_, ?_⟩
  · simp [stepDelays]; omega
  · rw [hsum]; unfold Millisecond; nlinarith [mul_nonneg hb0 hq0]
  · rw [hsum]; unfold Millisecond; nlinarith [mul_le_mul_of_nonneg_right hb1 hq0]

theorem MoveMouseBezier_sleeps (m : MathLib) (rng : RandSource) (k : Nat) (page : Page)
    (tx ty : ℚ) (opts : MoveMouseOptions) (hsteps : 1 ≤ opts.Steps)
    (hov : opts.Overshoot = false)
    (hok : ∀ tr p, page.fails tr (.mouseMoveTo p) = false) :
    sleeps (MoveMouseBezier m rng k page tx ty (some opts)).1 = stepDelays opts := by
  have hpath := GeneratePath_eq (NewBezierCurve m rng k ⟨500, 500⟩ ⟨tx, ty⟩).1
    opts.Steps (by omega)
  rw [MoveMouseBezier_some m rng k page tx ty opts hsteps _ hpath hok, hov]
  simp only [Bool.false_eq_true, if_false]
  rw [(movePath_reliable page _ _ hok _ 0 []).2.2]
  simp [sleeps, stepDelays]

/-! ### ScrollWithVariation -/

theorem scrollChunks_reliable (rng : RandSource) (page : Page) (chunks : Int) (cs : ℚ)
    (hok : ∀ tr x y s, page.fails tr (.mouseScroll x y s) = false) :
    ∀ (n k : Nat) (tr : List Action),
      (scrollChunks rng page chunks cs n k tr).2.1 = .ok ∧
      scrolls (scrollChunks rng page chunks cs n k tr).1
        = scrolls tr ++ (List.range n).map fun (j : Nat) =>
            (round64 (cs * scrollFactor (rng.float64 (k + 2 * j))), chunks) := by
  intro n
  induction n with
  | zero => intro k tr; simp [scrollChunks]
  | succ n ih =>
    intro k tr
    simp only [scrollChunks, hok, Bool.false_eq_true, if_false]
    obtain ⟨h1, h2⟩ := ih (k + 2)
      (tr ++ [.mouseScroll 0 (round64 (cs * scrollFactor (rng.float64 k))) chunks,
              .sleep (msDuration (50 + rng.intn (k + 1) 150))])
    refine ⟨h1, ?_⟩
    rw [h2]
    simp only [scrolls, List.filterMap_append, List.range_succ_eq_map, List.map_cons,
      List.map_map, List.append_assoc]
    simp [Function.comp_def, Nat.mul_add, Nat.add_assoc]
    intro a _
    rw [Nat.add_comm 2 (2 * a)]

theorem list_sum_bounds (l : List ℚ) (lo hi : ℚ) (h : ∀ v ∈ l, lo ≤ v ∧ v ≤ hi) :
    l.length * lo ≤ l.sum ∧ l.sum ≤ l.length * hi := by
  induction l with
  | nil => simp
  | cons v rest ih =>
    have hv := h v (List.mem_cons_self _ _)
    have ih2 := ih (fun w hw => h w (List.mem_cons_of_mem _ hw))
    simp only [List.sum_cons, List.length_cons, Nat.cast_add, Nat.cast_one]
    constructor <;> nlinarith [ih2.1, ih2.2]

theorem scrollFactor_bounds (f : ℚ) (h0 : 0 ≤ f) (h1 : f < 1) :
    8 / 10 * (1 - 1 / 2 ^ 51) ≤ scrollFactor f ∧ scrollFactor f ≤ 12 / 10 * (1 + 1 / 2 ^ 51) := by
  obtain ⟨ha1, ha2⟩ := round64_pos_bounds (8 / 10) (by norm_num)
  obtain ⟨hb1, hb2⟩ := round64_pos_bounds (4 / 10) (by norm_num)
  have hb0 : 0 ≤ round64 (4 / 10) := round64_nonneg _ (by norm_num)
  have hfb0 : 0 ≤ f * round64 (4 / 10) := mul_nonneg h0 hb0
  have hfb1 : f * round64 (4 / 10) ≤ 4 / 10 * (1 + 1 / 2 ^ 53) := by nlinarith
  have hp0 : 0 ≤ round64 (f * round64 (4 / 10)) := round64_nonneg _ hfb0
  have hp := round64_abs (f * round64 (4 / 10))
  rw [abs_of_nonneg hfb0, abs_le] at hp
  have hp1 : round64 (f * round64 (4 / 10))
      ≤ 4 / 10 * (1 + 1 / 2 ^ 53) * (1 + 1 / 2 ^ 53) + 1 / 2 ^ 1075 := by
    have : f * round64 (4 / 10) / 2 ^ 53 ≤ 4 / 10 * (1 + 1 / 2 ^ 53) / 2 ^ 53 :=
      div_le_div_of_nonneg_right hfb1 (by positivity)
    linarith [hp.2]
  have hs0 : 1 / 2 ^ 1022 ≤ round64 (8 / 10) + round64 (f * round64 (4 / 10)) := by
    have : (1 : ℚ) / 2 ^ 1022 ≤ 8 / 10 * (1 - 1 / 2 ^ 53) := by norm_num
    linarith
  obtain ⟨hg1, hg2⟩ := round64_pos_bounds _ hs0
  unfold scrollFactor
  constructor
  · have : (8 / 10 : ℚ) * (1 - 1 / 2 ^ 51)
        ≤ 8 / 10 * (1 - 1 / 2 ^ 53) * (1 - 1 / 2 ^ 53) := by norm_num
    have h2 : 8 / 10 * (1 - 1 / 2 ^ 53) * (1 - 1 / 2 ^ 53)
        ≤ (round64 (8 / 10) + round64 (f * round64 (4 / 10))) * (1 - 1 / 2 ^ 53) :=
      mul_le_mul_of_nonneg_right (by linarith) (by norm_num)
    linarith
  · have : (8 / 10 * (1 + 1 / 2 ^ 53)
          + (4 / 10 * (1 + 1 / 2 ^ 53) * (1 + 1 / 2 ^ 53) + 1 / 2 ^ 1075)) * (1 + 1 / 2 ^ 53)
        ≤ (12 / 10 : ℚ) * (1 + 1 / 2 ^ 51) := by norm_num
    have h2 : (round64 (8 / 10) + round64 (f * round64 (4 / 10))) * (1 + 1 / 2 ^ 53)
        ≤ (8 / 10 * (1 + 1 / 2 ^ 53)
          + (4 / 10 * (1 + 1 / 2 ^ 53) * (1 + 1 / 2 ^ 53) + 1 / 2 ^ 1075)) * (1 + 1 / 2 ^ 53) :=
      mul_le_mul_of_nonneg_right (by linarith) (by norm_num)
    linarith

/-- One forward chunk: for a quotient `x = deltaY / chunks` that is zero or of magnitude
at least `2^(-1003)`, the chunk computed from it and a draw `f`. -/
theorem scrollChunk_bounds (x f : ℚ) (hx : x = 0 ∨ 1 / 2 ^ 1003 ≤ |x|)
    (h0 : 0 ≤ f) (h1 : f < 1) :
    8 / 10 * (1 - 1 / 2 ^ 50) * |x| ≤ |round64 (round64 x * scrollFactor f)| ∧
    |round64 (round64 x * scrollFactor f)| ≤ 12 / 10 * (1 + 1 / 2 ^ 50) * |x| ∧
    SignType.sign (round64 (round64 x * scrollFactor f)) = SignType.sign x := by
  rcases hx with hx | hx
  · subst hx
    simp [round64_zero]
  · obtain ⟨hg1, hg2⟩ := scrollFactor_bounds f h0 h1
    have hgpos : 0 < scrollFactor f := lt_of_lt_of_le (by norm_num) hg1
    have hxn : 1 / 2 ^ 1022 ≤ |x| := le_trans (by norm_num) hx
    obtain ⟨hc1, hc2⟩ := round64_abs_bounds x hxn
    have hcs := round64_sign x hxn
    have habs : |round64 x * scrollFactor f| = |round64 x| * scrollFactor f := by
      rw [abs_mul, abs_of_pos hgpos]
    have hxa : 0 ≤ |x| := abs_nonneg x
    have hlow : 8 / 10 * (1 - 1 / 2 ^ 51) * (1 - 1 / 2 ^ 53) * |x|
        ≤ |round64 x| * scrollFactor f := by
      have e1 : |x| * (1 - 1 / 2 ^ 53) * (8 / 10 * (1 - 1 / 2 ^ 51))
          ≤ |round64 x| * scrollFactor f :=
        mul_le_mul hc1 hg1 (by norm_num) (abs_nonneg _)
      linarith
    have hup : |round64 x| * scrollFactor f
        ≤ 12 / 10 * (1 + 1 / 2 ^ 51) * (1 + 1 / 2 ^ 53) * |x| := by
      have e1 : |round64 x| * scrollFactor f
          ≤ |x| * (1 + 1 / 2 ^ 53) * (12 / 10 * (1 + 1 / 2 ^ 51)) :=
        mul_le_mul hc2 hg2 hgpos.le (by positivity)
      linarith
    have hyn : 1 / 2 ^ 1022 ≤ |round64 x * scrollFactor f| := by
      rw [habs]
      have : (1 : ℚ) / 2 ^ 1022
          ≤ 8 / 10 * (1 - 1 / 2 ^ 51) * (1 - 1 / 2 ^ 53) * (1 / 2 ^ 1003) := by norm_num
      have h3 : 8 / 10 * (1 - 1 / 2 ^ 51) * (1 - 1 / 2 ^ 53) * (1 / 2 ^ 1003)
          ≤ 8 / 10 * (1 - 1 / 2 ^ 51) * (1 - 1 / 2 ^ 53) * |x| :=
        mul_le_mul_of_nonneg_left hx (by norm_num)
      linarith
    obtain ⟨hv1, hv2⟩ := round64_abs_bounds _ hyn
    have hvs := round64_sign _ hyn
    rw [habs] at hv1 hv2
    refine ⟨?_, ?_, ?_⟩
    · have e : (8 / 10 : ℚ) * (1 - 1 / 2 ^ 50)
          ≤ 8 / 10 * (1 - 1 / 2 ^ 51) * (1 - 1 / 2 ^ 53) * (1 - 1 / 2 ^ 53) := by norm_num
      have h4 : 8 / 10 * (1 - 1 / 2 ^ 51) * (1 - 1 / 2 ^ 53) * |x| * (1 - 1 / 2 ^ 53)
          ≤ |round64 x| * scrollFactor f * (1 - 1 / 2 ^ 53) :=
        mul_le_mul_of_nonneg_right hlow (by norm_num)
      have h5 := mul_le_mul_of_nonneg_right e hxa
      linarith
    · have e : (12 / 10 : ℚ) * (1 + 1 / 2 ^ 51) * (1 + 1 / 2 ^ 53) * (1 + 1 / 2 ^ 53)
          ≤ 12 / 10 * (1 + 1 / 2 ^ 50) := by norm_num
      have h4 : |round64 x| * scrollFactor f * (1 + 1 / 2 ^ 53)
          ≤ 12 / 10 * (1 + 1 / 2 ^ 51) * (1 + 1 / 2 ^ 53) * |x| * (1 + 1 / 2 ^ 53) :=
        mul_le_mul_of_nonneg_right hup (by norm_num)
      have h5 := mul_le_mul_of_nonneg_right e hxa
      linarith
    · rw [hvs, sign_mul, hcs, sign_pos hgpos, mul_one]


theorem round64_eight_tenths : round64 (8 / 10) = 3602879701896397 / 4503599627370496 := by
  rw [round64_eq (8 / 10) (-1) 7205759403792794 (by norm_num) (by norm_num [abs_of_pos])
    (by norm_num [abs_of_pos]) (by norm_num [abs_lt])]
  norm_num

theorem scrollFactor_zero : scrollFactor 0 = 3602879701896397 / 4503599627370496 := by
  unfold scrollFactor
  rw [zero_mul, round64_zero, add_zero, round64_eight_tenths]
  rw [round64_eq (3602879701896397 / 4503599627370496) (-1) 7205759403792794 (by norm_num)
    (by norm_num [abs_of_pos]) (by norm_num [abs_of_pos]) (by norm_num [abs_lt])]
  norm_num

theorem ScrollWithVariation_failing :
    ScrollWithVariation RandSource.zero 0 { fails := fun _ _ => true } 300
      = ([.mouseScroll 0 80 3], .error "Mouse.Scroll") := by
  have h100 : round64 100 = 100 := by
    rw [round64_eq 100 6 7036874417766400 (by norm_num) (by norm_num [abs_of_pos])
      (by norm_num [abs_of_pos]) (by norm_num [abs_lt])]
    norm_num
  have h80 : round64 (100 * (3602879701896397 / 4503599627370496)) = 80 := by
    rw [round64_eq _ 6 5629499534213120 (by norm_num) (by norm_num [abs_of_pos])
      (by norm_num [abs_of_pos]) (by norm_num [abs_lt])]
    norm_num
  have e : (300 : ℚ) / ((3 + (0 : Int) : Int) : ℚ) = 100 := by norm_num
  have hn : (3 + (0 : Int)).toNat = 0 + 1 + 1 + 1 := by decide
  simp only [ScrollWithVariation, RandSource.zero, hn, scrollChunks, scrollFactor_zero, e, h100,
    h80, if_true]
  rw [if_neg (by intro h; cases h)]
  rfl

theorem ScrollWithVariation_seven :
    (scrolls (ScrollWithVariation RandSource.top 0 Page.reliable 300).1).take 7
      = List.replicate 7 (4825285315039817 / 140737488355328, 7) := by
  have hcs : round64 (300 / 7) = 6031606643799771 / 140737488355328 := by
    rw [round64_eq _ 5 6031606643799771 (by norm_num) (by norm_num [abs_of_pos])
      (by norm_num [abs_of_pos]) (by norm_num [abs_lt])]
    norm_num
  have hv : round64 (6031606643799771 / 140737488355328
      * (3602879701896397 / 4503599627370496)) = 4825285315039817 / 140737488355328 := by
    rw [round64_eq _ 5 4825285315039817 (by norm_num) (by norm_num [abs_of_pos])
      (by norm_num [abs_of_pos]) (by norm_num [abs_lt])]
    norm_num
  have e : (300 : ℚ) / ((3 + ((5 : Int) - 1) : Int) : ℚ) = 300 / 7 := by norm_num
  have hn : (3 + ((5 : Int) - 1)).toNat = 0 + 1 + 1 + 1 + 1 + 1 + 1 + 1 := by decide
  have h7 : (3 + ((5 : Int) - 1)) = 7 := by decide
  have hv2 : round64 (21731153146769646545030654325087 / 633825300114114700748351602688) = 4825285315039817 / 140737488355328 := by
    rw [← hv]
    norm_num
  simp only [ScrollWithVariation, RandSource.top, Page.reliable, hn, scrollChunks,
    scrollFactor_zero, e, hcs, hv, h7, Bool.false_eq_true, if_false, if_true]
  norm_num [scrolls, hcs, hv2]
  rfl

/-- C9, counterexample: (1) on a page whose scroll call returns an error, with every draw
zero and deltaY = 300, ScrollWithVariation returns the error after a single scroll
call of 80 (of the 3 chunks chosen), so fewer than 3 forward chunks are issued and
their magnitudes sum to less than 0.8 * 300; (2) on a page where no call fails, with
deltaY = 300, 7 chunks and every factor draw zero, each of the 7 forward chunks is the
float64 value 34.285714285714285, and 7 times this value is less than 0.8 * 300. -/
theorem C9_counterexample :
    ((ScrollWithVariation RandSource.zero 0 { fails := fun _ _ => true } 300).2 ≠ .ok ∧
      (scrolls (ScrollWithVariation RandSource.zero 0 { fails := fun _ _ => true } 300).1).length
        < 3 ∧
      ((scrolls (ScrollWithVariation RandSource.zero 0 { fails := fun _ _ => true } 300).1).map
        fun c => |c.1|).sum < 8 / 10 * |(300 : ℚ)|) ∧
    ((scrolls (ScrollWithVariation RandSource.top 0 Page.reliable 300).1).take 7
        = List.replicate 7 (4825285315039817 / 140737488355328, 7) ∧
      ((List.replicate 7 ((4825285315039817 / 140737488355328 : ℚ), (7 : Int))).map
        fun c => |c.1|).sum < 8 / 10 * |(300 : ℚ)|) := by
  rw [ScrollWithVariation_failing]
  refine ⟨⟨(by intro h; cases h), (by simp [scrolls]), ?_⟩, ScrollWithVariation_seven, ?_⟩
  · simp only [scrolls, List.filterMap_cons, List.filterMap_nil, List.map_cons, List.map_nil,
      List.sum_cons, List.sum_nil]
    norm_num
  · norm_num [List.replicate, abs_of_pos]

/-- C9, amended: for every finite deltaY that is zero or of magnitude at least 2^(-1000),
when no scroll call fails, ScrollWithVariation issues k forward scroll chunks with
3 ≤ k ≤ 7, the chunk of a draw f in [0, 1) being the float64 product of the float64
quotient deltaY/k and the float64 factor 0.8 + f*0.4, optionally followed by the single
reverse chunk -deltaY*0.1.  Each factor lies between 0.8 * (1 - 2^(-51)) and
1.2 * (1 + 2^(-51)), the forward magnitudes sum to a value between
0.8 * (1 - 2^(-50)) * |deltaY| and 1.2 * (1 + 2^(-50)) * |deltaY|, and every forward chunk
has the sign of deltaY. -/
theorem C9_ScrollWithVariation_chunks (rng : RandSource) (k : Nat) (page : Page) (deltaY : ℚ)
    (hok : ∀ tr x y s, page.fails tr (.mouseScroll x y s) = false)
    (hrange : deltaY = 0 ∨ 1 / 2 ^ 1000 ≤ |deltaY|) :
    ∃ (chunks : Int) (fs : List ℚ) (tail : List (ℚ × Int)),
      3 ≤ chunks ∧ chunks ≤ 7 ∧ (fs.length : Int) = chunks ∧
      (∀ f ∈ fs, 0 ≤ f ∧ f < 1) ∧
      (ScrollWithVariation rng k page deltaY).2 = .ok ∧
      scrolls (ScrollWithVariation rng k page deltaY).1
        = fs.map (fun f => (round64 (round64 (deltaY / (chunks : ℚ)) * scrollFactor f), chunks))
          ++ tail ∧
      (tail = [] ∨ tail = [(round64 (-deltaY * round64 (1 / 10)), 1)]) ∧
      (∀ f ∈ fs, 8 / 10 * (1 - 1 / 2 ^ 51) ≤ scrollFactor f ∧
        scrollFactor f ≤ 12 / 10 * (1 + 1 / 2 ^ 51)) ∧
      8 / 10 * (1 - 1 / 2 ^ 50) * |deltaY|
        ≤ (fs.map fun f => |round64 (round64 (deltaY / (chunks : ℚ)) * scrollFactor f)|).sum ∧
      (fs.map fun f => |round64 (round64 (deltaY / (chunks : ℚ)) * scrollFactor f)|).sum
        ≤ 12 / 10 * (1 + 1 / 2 ^ 50) * |deltaY| ∧
      ∀ f ∈ fs, SignType.sign (round64 (round64 (deltaY / (chunks : ℚ)) * scrollFactor f))
        = SignType.sign deltaY := by
  obtain ⟨hc0, hc5⟩ := rng.intn_range k 5 (by norm_num)
  generalize hchunks : 3 + rng.intn k 5 = chunks
  have hc3 : 3 ≤ chunks := by omega
  have hc7 : chunks ≤ 7 := by omega
  have hlen : (chunks.toNat : Int) = chunks := by omega
  have hcq3 : (3 : ℚ) ≤ (chunks : ℚ) := by exact_mod_cast hc3
  have hcq7 : (chunks : ℚ) ≤ 7 := by exact_mod_cast hc7
  have hcpos : (0 : ℚ) < (chunks : ℚ) := by linarith
  obtain ⟨hr1, hr2⟩ := scrollChunks_reliable rng page chunks
    (round64 (deltaY / (chunks : ℚ))) hok chunks.toNat (k + 1) []
  -- the quotient
  have hx : deltaY / (chunks : ℚ) = 0 ∨ 1 / 2 ^ 1003 ≤ |deltaY / (chunks : ℚ)| := by
    rcases hrange with h | h
    · left; rw [h, zero_div]
    · right
      rw [abs_div, abs_of_pos hcpos, le_div_iff₀ hcpos]
      have : (1 : ℚ) / 2 ^ 1003 * (chunks : ℚ) ≤ 1 / 2 ^ 1003 * 7 :=
        mul_le_mul_of_nonneg_left hcq7 (by positivity)
      have : (1 : ℚ) / 2 ^ 1003 * 7 ≤ 1 / 2 ^ 1000 := by norm_num
      linarith
  have hxabs : (chunks : ℚ) * |deltaY / (chunks : ℚ)| = |deltaY| := by
    rw [abs_div, abs_of_pos hcpos]
    field_simp
  have hsx : SignType.sign (deltaY / (chunks : ℚ)) = SignType.sign deltaY := by
    rw [div_eq_mul_inv, sign_mul, sign_pos (inv_pos.mpr hcpos), mul_one]
  have hdraw : ∀ f ∈ (List.range chunks.toNat).map
      (fun (j : Nat) => rng.float64 (k + 1 + 2 * j)), 0 ≤ f ∧ f < 1 := by
    intro f hf
    obtain ⟨j, -, rfl⟩ := List.mem_map.mp hf
    exact rng.float64_range (k + 1 + 2 * j)
  have hlenq : ((((List.range chunks.toNat).map
      (fun (j : Nat) => rng.float64 (k + 1 + 2 * j))).map
        (fun f => |round64 (round64 (deltaY / (chunks : ℚ)) * scrollFactor f)|)).length : ℚ)
      = (chunks : ℚ) := by
    simp only [List.length_map, List.length_range]
    exact_mod_cast hlen
  have hsum := list_sum_bounds
    (((List.range chunks.toNat).map (fun (j : Nat) => rng.float64 (k + 1 + 2 * j))).map
      (fun f => |round64 (round64 (deltaY / (chunks : ℚ)) * scrollFactor f)|))
    (8 / 10 * (1 - 1 / 2 ^ 50) * |deltaY / (chunks : ℚ)|)
    (12 / 10 * (1 + 1 / 2 ^ 50) * |deltaY / (chunks : ℚ)|)
    (by
      intro v hv
      obtain ⟨f, hf, rfl⟩ := List.mem_map.mp hv
      have hb := scrollChunk_bounds (deltaY / (chunks : ℚ)) f hx (hdraw f hf).1 (hdraw f hf).2
      exact ⟨hb.1, hb.2.1⟩)
  rw [hlenq] at hsum
  refine ⟨chunks, (List.range chunks.toNat).map (fun (j : Nat) => rng.float64 (k + 1 + 2 * j)),
    if rng.float64 (scrollChunks rng page chunks
        (round64 (deltaY / (chunks : ℚ))) chunks.toNat (k + 1) []).2.2
        < 2 / 10 then [(round64 (-deltaY * round64 (1 / 10)), 1)] else [],
    hc3, hc7, ?_, hdraw, ?_, ?_, ?_, ?_, ?_, ?_, ?_⟩
  · simp only [List.length_map, List.length_range]; exact hlen
  · unfold ScrollWithVariation
    simp only [hchunks, hr1, if_true]
    split <;> rfl
  · unfold ScrollWithVariation
    simp only [hchunks, hr1, if_true]
    split
    · simp [scrolls, List.filterMap_append] at hr2 ⊢
      simpa [scrolls] using hr2
    · simp [scrolls] at hr2 ⊢
      simpa [scrolls] using hr2
  · split
    · right; rfl
    · left; rfl
  · intro f hf
    exact scrollFactor_bounds f (hdraw f hf).1 (hdraw f hf).2
  · have e : (chunks : ℚ) * (8 / 10 * (1 - 1 / 2 ^ 50) * |deltaY / (chunks : ℚ)|)
        = 8 / 10 * (1 - 1 / 2 ^ 50) * |deltaY| := by rw [← hxabs]; ring
    rw [← e]
    exact hsum.1
  · have e : (chunks : ℚ) * (12 / 10 * (1 + 1 / 2 ^ 50) * |deltaY / (chunks : ℚ)|)
        = 12 / 10 * (1 + 1 / 2 ^ 50) * |deltaY| := by rw [← hxabs]; ring
    rw [← e]
    exact hsum.2
  · intro f hf
    rw [(scrollChunk_bounds (deltaY / (chunks : ℚ)) f hx (hdraw f hf).1 (hdraw f hf).2).2.2, hsx]

/-! ### Typing -/


theorem lookup_mem (l : List (Int × List Int)) (key : Int) (v : List Int)
    (h : l.lookup key = some v) : (key, v) ∈ l := by
  induction l with
  | nil => simp [List.lookup] at h
  | cons p rest ih =>
    obtain ⟨a, b⟩ := p
    by_cases hk : key = a
    · subst hk
      simp [List.lookup] at h
      simp [h]
    · have hb : (key == a) = false := by simpa using hk
      simp only [List.lookup, hb] at h
      exact List.mem_cons_of_mem _ (ih h)

theorem typoMap_entries_nonempty : ∀ p ∈ typoMap, 0 < p.2.length := by
  decide

theorem index_in_range (l : List Int) (i : Int) (h0 : 0 ≤ i) (h1 : i < l.length) :
    ∃ x, index l i = some x := by
  have hlt : i.toNat < l.length := by omega
  refine ⟨l[i.toNat], ?_⟩
  unfold index
  rw [if_neg (by omega)]
  exact List.getElem?_eq_getElem hlt

theorem getTypoChar_returns (u : Unicode) (rng : RandSource) (k : Nat) (char : Int) :
    ∃ w, getTypoChar u rng k char = some (w, k + 1) := by
  unfold getTypoChar
  dsimp only
  cases hl : typoMap.lookup (lowerFirstByte u char) with
  | none =>
    have hpos : (0 : Int) < (nearby.length : Int) := by decide
    obtain ⟨h0, h1⟩ := rng.intn_range k _ hpos
    obtain ⟨x, hx⟩ := index_in_range nearby _ h0 h1
    simp only [RandSource.Intn, if_neg (not_le.mpr hpos), hx]
    exact ⟨x, rfl⟩
  | some typos =>
    have hpos : (0 : Int) < (typos.length : Int) := by
      exact_mod_cast typoMap_entries_nonempty _ (lookup_mem _ _ _ hl)
    obtain ⟨h0, h1⟩ := rng.intn_range k _ hpos
    obtain ⟨x, hx⟩ := index_in_range typos _ h0 h1
    simp only [RandSource.Intn, if_neg (not_le.mpr hpos), hx]
    split
    · exact ⟨_, rfl⟩
    · exact ⟨_, rfl⟩

theorem delayStep_returns (rng : RandSource) (opts : TypingOptions)
    (hmin : 0 < opts.MinDelay) (hlt : opts.MinDelay < opts.MaxDelay)
    (hmax : opts.MaxDelay < 2 ^ 63) (inBurst : Bool) (char : Int) (k : Nat) :
    ∃ d, delayStep rng opts inBurst char k = some d := by
  have hw : wrap64 (opts.MaxDelay - opts.MinDelay) = opts.MaxDelay - opts.MinDelay :=
    wrap64_of_range (opts.MaxDelay - opts.MinDelay) (by omega) (by omega)
  have h1 : ¬ opts.MinDelay ≤ 0 := by omega
  have h2 : ¬ opts.MaxDelay - opts.MinDelay ≤ 0 := by omega
  unfold delayStep RandSource.Intn
  simp only [hw, h1, h2, if_false]
  cases inBurst <;> simp only [Bool.false_eq_true, if_false, if_true] <;> split <;> exact ⟨_, rfl⟩

/-! ### Session store -/


theorem timeSince_gt_week (now t : Int) :
    timeSince now t > 7 * 24 * Hour ↔ now - t > 7 * 24 * Hour := by
  unfold timeSince minDuration maxDuration Hour
  omega


theorem IsSessionValid_eq_true_iff {Data : Type} (codec : JsonCodec Data) (fs : FileSystem Data)
    (filename : String) (now : Int) :
    IsSessionValid codec fs filename now = true ↔
      ∃ data, fs.files filename = .file data ∧
        ∃ s, codec.Unmarshal data = some s ∧ 1 ≤ s.Cookies.length ∧
          now - s.Timestamp ≤ 7 * 24 * Hour := by
  unfold IsSessionValid FileSystem.statNotExist FileSystem.ReadFile
  cases hf : fs.files filename with
  | absent => simp
  | unreadable => simp
  | file data =>
    cases hu : codec.Unmarshal data with
    | none => simp [hu]
    | some s =>
      simp only [Bool.false_eq_true, if_false, hu, timeSince_gt_week]
      have key : (∃ data2, FileState.file data = FileState.file data2 ∧
          ∃ s2, codec.Unmarshal data2 = some s2 ∧ 1 ≤ s2.Cookies.length ∧
            now - s2.Timestamp ≤ 7 * 24 * Hour)
          ↔ (1 ≤ s.Cookies.length ∧ now - s.Timestamp ≤ 7 * 24 * Hour) := by
        constructor
        · rintro ⟨data2, hd, s2, hs, hlen, hage⟩
          cases hd
          rw [hu] at hs
          cases hs
          exact ⟨hlen, hage⟩
        · rintro ⟨hlen, hage⟩
          exact ⟨data, rfl, s, hu, hlen, hage⟩
      rw [key]
      by_cases h1 : now - s.Timestamp > 7 * 24 * Hour
      · rw [if_pos h1]
        constructor
        · intro h; cases h
        · rintro ⟨-, hage⟩; omega
      · rw [if_neg h1]
        by_cases h2 : s.Cookies.length = 0
        · rw [if_pos h2]
          constructor
          · intro h; cases h
          · rintro ⟨hlen, -⟩; omega
        · rw [if_neg h2]
          constructor
          · intro _; exact ⟨by omega, by omega⟩
          · intro _; rfl

theorem WriteFile_read {Data : Type} (fs fs1 : FileSystem Data) (filename : String)
    (data : Data) (h : fs.WriteFile filename data = some fs1) :
    fs1.files filename = .file data := by
  unfold FileSystem.WriteFile at h
  split at h
  · cases h
  · cases h
    simp

theorem SaveSession_ok {Data : Type} (codec : JsonCodec Data) (page : Page)
    (fs : FileSystem Data) (filename : String) (now : Int)
    (h : (SaveSession codec page fs filename now).2 = .ok) :
    ∃ cookies ua data, page.Cookies = some cookies ∧ page.UserAgent = some ua ∧
      codec.MarshalIndent { Cookies := cookies, UserAgent := ua, Timestamp := now } = some data ∧
      (SaveSession codec page fs filename now).1.files filename = .file data := by
  unfold SaveSession at h ⊢
  cases hc : page.Cookies with
  | none => simp [hc] at h
  | some cookies =>
    cases hu : page.UserAgent with
    | none => simp [hc, hu] at h
    | some ua =>
      have hua : (if ua ≠ "" then ua else "") = ua := by
        by_cases e : ua = "" <;> simp [e]
      simp only [hc, hu, hua] at h ⊢
      cases hm : codec.MarshalIndent { Cookies := cookies, UserAgent := ua, Timestamp := now } with
      | none => simp [hm] at h
      | some data =>
        simp only [hm] at h ⊢
        cases hw : fs.WriteFile filename data with
        | none => simp [hw] at h
        | some fs1 =>
          exact ⟨cookies, ua, data, rfl, rfl, hm, WriteFile_read fs fs1 filename data hw⟩

/-- C3: for every storage state and every current time, IsSessionValid (a total function
to Bool) returns true if and only if the session file exists and is readable, its
content parses as a session record, the record has at least one cookie, and its age
(now minus the stored timestamp) is at most 7 days. -/
theorem C3_IsSessionValid_iff {Data : Type} (codec : JsonCodec Data) (fs : FileSystem Data)
    (filename : String) (now : Int) :
    IsSessionValid codec fs filename now = true ↔
      ∃ data, fs.files filename = .file data ∧
        ∃ s, codec.Unmarshal data = some s ∧ 1 ≤ s.Cookies.length ∧
          now - s.Timestamp ≤ 7 * 24 * Hour :=
  IsSessionValid_eq_true_iff codec fs filename now

theorem cookieParams_map_some (cs : List NetworkCookie) :
    cookieParams (cs.map some) = some (cs.map cookieParam) := by
  induction cs with
  | nil => rfl
  | cons c rest ih => simp [cookieParams, ih]

theorem LoadSession_fresh {Data : Type} (codec : JsonCodec Data) (page : Page)
    (fs : FileSystem Data) (filename : String) (now : Int) (data : Data) (s : Session)
    (cs : List NetworkCookie)
    (hf : fs.files filename = .file data) (hu : codec.Unmarshal data = some s)
    (hage : now - s.Timestamp ≤ 7 * 24 * Hour) (hcs : s.Cookies = cs.map some) :
    LoadSession codec page fs filename now =
      { outcome := if page.setCookiesFails (cs.map cookieParam) then
          .error "failed to set cookies" else .ok
        session := some s
        params := some (cs.map cookieParam) } := by
  have h1 : ¬ (timeSince now s.Timestamp > 7 * 24 * Hour) := by
    rw [timeSince_gt_week]; omega
  unfold LoadSession FileSystem.statNotExist FileSystem.ReadFile
  simp only [hf, hu, h1, hcs, cookieParams_map_some, Bool.false_eq_true, if_false]
  split <;> rfl

/-- C5: for a session saved by SaveSession at time T with at least one cookie (the JSON
encoding reading back what it wrote), IsSessionValid on that location at time T + d is
true for 0 ≤ d ≤ 7 days and false for d > 7 days. -/
theorem C5_saved_session_validity {Data : Type} (codec : JsonCodec Data) (page : Page)
    (fs : FileSystem Data) (filename : String) (T d : Int)
    (hsave : (SaveSession codec page fs filename T).2 = .ok)
    (hcookies : ∀ cs, page.Cookies = some cs → 1 ≤ cs.length)
    (hrt : ∀ s data, codec.MarshalIndent s = some data → codec.Unmarshal data = some s) :
    (0 ≤ d → d ≤ 7 * 24 * Hour →
      IsSessionValid codec (SaveSession codec page fs filename T).1 filename (T + d) = true) ∧
    (7 * 24 * Hour < d →
      IsSessionValid codec (SaveSession codec page fs filename T).1 filename (T + d) = false) := by
  obtain ⟨cookies, ua, data, hc, -, hm, hfile⟩ := SaveSession_ok codec page fs filename T hsave
  have hu := hrt _ _ hm
  constructor
  · intro _ hd
    rw [IsSessionValid_eq_true_iff]
    exact ⟨data, hfile, _, hu, hcookies _ hc, by simp only []; omega⟩
  · intro hd
    rw [← Bool.not_eq_true, IsSessionValid_eq_true_iff]
    rintro ⟨data2, hd2, s2, hs2, -, hage⟩
    rw [hfile] at hd2
    cases hd2
    rw [hu] at hs2
    cases hs2
    simp only [] at hage
    omega

/-- C4, counterexample: the same three cookies are saved at instant 0 once with the user
agent "UA-X" and once with the user agent "UA-Y"; the two stored records differ, yet
LoadSession, one hour later, ends the same way and passes the same parameters to
SetCookies in both cases: what it loads holds the cookies and no user agent. -/
theorem C4_counterexample :
    (SaveSession JsonCodec.sample Page.loggedIn (FileSystem.empty Session)
        "session.json" 0).1.ReadFile "session.json"
      ≠ (SaveSession JsonCodec.sample { Page.loggedIn with UserAgent := some "UA-Y" }
        (FileSystem.empty Session) "session.json" 0).1.ReadFile "session.json" ∧
    (LoadSession JsonCodec.sample Page.reliable
        (SaveSession JsonCodec.sample Page.loggedIn (FileSystem.empty Session)
          "session.json" 0).1 "session.json" Hour).outcome
      = (LoadSession JsonCodec.sample Page.reliable
        (SaveSession JsonCodec.sample { Page.loggedIn with UserAgent := some "UA-Y" }
          (FileSystem.empty Session) "session.json" 0).1 "session.json" Hour).outcome ∧
    (LoadSession JsonCodec.sample Page.reliable
        (SaveSession JsonCodec.sample Page.loggedIn (FileSystem.empty Session)
          "session.json" 0).1 "session.json" Hour).params
      = (LoadSession JsonCodec.sample Page.reliable
        (SaveSession JsonCodec.sample { Page.loggedIn with UserAgent := some "UA-Y" }
          (FileSystem.empty Session) "session.json" 0).1 "session.json" Hour).params := by
  refine ⟨?_, ?_, ?_⟩
  · simp [SaveSession, Page.loggedIn, JsonCodec.sample, FileSystem.WriteFile, FileSystem.empty,
      FileSystem.ReadFile]
  · simp [LoadSession, SaveSession, Page.loggedIn, JsonCodec.sample, FileSystem.WriteFile,
      FileSystem.empty, FileSystem.statNotExist, FileSystem.ReadFile, timeSince, minDuration,
      maxDuration, Hour, Page.reliable, NetworkCookie.samples, cookieParams]
  · simp [LoadSession, SaveSession, Page.loggedIn, JsonCodec.sample, FileSystem.WriteFile,
      FileSystem.empty, FileSystem.statNotExist, FileSystem.ReadFile, timeSince, minDuration,
      maxDuration, Hour, Page.reliable, NetworkCookie.samples, cookieParams]

/-- C4, amended: for every list of cookies and every user agent, after SaveSession has
saved them (the JSON encoding reading back what it wrote), LoadSession on the same
location within the freshness window passes to the driver's SetCookies exactly one
parameter per saved cookie, in the same order, with the same name, value, domain, path,
secure, httpOnly, sameSite and expiry, whatever the saved user agent is, and fails only
if SetCookies fails.  LoadSession returns an error value only: the user agent is stored
by SaveSession but neither returned nor applied to the page by LoadSession. -/
theorem C4_save_load_roundtrip {Data : Type} (codec : JsonCodec Data) (page page2 : Page)
    (fs : FileSystem Data) (filename : String) (T now : Int)
    (cs : List NetworkCookie) (ua : String)
    (hcs : page.Cookies = some (cs.map some)) (hua : page.UserAgent = some ua)
    (hsave : (SaveSession codec page fs filename T).2 = .ok)
    (hrt : ∀ s data, codec.MarshalIndent s = some data → codec.Unmarshal data = some s)
    (hfresh : now - T ≤ 7 * 24 * Hour) :
    (LoadSession codec page2 (SaveSession codec page fs filename T).1 filename now).params
      = some (cs.map cookieParam) ∧
    ((cs.map cookieParam).length = cs.length ∧
      (cs.map cookieParam).map
          (fun p => (p.Name, p.Value, p.Domain, p.Path, p.Secure, p.HTTPOnly, p.SameSite, p.Expires))
        = cs.map
          (fun c => (c.Name, c.Value, c.Domain, c.Path, c.Secure, c.HTTPOnly, c.SameSite, c.Expires))) ∧
    (LoadSession codec page2 (SaveSession codec page fs filename T).1 filename now).outcome
      = if page2.setCookiesFails (cs.map cookieParam) then .error "failed to set cookies"
        else .ok := by
  obtain ⟨cookies, ua2, data, hc, hu2, hm, hfile⟩ := SaveSession_ok codec page fs filename T hsave
  rw [hcs] at hc
  rw [hua] at hu2
  cases hc
  cases hu2
  have hu := hrt _ _ hm
  rw [LoadSession_fresh codec page2 _ filename now data _ cs hfile hu hfresh rfl]
  refine ⟨rfl, ⟨by simp, ?_⟩, rfl⟩
  simp [cookieParam, Function.comp_def]


/-- C6, counterexample: the file is present and well formed, holding a session stored
at instant 0; at 8 days LoadSession fails on its own check with the expired error. -/
theorem C6_counterexample :
    (∃ data s, FileSystem.stored.files "session.json" = .file data ∧
      JsonCodec.sample.Unmarshal data = some s) ∧
    (LoadSession JsonCodec.sample Page.reliable FileSystem.stored "session.json"
      (8 * 24 * Hour)).outcome = .error "session expired (older than 7 days)" := by
  refine ⟨⟨Session.sample, Session.sample, by simp [FileSystem.stored], rfl⟩, ?_⟩
  simp [LoadSession, Session.sample, FileSystem.statNotExist, FileSystem.ReadFile, FileSystem.stored,
    JsonCodec.sample, timeSince, minDuration, maxDuration, Hour]

/-- C6, amended: LoadSession fails with the not-found error when the file is absent,
with the parse error when the content is not a well-formed session record, with the
expired error when the stored timestamp is more than 7 days old, and otherwise, for a
record whose cookie entries are all non-null, fails on none of its own checks, decodes
the stored session unmodified and passes its cookies, in order and field by field, to
the driver (failing only if the driver's SetCookies fails). -/
theorem C6_LoadSession_cases {Data : Type} (codec : JsonCodec Data) (page : Page)
    (fs : FileSystem Data) (filename : String) (now : Int) :
    (fs.files filename = .absent →
      LoadSession codec page fs filename now
        = { outcome := .error "session file not found", session := none, params := none }) ∧
    (∀ data, fs.files filename = .file data → codec.Unmarshal data = none →
      LoadSession codec page fs filename now
        = { outcome := .error "failed to unmarshal session", session := none, params := none }) ∧
    (∀ data s, fs.files filename = .file data → codec.Unmarshal data = some s →
      7 * 24 * Hour < now - s.Timestamp →
      (LoadSession codec page fs filename now).outcome
        = .error "session expired (older than 7 days)") ∧
    (∀ data s (cs : List NetworkCookie), fs.files filename = .file data → codec.Unmarshal data = some s →
      now - s.Timestamp ≤ 7 * 24 * Hour → s.Cookies = cs.map some →
      LoadSession codec page fs filename now
        = { outcome := if page.setCookiesFails (cs.map cookieParam) then
              .error "failed to set cookies" else .ok
            session := some s
            params := some (cs.map cookieParam) }) := by
  refine ⟨?_, ?_, ?_, ?_⟩
  · intro hf
    simp [LoadSession, FileSystem.statNotExist, hf]
  · intro data hf hu
    simp [LoadSession, FileSystem.statNotExist, FileSystem.ReadFile, hf, hu]
  · intro data s hf hu hage
    have h1 : timeSince now s.Timestamp > 7 * 24 * Hour := by
      rw [timeSince_gt_week]; omega
    simp only [LoadSession, FileSystem.statNotExist, FileSystem.ReadFile, hf, hu, h1,
      Bool.false_eq_true, if_false, if_true]
  · intro data s cs hf hu hage hcs
    exact LoadSession_fresh codec page fs filename now data s cs hf hu hage hcs

/-! ### The curve built by NewBezierCurve -/

/-! ### Error bounds for float64 expressions -/

theorem round64_scale (y c M : ℚ) (hM : 1 ≤ M) (hy : |y| ≤ c * M) :
    |round64 y - y| ≤ (c + 1) * M / 2 ^ 53 ∧ |round64 y| ≤ (c + (c + 1) / 2 ^ 53) * M := by
  have h := round64_abs y
  have h1 : |y| / 2 ^ 53 ≤ c * M / 2 ^ 53 := div_le_div_of_nonneg_right hy (by positivity)
  have h2 : (1 : ℚ) / 2 ^ 1075 ≤ M / 2 ^ 53 := by
    have a1 : (1 : ℚ) / 2 ^ 1075 ≤ 1 / 2 ^ 53 := by norm_num
    have a2 : (1 : ℚ) / 2 ^ 53 ≤ M / 2 ^ 53 := div_le_div_of_nonneg_right hM (by positivity)
    exact le_trans a1 a2
  have h3 : |round64 y - y| ≤ (c + 1) * M / 2 ^ 53 := by
    have e : (c + 1) * M / 2 ^ 53 = c * M / 2 ^ 53 + M / 2 ^ 53 := by ring
    rw [e]; linarith only [h, h1, h2]
  refine ⟨h3, ?_⟩
  have h4 : |round64 y| ≤ |round64 y - y| + |y| := by
    have := abs_add (round64 y - y) y
    simpa using this
  have e : (c + (c + 1) / 2 ^ 53) * M = (c + 1) * M / 2 ^ 53 + c * M := by ring
  rw [e]; linarith only [h3, h4, hy]

/-- One coordinate of a control point of `NewBezierCurve`: the error of the float64
value against the exact expression. -/
theorem control_coordinate_err (S E c mag q M : ℚ) (hM : 1 ≤ M) (hS : |S| ≤ M) (hE : |E| ≤ M)
    (hc : |c| ≤ 2) (hmag0 : 0 ≤ mag) (hmag : mag ≤ 3 * M) (hq0 : 0 ≤ q) (hq1 : q ≤ 1) :
    |round64 (round64 (S + round64 (round64 (E - S) * q)) + round64 (c * mag))
      - (S + q * (E - S) + c * mag)| ≤ M / 2 ^ 47 ∧
    |round64 (round64 (S + round64 (round64 (E - S) * q)) + round64 (c * mag))| ≤ 14 * M := by
  have hM0 : 0 ≤ M := le_trans zero_le_one hM
  -- dx
  have hdX : |E - S| ≤ 2 * M := by
    have := abs_sub E S
    linarith only [this, hE, hS]
  obtain ⟨e1, b1⟩ := round64_scale (E - S) 2 M hM hdX
  have b1' : |round64 (E - S)| ≤ 3 * M := by
    have : (2 + (2 + 1) / 2 ^ 53 : ℚ) * M ≤ 3 * M :=
      mul_le_mul_of_nonneg_right (by norm_num) hM0
    linarith only [this, b1]
  -- dx * q
  have hy1 : |round64 (E - S) * q| ≤ 3 * M := by
    rw [abs_mul, abs_of_nonneg hq0]
    have : |round64 (E - S)| * q ≤ |round64 (E - S)| * 1 :=
      mul_le_mul_of_nonneg_left hq1 (abs_nonneg _)
    linarith only [this, b1']
  obtain ⟨e2, b2⟩ := round64_scale (round64 (E - S) * q) 3 M hM hy1
  have b2' : |round64 (round64 (E - S) * q)| ≤ 4 * M := by
    have : (3 + (3 + 1) / 2 ^ 53 : ℚ) * M ≤ 4 * M :=
      mul_le_mul_of_nonneg_right (by norm_num) hM0
    linarith only [this, b2]
  -- S + t1
  have hy2 : |S + round64 (round64 (E - S) * q)| ≤ 5 * M := by
    have := abs_add S (round64 (round64 (E - S) * q))
    linarith only [this, hS, b2']
  obtain ⟨e3, b3⟩ := round64_scale (S + round64 (round64 (E - S) * q)) 5 M hM hy2
  have b3' : |round64 (S + round64 (round64 (E - S) * q))| ≤ 6 * M := by
    have : (5 + (5 + 1) / 2 ^ 53 : ℚ) * M ≤ 6 * M :=
      mul_le_mul_of_nonneg_right (by norm_num) hM0
    linarith only [this, b3]
  -- c * mag
  have hy3 : |c * mag| ≤ 6 * M := by
    rw [abs_mul, abs_of_nonneg hmag0]
    have : |c| * mag ≤ 2 * (3 * M) := mul_le_mul hc hmag hmag0 (by norm_num)
    linarith only [this]
  obtain ⟨e4, b4⟩ := round64_scale (c * mag) 6 M hM hy3
  have b4' : |round64 (c * mag)| ≤ 7 * M := by
    have : (6 + (6 + 1) / 2 ^ 53 : ℚ) * M ≤ 7 * M :=
      mul_le_mul_of_nonneg_right (by norm_num) hM0
    linarith only [this, b4]
  -- the sum
  have hy4 : |round64 (S + round64 (round64 (E - S) * q)) + round64 (c * mag)| ≤ 13 * M := by
    have := abs_add (round64 (S + round64 (round64 (E - S) * q))) (round64 (c * mag))
    linarith only [this, b3', b4']
  obtain ⟨e5, b5⟩ := round64_scale
    (round64 (S + round64 (round64 (E - S) * q)) + round64 (c * mag)) 13 M hM hy4
  have b5' : |round64 (round64 (S + round64 (round64 (E - S) * q)) + round64 (c * mag))|
      ≤ 14 * M := by
    have : (13 + (13 + 1) / 2 ^ 53 : ℚ) * M ≤ 14 * M :=
      mul_le_mul_of_nonneg_right (by norm_num) hM0
    linarith only [this, b5]
  refine ⟨?_, b5'⟩
  -- q * (dx - dX)
  have e1q : |q * (round64 (E - S) - (E - S))| ≤ (2 + 1) * M / 2 ^ 53 := by
    rw [abs_mul, abs_of_nonneg hq0]
    have : q * |round64 (E - S) - (E - S)| ≤ 1 * |round64 (E - S) - (E - S)| :=
      mul_le_mul_of_nonneg_right hq1 (abs_nonneg _)
    linarith only [this, e1]
  have key : round64 (round64 (S + round64 (round64 (E - S) * q)) + round64 (c * mag))
      - (S + q * (E - S) + c * mag)
      = (round64 (round64 (S + round64 (round64 (E - S) * q)) + round64 (c * mag))
          - (round64 (S + round64 (round64 (E - S) * q)) + round64 (c * mag)))
        + (round64 (S + round64 (round64 (E - S) * q))
          - (S + round64 (round64 (E - S) * q)))
        + (round64 (round64 (E - S) * q) - round64 (E - S) * q)
        + q * (round64 (E - S) - (E - S))
        + (round64 (c * mag) - c * mag) := by ring
  rw [key]
  have t1 := abs_add
    ((round64 (round64 (S + round64 (round64 (E - S) * q)) + round64 (c * mag))
          - (round64 (S + round64 (round64 (E - S) * q)) + round64 (c * mag)))
        + (round64 (S + round64 (round64 (E - S) * q))
          - (S + round64 (round64 (E - S) * q)))
        + (round64 (round64 (E - S) * q) - round64 (E - S) * q)
        + q * (round64 (E - S) - (E - S)))
    (round64 (c * mag) - c * mag)
  have t2 := abs_add
    ((round64 (round64 (S + round64 (round64 (E - S) * q)) + round64 (c * mag))
          - (round64 (S + round64 (round64 (E - S) * q)) + round64 (c * mag)))
        + (round64 (S + round64 (round64 (E - S) * q))
          - (S + round64 (round64 (E - S) * q)))
        + (round64 (round64 (E - S) * q) - round64 (E - S) * q))
    (q * (round64 (E - S) - (E - S)))
  have t3 := abs_add
    ((round64 (round64 (S + round64 (round64 (E - S) * q)) + round64 (c * mag))
          - (round64 (S + round64 (round64 (E - S) * q)) + round64 (c * mag)))
        + (round64 (S + round64 (round64 (E - S) * q))
          - (S + round64 (round64 (E - S) * q))))
    (round64 (round64 (E - S) * q) - round64 (E - S) * q)
  have t4 := abs_add
    (round64 (round64 (S + round64 (round64 (E - S) * q)) + round64 (c * mag))
          - (round64 (S + round64 (round64 (E - S) * q)) + round64 (c * mag)))
    (round64 (S + round64 (round64 (E - S) * q))
          - (S + round64 (round64 (E - S) * q)))
  have fin : (13 + 1) * M / 2 ^ 53 + (5 + 1) * M / 2 ^ 53 + (3 + 1) * M / 2 ^ 53
      + (2 + 1) * M / 2 ^ 53 + (6 + 1) * M / 2 ^ 53 ≤ M / 2 ^ 47 := by
    have : (13 + 1) * M / 2 ^ 53 + (5 + 1) * M / 2 ^ 53 + (3 + 1) * M / 2 ^ 53
      + (2 + 1) * M / 2 ^ 53 + (6 + 1) * M / 2 ^ 53 = 34 / 2 ^ 53 * M := by ring
    rw [this]
    have : M / 2 ^ 47 = 1 / 2 ^ 47 * M := by ring
    rw [this]
    exact mul_le_mul_of_nonneg_right (by norm_num) hM0
  linarith only [t1, t2, t3, t4, e5, e3, e2, e1q, e4, fin]

theorem norm_add_le (p1 p2 q1 q2 P Q : ℚ) (hp : p1 ^ 2 + p2 ^ 2 ≤ P ^ 2)
    (hq : q1 ^ 2 + q2 ^ 2 ≤ Q ^ 2) (hP : 0 ≤ P) (hQ : 0 ≤ Q) :
    (p1 + q1) ^ 2 + (p2 + q2) ^ 2 ≤ (P + Q) ^ 2 := by
  have hcs : (p1 * q1 + p2 * q2) ^ 2 ≤ (P * Q) ^ 2 := by
    have h1 : (p1 * q1 + p2 * q2) ^ 2 ≤ (p1 ^ 2 + p2 ^ 2) * (q1 ^ 2 + q2 ^ 2) := by
      have h0 := sq_nonneg (p1 * q2 - p2 * q1)
      have e : (p1 ^ 2 + p2 ^ 2) * (q1 ^ 2 + q2 ^ 2)
          = (p1 * q1 + p2 * q2) ^ 2 + (p1 * q2 - p2 * q1) ^ 2 := by ring
      rw [e]
      linarith only [h0]
    have h2 : (p1 ^ 2 + p2 ^ 2) * (q1 ^ 2 + q2 ^ 2) ≤ P ^ 2 * Q ^ 2 :=
      mul_le_mul hp hq (by positivity) (by positivity)
    calc (p1 * q1 + p2 * q2) ^ 2 ≤ P ^ 2 * Q ^ 2 := le_trans h1 h2
      _ = (P * Q) ^ 2 := by ring
  have hpq : p1 * q1 + p2 * q2 ≤ P * Q := by
    have := abs_le_of_sq_le_sq' hcs (mul_nonneg hP hQ)
    exact this.2
  have e1 : (p1 + q1) ^ 2 + (p2 + q2) ^ 2
      = (p1 ^ 2 + p2 ^ 2) + (q1 ^ 2 + q2 ^ 2) + 2 * (p1 * q1 + p2 * q2) := by ring
  have e2 : (P + Q) ^ 2 = P ^ 2 + Q ^ 2 + 2 * (P * Q) := by ring
  rw [e1, e2]
  linarith only [hp, hq, hpq]

theorem norm_sub_le (p1 p2 q1 q2 P Q : ℚ) (hp : P ^ 2 ≤ p1 ^ 2 + p2 ^ 2)
    (hq : q1 ^ 2 + q2 ^ 2 ≤ Q ^ 2) (hQ : 0 < Q) (hPQ : Q ≤ P) :
    (P - Q) ^ 2 ≤ (p1 + q1) ^ 2 + (p2 + q2) ^ 2 := by
  have hP : 0 < P := lt_of_lt_of_le hQ hPQ
  have hPQ0 : 0 < P * Q := mul_pos hP hQ
  have h1 : 0 ≤ (Q * p1 + P * q1) ^ 2 + (Q * p2 + P * q2) ^ 2 := by positivity
  have key : P * Q * (P - Q) ^ 2 ≤ P * Q * ((p1 + q1) ^ 2 + (p2 + q2) ^ 2) := by
    have h2 : (P - Q) * (Q * P ^ 2) ≤ (P - Q) * (Q * (p1 ^ 2 + p2 ^ 2)) :=
      mul_le_mul_of_nonneg_left (mul_le_mul_of_nonneg_left hp hQ.le) (sub_nonneg.mpr hPQ)
    have h3 : (P - Q) * (P * (q1 ^ 2 + q2 ^ 2)) ≤ (P - Q) * (P * Q ^ 2) :=
      mul_le_mul_of_nonneg_left (mul_le_mul_of_nonneg_left hq hP.le) (sub_nonneg.mpr hPQ)
    linarith only [h1, h2, h3]
  exact le_of_mul_le_mul_left key hPQ0

/-- The float64 square of a rounded difference `X`, against the exact square. -/
theorem square_err (X M : ℚ) (hM : 1 ≤ M) (hX : |X| ≤ 2 * M) :
    |round64 (round64 X * round64 X) - X ^ 2| ≤ X ^ 2 / 2 ^ 51 + M ^ 2 / 2 ^ 100 ∧
    0 ≤ round64 (round64 X * round64 X) := by
  have hM0 : 0 ≤ M := le_trans zero_le_one hM
  have hMM : M ≤ M ^ 2 := by
    have := mul_le_mul_of_nonneg_left hM hM0
    rw [mul_one] at this
    rw [sq]
    exact this
  have hM1 : 1 ≤ M ^ 2 := le_trans hM hMM
  have ha0 : 0 ≤ |X| := abs_nonneg X
  have hsq : |X| ^ 2 = X ^ 2 := sq_abs X
  have h := round64_abs X
  -- E bounds the error of the rounded difference
  have hE0 : 0 ≤ |X| / 2 ^ 53 + 1 / 2 ^ 1075 := by positivity
  have hE1 : |X| / 2 ^ 53 + 1 / 2 ^ 1075 ≤ 3 * M / 2 ^ 53 := by
    have h1 : |X| / 2 ^ 53 ≤ 2 * M / 2 ^ 53 := div_le_div_of_nonneg_right hX (by positivity)
    have h2 : (1 : ℚ) / 2 ^ 1075 ≤ 1 / 2 ^ 53 := by norm_num
    have h3 : (1 : ℚ) / 2 ^ 53 ≤ M / 2 ^ 53 := div_le_div_of_nonneg_right hM (by positivity)
    have e : 3 * M / 2 ^ 53 = 2 * M / 2 ^ 53 + M / 2 ^ 53 := by ring
    rw [e]; linarith only [h1, h2, h3]
  have hsum : |round64 X + X| ≤ 2 * |X| + (|X| / 2 ^ 53 + 1 / 2 ^ 1075) := by
    have e : round64 X + X = (round64 X - X) + 2 * X := by ring
    rw [e]
    have := abs_add (round64 X - X) (2 * X)
    have h2 : |2 * X| = 2 * |X| := by rw [abs_mul]; norm_num
    linarith only [this, h2, h]
  have hdiff : |round64 X * round64 X - X ^ 2|
      ≤ (|X| / 2 ^ 53 + 1 / 2 ^ 1075) * (2 * |X| + (|X| / 2 ^ 53 + 1 / 2 ^ 1075)) := by
    have e : round64 X * round64 X - X ^ 2 = (round64 X - X) * (round64 X + X) := by ring
    rw [e, abs_mul]
    exact mul_le_mul h hsum (abs_nonneg _) hE0
  have hprod : (|X| / 2 ^ 53 + 1 / 2 ^ 1075) * (2 * |X| + (|X| / 2 ^ 53 + 1 / 2 ^ 1075))
      ≤ X ^ 2 / 2 ^ 52 + 10 * M ^ 2 / 2 ^ 106 := by
    have e : (|X| / 2 ^ 53 + 1 / 2 ^ 1075) * (2 * |X| + (|X| / 2 ^ 53 + 1 / 2 ^ 1075))
        = |X| ^ 2 / 2 ^ 52 + 2 * |X| * (1 / 2 ^ 1075)
          + (|X| / 2 ^ 53 + 1 / 2 ^ 1075) ^ 2 := by ring
    rw [e, hsq]
    have h1 : 2 * |X| * (1 / 2 ^ 1075) ≤ 4 * M ^ 2 * (1 / 2 ^ 1075) := by
      have : 2 * |X| ≤ 4 * M ^ 2 := by linarith only [hX, hMM]
      exact mul_le_mul_of_nonneg_right this (by positivity)
    have h2 : (|X| / 2 ^ 53 + 1 / 2 ^ 1075) ^ 2 ≤ (3 * M / 2 ^ 53) ^ 2 :=
      pow_le_pow_left₀ hE0 hE1 2
    have h3 : (3 * M / 2 ^ 53) ^ 2 = 9 * M ^ 2 / 2 ^ 106 := by ring
    have h4 : 4 * M ^ 2 * (1 / 2 ^ 1075) ≤ M ^ 2 / 2 ^ 106 := by
      have : 4 * M ^ 2 * (1 / 2 ^ 1075) = M ^ 2 * (4 / 2 ^ 1075) := by ring
      rw [this, div_eq_mul_one_div (M ^ 2)]
      exact mul_le_mul_of_nonneg_left (by norm_num) (by positivity)
    have e2 : X ^ 2 / 2 ^ 52 + 10 * M ^ 2 / 2 ^ 106
        = X ^ 2 / 2 ^ 52 + M ^ 2 / 2 ^ 106 + 9 * M ^ 2 / 2 ^ 106 := by ring
    rw [e2]; linarith only [h1, h2, h3, h4]
  have hd := le_trans hdiff hprod
  have hxx0 : 0 ≤ round64 X * round64 X := mul_self_nonneg _
  have hp := round64_abs (round64 X * round64 X)
  rw [abs_of_nonneg hxx0] at hp
  have hxx1 : round64 X * round64 X ≤ X ^ 2 + (X ^ 2 / 2 ^ 52 + 10 * M ^ 2 / 2 ^ 106) := by
    have := le_abs_self (round64 X * round64 X - X ^ 2)
    linarith only [this, hd]
  refine ⟨?_, round64_nonneg _ hxx0⟩
  have e : round64 (round64 X * round64 X) - X ^ 2
      = (round64 (round64 X * round64 X) - round64 X * round64 X)
        + (round64 X * round64 X - X ^ 2) := by ring
  rw [e]
  have t := abs_add (round64 (round64 X * round64 X) - round64 X * round64 X)
    (round64 X * round64 X - X ^ 2)
  have hX2 : 0 ≤ X ^ 2 := sq_nonneg X
  have hM2 : 0 ≤ M ^ 2 := sq_nonneg M
  have h5 : round64 X * round64 X / 2 ^ 53
      ≤ (X ^ 2 + (X ^ 2 / 2 ^ 52 + 10 * M ^ 2 / 2 ^ 106)) / 2 ^ 53 :=
    div_le_div_of_nonneg_right hxx1 (by positivity)
  have h6 : (1 : ℚ) / 2 ^ 1075 ≤ M ^ 2 / 2 ^ 106 := by
    have h61 : (1 : ℚ) / 2 ^ 1075 ≤ 1 / 2 ^ 106 := by norm_num
    have h62 : (1 : ℚ) / 2 ^ 106 ≤ M ^ 2 / 2 ^ 106 :=
      div_le_div_of_nonneg_right hM1 (by positivity)
    linarith only [h61, h62]
  have fin : (X ^ 2 + (X ^ 2 / 2 ^ 52 + 10 * M ^ 2 / 2 ^ 106)) / 2 ^ 53 + M ^ 2 / 2 ^ 106
      + (X ^ 2 / 2 ^ 52 + 10 * M ^ 2 / 2 ^ 106) ≤ X ^ 2 / 2 ^ 51 + M ^ 2 / 2 ^ 100 := by
    have e1 : (X ^ 2 + (X ^ 2 / 2 ^ 52 + 10 * M ^ 2 / 2 ^ 106)) / 2 ^ 53 + M ^ 2 / 2 ^ 106
      + (X ^ 2 / 2 ^ 52 + 10 * M ^ 2 / 2 ^ 106)
        = X ^ 2 * (1 / 2 ^ 53 + 1 / 2 ^ 105 + 1 / 2 ^ 52)
          + M ^ 2 * (10 / 2 ^ 159 + 1 / 2 ^ 106 + 10 / 2 ^ 106) := by ring
    have e2 : X ^ 2 / 2 ^ 51 + M ^ 2 / 2 ^ 100 = X ^ 2 * (1 / 2 ^ 51) + M ^ 2 * (1 / 2 ^ 100) := by
      ring
    rw [e1, e2]
    have a1 : X ^ 2 * (1 / 2 ^ 53 + 1 / 2 ^ 105 + 1 / 2 ^ 52) ≤ X ^ 2 * (1 / 2 ^ 51) :=
      mul_le_mul_of_nonneg_left (by norm_num) hX2
    have a2 : M ^ 2 * (10 / 2 ^ 159 + 1 / 2 ^ 106 + 10 / 2 ^ 106) ≤ M ^ 2 * (1 / 2 ^ 100) :=
      mul_le_mul_of_nonneg_left (by norm_num) hM2
    linarith only [a1, a2]
  linarith only [t, hp, hd, h5, h6, fin]

/-- The argument of `math.Sqrt` in `NewBezierCurve` against the exact squared chord
length. -/
theorem sumSquares_err (start stop : Point) (M : ℚ) (hM : 1 ≤ M)
    (hSX : |start.X| ≤ M) (hSY : |start.Y| ≤ M) (hEX : |stop.X| ≤ M) (hEY : |stop.Y| ≤ M) :
    |Float64.sumSquares start stop - distSq stop start|
      ≤ distSq stop start / 2 ^ 50 + M ^ 2 / 2 ^ 98 ∧
    0 ≤ Float64.sumSquares start stop := by
  have hdX : |stop.X - start.X| ≤ 2 * M := by
    have := abs_sub stop.X start.X
    linarith only [this, hEX, hSX]
  have hdY : |stop.Y - start.Y| ≤ 2 * M := by
    have := abs_sub stop.Y start.Y
    linarith only [this, hEY, hSY]
  obtain ⟨hx, hx0⟩ := square_err (stop.X - start.X) M hM hdX
  obtain ⟨hy, hy0⟩ := square_err (stop.Y - start.Y) M hM hdY
  have hL : distSq stop start = (stop.X - start.X) ^ 2 + (stop.Y - start.Y) ^ 2 := rfl
  have hX2 : 0 ≤ (stop.X - start.X) ^ 2 := sq_nonneg _
  have hY2 : 0 ≤ (stop.Y - start.Y) ^ 2 := sq_nonneg _
  have hM2 : 0 ≤ M ^ 2 := sq_nonneg M
  rw [abs_le] at hx hy
  have hs0 : 0 ≤ round64 (round64 (stop.X - start.X) * round64 (stop.X - start.X))
      + round64 (round64 (stop.Y - start.Y) * round64 (stop.Y - start.Y)) := by
    linarith only [hx0, hy0]
  have hs := round64_abs (round64 (round64 (stop.X - start.X) * round64 (stop.X - start.X))
      + round64 (round64 (stop.Y - start.Y) * round64 (stop.Y - start.Y)))
  rw [abs_of_nonneg hs0, abs_le] at hs
  have h6 : (1 : ℚ) / 2 ^ 1075 ≤ M ^ 2 / 2 ^ 106 := by
    have h61 : (1 : ℚ) / 2 ^ 1075 ≤ 1 / 2 ^ 106 := by norm_num
    have h62 : (1 : ℚ) / 2 ^ 106 ≤ M ^ 2 / 2 ^ 106 :=
      div_le_div_of_nonneg_right (one_le_pow₀ hM) (by positivity)
    linarith only [h61, h62]
  unfold Float64.sumSquares
  rw [hL]
  refine ⟨?_, round64_nonneg _ hs0⟩
  rw [abs_le]
  constructor
  · have e : -(((stop.X - start.X) ^ 2 + (stop.Y - start.Y) ^ 2) / 2 ^ 50 + M ^ 2 / 2 ^ 98)
        ≤ -(( ((stop.X - start.X) ^ 2 + (stop.X - start.X) ^ 2 / 2 ^ 51 + M ^ 2 / 2 ^ 100)
              + ((stop.Y - start.Y) ^ 2 + (stop.Y - start.Y) ^ 2 / 2 ^ 51 + M ^ 2 / 2 ^ 100))
            / 2 ^ 53 + M ^ 2 / 2 ^ 106)
          - ((stop.X - start.X) ^ 2 / 2 ^ 51 + M ^ 2 / 2 ^ 100)
          - ((stop.Y - start.Y) ^ 2 / 2 ^ 51 + M ^ 2 / 2 ^ 100) := by
      have : (((stop.X - start.X) ^ 2 + (stop.X - start.X) ^ 2 / 2 ^ 51 + M ^ 2 / 2 ^ 100)
              + ((stop.Y - start.Y) ^ 2 + (stop.Y - start.Y) ^ 2 / 2 ^ 51 + M ^ 2 / 2 ^ 100))
            / 2 ^ 53 + M ^ 2 / 2 ^ 106
          + ((stop.X - start.X) ^ 2 / 2 ^ 51 + M ^ 2 / 2 ^ 100)
          + ((stop.Y - start.Y) ^ 2 / 2 ^ 51 + M ^ 2 / 2 ^ 100)
          = ((stop.X - start.X) ^ 2 + (stop.Y - start.Y) ^ 2)
              * (1 / 2 ^ 53 + 1 / 2 ^ 104 + 1 / 2 ^ 51)
            + M ^ 2 * (2 / 2 ^ 153 + 1 / 2 ^ 106 + 2 / 2 ^ 100) := by ring
      have a1 : ((stop.X - start.X) ^ 2 + (stop.Y - start.Y) ^ 2)
              * (1 / 2 ^ 53 + 1 / 2 ^ 104 + 1 / 2 ^ 51)
          ≤ ((stop.X - start.X) ^ 2 + (stop.Y - start.Y) ^ 2) * (1 / 2 ^ 50) :=
        mul_le_mul_of_nonneg_left (by norm_num) (add_nonneg hX2 hY2)
      have a2 : M ^ 2 * (2 / 2 ^ 153 + 1 / 2 ^ 106 + 2 / 2 ^ 100) ≤ M ^ 2 * (1 / 2 ^ 98) :=
        mul_le_mul_of_nonneg_left (by norm_num) hM2
      linarith only [this, a1, a2]
    have h5 : (round64 (round64 (stop.X - start.X) * round64 (stop.X - start.X))
        + round64 (round64 (stop.Y - start.Y) * round64 (stop.Y - start.Y))) / 2 ^ 53
        ≤ (((stop.X - start.X) ^ 2 + (stop.X - start.X) ^ 2 / 2 ^ 51 + M ^ 2 / 2 ^ 100)
              + ((stop.Y - start.Y) ^ 2 + (stop.Y - start.Y) ^ 2 / 2 ^ 51 + M ^ 2 / 2 ^ 100))
            / 2 ^ 53 :=
      div_le_div_of_nonneg_right (by linarith only [hx.1, hx.2, hy.1, hy.2]) (by positivity)
    linarith only [hs.1, hs.2, e, h5, hx.1, hx.2, hy.1, hy.2, h6]
  · have e : (((stop.X - start.X) ^ 2 + (stop.X - start.X) ^ 2 / 2 ^ 51 + M ^ 2 / 2 ^ 100)
              + ((stop.Y - start.Y) ^ 2 + (stop.Y - start.Y) ^ 2 / 2 ^ 51 + M ^ 2 / 2 ^ 100))
            / 2 ^ 53 + M ^ 2 / 2 ^ 106
          + ((stop.X - start.X) ^ 2 / 2 ^ 51 + M ^ 2 / 2 ^ 100)
          + ((stop.Y - start.Y) ^ 2 / 2 ^ 51 + M ^ 2 / 2 ^ 100)
        ≤ ((stop.X - start.X) ^ 2 + (stop.Y - start.Y) ^ 2) / 2 ^ 50 + M ^ 2 / 2 ^ 98 := by
      have : (((stop.X - start.X) ^ 2 + (stop.X - start.X) ^ 2 / 2 ^ 51 + M ^ 2 / 2 ^ 100)
              + ((stop.Y - start.Y) ^ 2 + (stop.Y - start.Y) ^ 2 / 2 ^ 51 + M ^ 2 / 2 ^ 100))
            / 2 ^ 53 + M ^ 2 / 2 ^ 106
          + ((stop.X - start.X) ^ 2 / 2 ^ 51 + M ^ 2 / 2 ^ 100)
          + ((stop.Y - start.Y) ^ 2 / 2 ^ 51 + M ^ 2 / 2 ^ 100)
          = ((stop.X - start.X) ^ 2 + (stop.Y - start.Y) ^ 2)
              * (1 / 2 ^ 53 + 1 / 2 ^ 104 + 1 / 2 ^ 51)
            + M ^ 2 * (2 / 2 ^ 153 + 1 / 2 ^ 106 + 2 / 2 ^ 100) := by ring
      have a1 : ((stop.X - start.X) ^ 2 + (stop.Y - start.Y) ^ 2)
              * (1 / 2 ^ 53 + 1 / 2 ^ 104 + 1 / 2 ^ 51)
          ≤ ((stop.X - start.X) ^ 2 + (stop.Y - start.Y) ^ 2) * (1 / 2 ^ 50) :=
        mul_le_mul_of_nonneg_left (by norm_num) (add_nonneg hX2 hY2)
      have a2 : M ^ 2 * (2 / 2 ^ 153 + 1 / 2 ^ 106 + 2 / 2 ^ 100) ≤ M ^ 2 * (1 / 2 ^ 98) :=
        mul_le_mul_of_nonneg_left (by norm_num) hM2
      linarith only [this, a1, a2]
    have h5 : (round64 (round64 (stop.X - start.X) * round64 (stop.X - start.X))
        + round64 (round64 (stop.Y - start.Y) * round64 (stop.Y - start.Y))) / 2 ^ 53
        ≤ (((stop.X - start.X) ^ 2 + (stop.X - start.X) ^ 2 / 2 ^ 51 + M ^ 2 / 2 ^ 100)
              + ((stop.Y - start.Y) ^ 2 + (stop.Y - start.Y) ^ 2 / 2 ^ 51 + M ^ 2 / 2 ^ 100))
            / 2 ^ 53 :=
      div_le_div_of_nonneg_right (by linarith only [hx.1, hx.2, hy.1, hy.2]) (by positivity)
    linarith only [hs.1, hs.2, e, h5, hx.1, hx.2, hy.1, hy.2, h6]

/-- The value of `distance` in `NewBezierCurve` against the exact chord length, when
`math.Sqrt` is accurate at its argument and the chord is not short against the
coordinates. -/
theorem chordDistance_bounds (m : MathLib) (start stop : Point) (M : ℚ) (hM : 1 ≤ M)
    (hSX : |start.X| ≤ M) (hSY : |start.Y| ≤ M) (hEX : |stop.X| ≤ M) (hEY : |stop.Y| ≤ M)
    (hchord : (M / 2 ^ 20) ^ 2 ≤ distSq stop start)
    (hsqrt : 0 ≤ Float64.chordDistance m start stop ∧
      |Float64.chordDistance m start stop ^ 2 - Float64.sumSquares start stop|
        ≤ Float64.sumSquares start stop / 2 ^ 50) :
    (1 - 1 / 2 ^ 48) * distSq stop start ≤ Float64.chordDistance m start stop ^ 2 ∧
    Float64.chordDistance m start stop ^ 2 ≤ (1 + 1 / 2 ^ 48) * distSq stop start ∧
    M ≤ 2 ^ 21 * Float64.chordDistance m start stop ∧
    Float64.chordDistance m start stop ≤ 3 * M := by
  obtain ⟨hs, hs0⟩ := sumSquares_err start stop M hM hSX hSY hEX hEY
  obtain ⟨hD0, hD⟩ := hsqrt
  have hM0 : 0 ≤ M := le_trans zero_le_one hM
  have hL0 : 0 ≤ distSq stop start := add_nonneg (sq_nonneg _) (sq_nonneg _)
  have hMM : M ^ 2 ≤ 2 ^ 40 * distSq stop start := by
    have e : (M / 2 ^ 20) ^ 2 = M ^ 2 / 2 ^ 40 := by ring
    rw [e, div_le_iff₀ (by positivity)] at hchord
    linarith only [hchord]
  have hL8 : distSq stop start ≤ 8 * M ^ 2 := by
    have hdX : |stop.X - start.X| ≤ 2 * M := by
      have := abs_sub stop.X start.X
      linarith only [this, hEX, hSX]
    have hdY : |stop.Y - start.Y| ≤ 2 * M := by
      have := abs_sub stop.Y start.Y
      linarith only [this, hEY, hSY]
    have h1 : (stop.X - start.X) ^ 2 ≤ (2 * M) ^ 2 := by
      rw [← sq_abs (stop.X - start.X)]
      exact pow_le_pow_left₀ (abs_nonneg _) hdX 2
    have h2 : (stop.Y - start.Y) ^ 2 ≤ (2 * M) ^ 2 := by
      rw [← sq_abs (stop.Y - start.Y)]
      exact pow_le_pow_left₀ (abs_nonneg _) hdY 2
    have e4 : (2 * M) ^ 2 = 4 * M ^ 2 := by ring
    rw [e4] at h1 h2
    unfold distSq
    linarith only [h1, h2]
  rw [abs_le] at hs hD
  have hs1 : Float64.sumSquares start stop ≤ (1 + 1 / 2 ^ 49) * distSq stop start := by
    have a1 : M ^ 2 / 2 ^ 98 ≤ 2 ^ 40 * distSq stop start / 2 ^ 98 :=
      div_le_div_of_nonneg_right hMM (by positivity)
    have e : (1 + 1 / 2 ^ 49) * distSq stop start
        = distSq stop start + distSq stop start / 2 ^ 50
          + 2 ^ 40 * distSq stop start / 2 ^ 98
          + distSq stop start * (1 / 2 ^ 50 - 1 / 2 ^ 58) := by ring
    have a2 : 0 ≤ distSq stop start * (1 / 2 ^ 50 - 1 / 2 ^ 58) :=
      mul_nonneg hL0 (by norm_num)
    rw [e]; linarith only [a1, a2, hs.2]
  have hs2 : (1 - 1 / 2 ^ 49) * distSq stop start ≤ Float64.sumSquares start stop := by
    have a1 : M ^ 2 / 2 ^ 98 ≤ 2 ^ 40 * distSq stop start / 2 ^ 98 :=
      div_le_div_of_nonneg_right hMM (by positivity)
    have e : (1 - 1 / 2 ^ 49) * distSq stop start
        = distSq stop start - distSq stop start / 2 ^ 50
          - 2 ^ 40 * distSq stop start / 2 ^ 98
          - distSq stop start * (1 / 2 ^ 50 - 1 / 2 ^ 58) := by ring
    have a2 : 0 ≤ distSq stop start * (1 / 2 ^ 50 - 1 / 2 ^ 58) :=
      mul_nonneg hL0 (by norm_num)
    rw [e]; linarith only [a1, a2, hs.1]
  have hs3 : Float64.sumSquares start stop / 2 ^ 50
      ≤ (1 + 1 / 2 ^ 49) * distSq stop start / 2 ^ 50 :=
    div_le_div_of_nonneg_right hs1 (by positivity)
  have hlow : (1 - 1 / 2 ^ 48) * distSq stop start ≤ Float64.chordDistance m start stop ^ 2 := by
    have e : (1 - 1 / 2 ^ 48) * distSq stop start
        = (1 - 1 / 2 ^ 49) * distSq stop start - (1 + 1 / 2 ^ 49) * distSq stop start / 2 ^ 50
          - distSq stop start * (1 / 2 ^ 50 - 1 / 2 ^ 99) := by ring
    have : 0 ≤ distSq stop start * (1 / 2 ^ 50 - 1 / 2 ^ 99) :=
      mul_nonneg hL0 (by norm_num)
    rw [e]; linarith only [this, hs2, hs3, hD.1]
  have hup : Float64.chordDistance m start stop ^ 2 ≤ (1 + 1 / 2 ^ 48) * distSq stop start := by
    have e : (1 + 1 / 2 ^ 48) * distSq stop start
        = (1 + 1 / 2 ^ 49) * distSq stop start + (1 + 1 / 2 ^ 49) * distSq stop start / 2 ^ 50
          + distSq stop start * (1 / 2 ^ 50 - 1 / 2 ^ 99) := by ring
    have : 0 ≤ distSq stop start * (1 / 2 ^ 50 - 1 / 2 ^ 99) :=
      mul_nonneg hL0 (by norm_num)
    rw [e]; linarith only [this, hs1, hs3, hD.2]
  refine ⟨hlow, hup, ?_, ?_⟩
  · have h1 : M ^ 2 ≤ (2 ^ 21 * Float64.chordDistance m start stop) ^ 2 := by
      have e : (2 ^ 21 * Float64.chordDistance m start stop) ^ 2
          = 2 ^ 42 * Float64.chordDistance m start stop ^ 2 := by ring
      rw [e]
      have a1 : (2 : ℚ) ^ 40 * distSq stop start
          ≤ 2 ^ 42 * ((1 - 1 / 2 ^ 48) * distSq stop start) := by
        have e2 : (2 : ℚ) ^ 42 * ((1 - 1 / 2 ^ 48) * distSq stop start)
            = 2 ^ 40 * distSq stop start + distSq stop start * (3 * 2 ^ 40 - 1 / 2 ^ 6) := by
          ring
        have : 0 ≤ distSq stop start * (3 * 2 ^ 40 - 1 / 2 ^ 6) :=
          mul_nonneg hL0 (by norm_num)
        rw [e2]; linarith only [this]
      have a2 : (2 : ℚ) ^ 42 * ((1 - 1 / 2 ^ 48) * distSq stop start)
          ≤ 2 ^ 42 * Float64.chordDistance m start stop ^ 2 :=
        mul_le_mul_of_nonneg_left hlow (by positivity)
      exact le_trans hMM (le_trans a1 a2)
    have := abs_le_of_sq_le_sq' h1 (mul_nonneg (by positivity) hD0)
    exact this.2
  · have h1 : Float64.chordDistance m start stop ^ 2 ≤ (3 * M) ^ 2 := by
      have e : (3 * M) ^ 2 = 9 * M ^ 2 := by ring
      rw [e]
      have a1 : (1 + 1 / 2 ^ 48) * distSq stop start ≤ (1 + 1 / 2 ^ 48) * (8 * M ^ 2) :=
        mul_le_mul_of_nonneg_left hL8 (by norm_num)
      have a2 : (1 + 1 / 2 ^ 48 : ℚ) * (8 * M ^ 2) ≤ 9 * M ^ 2 := by
        have : (1 + 1 / 2 ^ 48 : ℚ) * (8 * M ^ 2) = M ^ 2 * (8 + 8 / 2 ^ 48) := by ring
        rw [this]
        have : M ^ 2 * (8 + 8 / 2 ^ 48) ≤ M ^ 2 * 9 :=
          mul_le_mul_of_nonneg_left (by norm_num) (sq_nonneg M)
        linarith only [this]
      exact le_trans hup (le_trans a1 a2)
    have := abs_le_of_sq_le_sq' h1 (mul_nonneg (by norm_num) hM0)
    exact this.2

theorem offsetFactor_bounds (f : ℚ) (h0 : 0 ≤ f) (h1 : f < 1) :
    2 / 10 * (1 - 1 / 2 ^ 51) ≤ Float64.offsetFactor f ∧
    Float64.offsetFactor f ≤ 5 / 10 * (1 + 1 / 2 ^ 51) := by
  obtain ⟨ha1, ha2⟩ := round64_pos_bounds (2 / 10) (by norm_num)
  obtain ⟨hb1, hb2⟩ := round64_pos_bounds (3 / 10) (by norm_num)
  have hb0 : 0 ≤ round64 (3 / 10) := round64_nonneg _ (by norm_num)
  have hfb0 : 0 ≤ f * round64 (3 / 10) := mul_nonneg h0 hb0
  have hfb1 : f * round64 (3 / 10) ≤ 3 / 10 * (1 + 1 / 2 ^ 53) := by
    have a1 : f * round64 (3 / 10) ≤ 1 * round64 (3 / 10) :=
      mul_le_mul_of_nonneg_right h1.le hb0
    linarith only [a1, hb2]
  have hp0 : 0 ≤ round64 (f * round64 (3 / 10)) := round64_nonneg _ hfb0
  have hp := round64_abs (f * round64 (3 / 10))
  rw [abs_of_nonneg hfb0, abs_le] at hp
  have hp1 : round64 (f * round64 (3 / 10))
      ≤ 3 / 10 * (1 + 1 / 2 ^ 53) * (1 + 1 / 2 ^ 53) + 1 / 2 ^ 1075 := by
    have : f * round64 (3 / 10) / 2 ^ 53 ≤ 3 / 10 * (1 + 1 / 2 ^ 53) / 2 ^ 53 :=
      div_le_div_of_nonneg_right hfb1 (by positivity)
    linarith only [this, hp.2, hfb1]
  have hs0 : 1 / 2 ^ 1022 ≤ round64 (2 / 10) + round64 (f * round64 (3 / 10)) := by
    have : (1 : ℚ) / 2 ^ 1022 ≤ 2 / 10 * (1 - 1 / 2 ^ 53) := by norm_num
    linarith only [this, ha1, hp0]
  obtain ⟨hg1, hg2⟩ := round64_pos_bounds _ hs0
  unfold Float64.offsetFactor
  constructor
  · have : (2 / 10 : ℚ) * (1 - 1 / 2 ^ 51)
        ≤ 2 / 10 * (1 - 1 / 2 ^ 53) * (1 - 1 / 2 ^ 53) := by norm_num
    have h2 : 2 / 10 * (1 - 1 / 2 ^ 53) * (1 - 1 / 2 ^ 53)
        ≤ (round64 (2 / 10) + round64 (f * round64 (3 / 10))) * (1 - 1 / 2 ^ 53) :=
      mul_le_mul_of_nonneg_right (by linarith only [ha1, hp0]) (by norm_num)
    linarith only [this, h2, hg1]
  · have : (2 / 10 * (1 + 1 / 2 ^ 53)
          + (3 / 10 * (1 + 1 / 2 ^ 53) * (1 + 1 / 2 ^ 53) + 1 / 2 ^ 1075)) * (1 + 1 / 2 ^ 53)
        ≤ (5 / 10 : ℚ) * (1 + 1 / 2 ^ 51) := by norm_num
    have h2 : (round64 (2 / 10) + round64 (f * round64 (3 / 10))) * (1 + 1 / 2 ^ 53)
        ≤ (2 / 10 * (1 + 1 / 2 ^ 53)
          + (3 / 10 * (1 + 1 / 2 ^ 53) * (1 + 1 / 2 ^ 53) + 1 / 2 ^ 1075)) * (1 + 1 / 2 ^ 53) :=
      mul_le_mul_of_nonneg_right (by linarith only [ha2, hp1]) (by norm_num)
    linarith only [this, h2, hg2]

/-- The value of `offsetMagnitude` against the value `D` of `distance`. -/
theorem offsetMagnitude_bounds (D g : ℚ) (hD : 1 / 2 ^ 21 ≤ D)
    (hg0 : 2 / 10 * (1 - 1 / 2 ^ 51) ≤ g) (hg1 : g ≤ 5 / 10 * (1 + 1 / 2 ^ 51)) :
    2 / 10 * (1 - 1 / 2 ^ 49) * D ≤ round64 (D * g) ∧
    round64 (D * g) ≤ 5 / 10 * (1 + 1 / 2 ^ 49) * D := by
  have hD0 : 0 < D := lt_of_lt_of_le (by norm_num) hD
  have hgpos : 0 < g := lt_of_lt_of_le (by norm_num) hg0
  have hy0 : 0 ≤ D * g := (mul_pos hD0 hgpos).le
  have h := round64_abs (D * g)
  rw [abs_of_nonneg hy0, abs_le] at h
  have h1 : D * g ≤ D * (5 / 10 * (1 + 1 / 2 ^ 51)) := mul_le_mul_of_nonneg_left hg1 hD0.le
  have h2 : D * (2 / 10 * (1 - 1 / 2 ^ 51)) ≤ D * g := mul_le_mul_of_nonneg_left hg0 hD0.le
  have h3 : D * g / 2 ^ 53 ≤ D * (5 / 10 * (1 + 1 / 2 ^ 51)) / 2 ^ 53 :=
    div_le_div_of_nonneg_right h1 (by positivity)
  have h4 : (1 : ℚ) / 2 ^ 1075 ≤ D * (1 / 2 ^ 1054) := by
    have : (1 : ℚ) / 2 ^ 1075 = 1 / 2 ^ 21 * (1 / 2 ^ 1054) := by norm_num
    rw [this]
    exact mul_le_mul_of_nonneg_right hD (by positivity)
  constructor
  · have e : 2 / 10 * (1 - 1 / 2 ^ 49) * D
        = D * (2 / 10 * (1 - 1 / 2 ^ 51)) - D * (5 / 10 * (1 + 1 / 2 ^ 51)) / 2 ^ 53
          - D * (1 / 2 ^ 1054)
          - D * (2 / 10 * (1 / 2 ^ 49 - 1 / 2 ^ 51) - 5 / 10 * (1 + 1 / 2 ^ 51) / 2 ^ 53
              - 1 / 2 ^ 1054) := by ring
    have : 0 ≤ D * (2 / 10 * (1 / 2 ^ 49 - 1 / 2 ^ 51) - 5 / 10 * (1 + 1 / 2 ^ 51) / 2 ^ 53
              - 1 / 2 ^ 1054) := mul_nonneg hD0.le (by norm_num)
    rw [e]; linarith only [this, h.1, h2, h3, h4]
  · have e : 5 / 10 * (1 + 1 / 2 ^ 49) * D
        = D * (5 / 10 * (1 + 1 / 2 ^ 51)) + D * (5 / 10 * (1 + 1 / 2 ^ 51)) / 2 ^ 53
          + D * (1 / 2 ^ 1054)
          + D * (5 / 10 * (1 / 2 ^ 49 - 1 / 2 ^ 51) - 5 / 10 * (1 + 1 / 2 ^ 51) / 2 ^ 53
              - 1 / 2 ^ 1054) := by ring
    have : 0 ≤ D * (5 / 10 * (1 / 2 ^ 49 - 1 / 2 ^ 51) - 5 / 10 * (1 + 1 / 2 ^ 51) / 2 ^ 53
              - 1 / 2 ^ 1054) := mul_nonneg hD0.le (by norm_num)
    rw [e]; linarith only [this, h.2, h1, h3, h4]

theorem abs_le_two_of_sq (c sn : ℚ) (hcs : |c ^ 2 + sn ^ 2 - 1| ≤ 1 / 2 ^ 50) :
    |c| ≤ 2 ∧ |sn| ≤ 2 := by
  rw [abs_le] at hcs
  have hc0 := sq_nonneg c
  have hs0 := sq_nonneg sn
  have h1 : c ^ 2 ≤ 2 ^ 2 := by
    have : (1 : ℚ) + 1 / 2 ^ 50 ≤ 2 ^ 2 := by norm_num
    linarith only [hcs.2, hs0, this]
  have h2 : sn ^ 2 ≤ 2 ^ 2 := by
    have : (1 : ℚ) + 1 / 2 ^ 50 ≤ 2 ^ 2 := by norm_num
    linarith only [hcs.2, hc0, this]
  exact ⟨abs_le.mpr (abs_le_of_sq_le_sq' h1 (by norm_num)),
    abs_le.mpr (abs_le_of_sq_le_sq' h2 (by norm_num))⟩

theorem sq_add_sq_le_of_abs (a b E : ℚ) (ha : |a| ≤ E) (hb : |b| ≤ E) :
    a ^ 2 + b ^ 2 ≤ (2 * E) ^ 2 := by
  have h1 : a ^ 2 ≤ E ^ 2 := by
    rw [← sq_abs a]
    exact pow_le_pow_left₀ (abs_nonneg _) ha 2
  have h2 : b ^ 2 ≤ E ^ 2 := by
    rw [← sq_abs b]
    exact pow_le_pow_left₀ (abs_nonneg _) hb 2
  have e : (2 * E) ^ 2 = 4 * E ^ 2 := by ring
  have h0 := sq_nonneg E
  rw [e]
  linarith only [h1, h2, h0]

/-- The distance of a control point of `NewBezierCurve`, computed in float64 from the
cosine `c`, the sine `sn` and the magnitude `mag`, to the exact chord point of
parameter `q`, in terms of the value `D` of `distance`. -/
theorem control_point_bounds (start stop : Point) (c sn mag D q M : ℚ) (hM : 1 ≤ M)
    (hSX : |start.X| ≤ M) (hSY : |start.Y| ≤ M) (hEX : |stop.X| ≤ M) (hEY : |stop.Y| ≤ M)
    (hq0 : 0 ≤ q) (hq1 : q ≤ 1)
    (hcs : |c ^ 2 + sn ^ 2 - 1| ≤ 1 / 2 ^ 50)
    (hMD : M ≤ 2 ^ 21 * D) (hD3 : D ≤ 3 * M)
    (hmag0 : 2 / 10 * (1 - 1 / 2 ^ 49) * D ≤ mag)
    (hmag1 : mag ≤ 5 / 10 * (1 + 1 / 2 ^ 49) * D) :
    (2 / 10 * (1 - 1 / 2 ^ 22) * D) ^ 2
      ≤ distSq
          { X := round64 (round64 (start.X + round64 (round64 (stop.X - start.X) * q))
              + round64 (c * mag))
            Y := round64 (round64 (start.Y + round64 (round64 (stop.Y - start.Y) * q))
              + round64 (sn * mag)) }
          (chordPoint start stop q) ∧
    distSq
        { X := round64 (round64 (start.X + round64 (round64 (stop.X - start.X) * q))
            + round64 (c * mag))
          Y := round64 (round64 (start.Y + round64 (round64 (stop.Y - start.Y) * q))
            + round64 (sn * mag)) }
        (chordPoint start stop q)
      ≤ (5 / 10 * (1 + 1 / 2 ^ 22) * D) ^ 2 := by
  have hM0 : 0 < M := lt_of_lt_of_le zero_lt_one hM
  have hD0 : 0 < D := by linarith only [hM0, hMD]
  have hmagpos : 0 ≤ mag := by
    have : 0 ≤ 2 / 10 * (1 - 1 / 2 ^ 49) * D := mul_nonneg (by norm_num) hD0.le
    linarith only [this, hmag0]
  have hmag3 : mag ≤ 3 * M := by
    have : 5 / 10 * (1 + 1 / 2 ^ 49) * D ≤ 1 * D :=
      mul_le_mul_of_nonneg_right (by norm_num) hD0.le
    linarith only [this, hmag1, hD3]
  obtain ⟨hc2, hs2⟩ := abs_le_two_of_sq c sn hcs
  obtain ⟨hex, -⟩ := control_coordinate_err start.X stop.X c mag q M hM hSX hEX hc2 hmagpos
    hmag3 hq0 hq1
  obtain ⟨hey, -⟩ := control_coordinate_err start.Y stop.Y sn mag q M hM hSY hEY hs2 hmagpos
    hmag3 hq0 hq1
  generalize hX1 : round64 (round64 (start.X + round64 (round64 (stop.X - start.X) * q))
      + round64 (c * mag)) = X1 at hex ⊢
  generalize hY1 : round64 (round64 (start.Y + round64 (round64 (stop.Y - start.Y) * q))
      + round64 (sn * mag)) = Y1 at hey ⊢
  have hdist : distSq { X := X1, Y := Y1 } (chordPoint start stop q)
      = (c * mag + (X1 - (start.X + q * (stop.X - start.X) + c * mag))) ^ 2
        + (sn * mag + (Y1 - (start.Y + q * (stop.Y - start.Y) + sn * mag))) ^ 2 := by
    simp only [distSq, chordPoint]
    ring
  rw [hdist]
  generalize X1 - (start.X + q * (stop.X - start.X) + c * mag) = ex at hex ⊢
  generalize Y1 - (start.Y + q * (stop.Y - start.Y) + sn * mag) = ey at hey ⊢
  rw [abs_le] at hcs
  have hq : ex ^ 2 + ey ^ 2 ≤ (M / 2 ^ 46) ^ 2 := by
    have := sq_add_sq_le_of_abs ex ey (M / 2 ^ 47) hex hey
    have e : (2 * (M / 2 ^ 47)) = M / 2 ^ 46 := by ring
    rw [e] at this
    exact this
  have hQ0 : 0 < M / 2 ^ 46 := by positivity
  have hQD : M / 2 ^ 46 ≤ D / 2 ^ 25 := by
    rw [div_le_div_iff₀ (by positivity) (by positivity)]
    have : M * 2 ^ 25 ≤ 2 ^ 21 * D * 2 ^ 25 := mul_le_mul_of_nonneg_right hMD (by positivity)
    have e : D * 2 ^ 46 = 2 ^ 21 * D * 2 ^ 25 := by ring
    rw [e]; exact this
  have hmm : 0 ≤ mag ^ 2 := sq_nonneg mag
  constructor
  · -- lower bound
    have hp : (mag * (1 - 1 / 2 ^ 50)) ^ 2 ≤ (c * mag) ^ 2 + (sn * mag) ^ 2 := by
      have e1 : (c * mag) ^ 2 + (sn * mag) ^ 2 = mag ^ 2 * (c ^ 2 + sn ^ 2) := by ring
      have e2 : (mag * (1 - 1 / 2 ^ 50)) ^ 2 = mag ^ 2 * ((1 - 1 / 2 ^ 50) ^ 2) := by ring
      rw [e1, e2]
      apply mul_le_mul_of_nonneg_left _ hmm
      have : ((1 : ℚ) - 1 / 2 ^ 50) ^ 2 ≤ 1 - 1 / 2 ^ 50 := by norm_num
      linarith only [this, hcs.1]
    have hPlow : 2 / 10 * (1 - 1 / 2 ^ 49) * (1 - 1 / 2 ^ 50) * D ≤ mag * (1 - 1 / 2 ^ 50) := by
      have := mul_le_mul_of_nonneg_right hmag0 (show (0 : ℚ) ≤ 1 - 1 / 2 ^ 50 by norm_num)
      linarith only [this]
    have hPQ : M / 2 ^ 46 ≤ mag * (1 - 1 / 2 ^ 50) := by
      have : D / 2 ^ 25 ≤ 2 / 10 * (1 - 1 / 2 ^ 49) * (1 - 1 / 2 ^ 50) * D := by
        have e : D / 2 ^ 25 = 1 / 2 ^ 25 * D := by ring
        rw [e]
        exact mul_le_mul_of_nonneg_right (by norm_num) hD0.le
      linarith only [this, hQD, hPlow]
    have h := norm_sub_le (c * mag) (sn * mag) ex ey (mag * (1 - 1 / 2 ^ 50)) (M / 2 ^ 46)
      hp hq hQ0 hPQ
    have hbase : 2 / 10 * (1 - 1 / 2 ^ 22) * D ≤ mag * (1 - 1 / 2 ^ 50) - M / 2 ^ 46 := by
      have e : 2 / 10 * (1 - 1 / 2 ^ 22) * D
          = 2 / 10 * (1 - 1 / 2 ^ 49) * (1 - 1 / 2 ^ 50) * D - D / 2 ^ 25
            - D * (2 / 10 * (1 / 2 ^ 22) - 2 / 10 * (1 / 2 ^ 49 + 1 / 2 ^ 50 - 1 / 2 ^ 99)
                - 1 / 2 ^ 25) := by ring
      have : 0 ≤ D * (2 / 10 * (1 / 2 ^ 22) - 2 / 10 * (1 / 2 ^ 49 + 1 / 2 ^ 50 - 1 / 2 ^ 99)
                - 1 / 2 ^ 25) := mul_nonneg hD0.le (by norm_num)
      rw [e]; linarith only [this, hPlow, hQD]
    have h0 : 0 ≤ 2 / 10 * (1 - 1 / 2 ^ 22) * D := mul_nonneg (by norm_num) hD0.le
    exact le_trans (pow_le_pow_left₀ h0 hbase 2) h
  · -- upper bound
    have hp : (c * mag) ^ 2 + (sn * mag) ^ 2 ≤ (mag * (1 + 1 / 2 ^ 50)) ^ 2 := by
      have e1 : (c * mag) ^ 2 + (sn * mag) ^ 2 = mag ^ 2 * (c ^ 2 + sn ^ 2) := by ring
      have e2 : (mag * (1 + 1 / 2 ^ 50)) ^ 2 = mag ^ 2 * ((1 + 1 / 2 ^ 50) ^ 2) := by ring
      rw [e1, e2]
      apply mul_le_mul_of_nonneg_left _ hmm
      have : (1 : ℚ) + 1 / 2 ^ 50 ≤ (1 + 1 / 2 ^ 50) ^ 2 := by norm_num
      linarith only [this, hcs.2]
    have hP0 : 0 ≤ mag * (1 + 1 / 2 ^ 50) := mul_nonneg hmagpos (by norm_num)
    have h := norm_add_le (c * mag) (sn * mag) ex ey (mag * (1 + 1 / 2 ^ 50)) (M / 2 ^ 46)
      hp hq hP0 hQ0.le
    have hPup : mag * (1 + 1 / 2 ^ 50) ≤ 5 / 10 * (1 + 1 / 2 ^ 49) * (1 + 1 / 2 ^ 50) * D := by
      have := mul_le_mul_of_nonneg_right hmag1 (show (0 : ℚ) ≤ 1 + 1 / 2 ^ 50 by norm_num)
      linarith only [this]
    have hbase : mag * (1 + 1 / 2 ^ 50) + M / 2 ^ 46 ≤ 5 / 10 * (1 + 1 / 2 ^ 22) * D := by
      have e : 5 / 10 * (1 + 1 / 2 ^ 22) * D
          = 5 / 10 * (1 + 1 / 2 ^ 49) * (1 + 1 / 2 ^ 50) * D + D / 2 ^ 25
            + D * (5 / 10 * (1 / 2 ^ 22) - 5 / 10 * (1 / 2 ^ 49 + 1 / 2 ^ 50 + 1 / 2 ^ 99)
                - 1 / 2 ^ 25) := by ring
      have : 0 ≤ D * (5 / 10 * (1 / 2 ^ 22) - 5 / 10 * (1 / 2 ^ 49 + 1 / 2 ^ 50 + 1 / 2 ^ 99)
                - 1 / 2 ^ 25) := mul_nonneg hD0.le (by norm_num)
      rw [e]; linarith only [this, hPup, hQD]
    have h0 : 0 ≤ mag * (1 + 1 / 2 ^ 50) + M / 2 ^ 46 := add_nonneg hP0 hQ0.le
    exact le_trans h (pow_le_pow_left₀ h0 hbase 2)

theorem Float64.NewBezierCurve_eq (m : MathLib) (rng : RandSource) (k : Nat)
    (start stop : Point) :
    (Float64.NewBezierCurve m rng k start stop).1 =
      { Start := start
        End := stop
        Control1 :=
          { X := round64 (round64 (start.X + round64 (round64 (stop.X - start.X) * (25 / 100)))
              + round64 (m.Cos (Float64.angleOf m (rng.float64 (k + 1)))
                  * Float64.offsetMagnitudeOf m rng k start stop))
            Y := round64 (round64 (start.Y + round64 (round64 (stop.Y - start.Y) * (25 / 100)))
              + round64 (m.Sin (Float64.angleOf m (rng.float64 (k + 1)))
                  * Float64.offsetMagnitudeOf m rng k start stop)) }
        Control2 :=
          { X := round64 (round64 (start.X + round64 (round64 (stop.X - start.X) * (75 / 100)))
              + round64 (m.Cos (Float64.angleOf m (rng.float64 (k + 2)))
                  * Float64.offsetMagnitudeOf m rng k start stop))
            Y := round64 (round64 (start.Y + round64 (round64 (stop.Y - start.Y) * (75 / 100)))
              + round64 (m.Sin (Float64.angleOf m (rng.float64 (k + 2)))
                  * Float64.offsetMagnitudeOf m rng k start stop)) } } := by
  rfl

/-- A natural number below `2^53` is a float64 value. -/
theorem round64_natCast (n : Nat) (h : n < 2 ^ 53) : round64 (n : ℚ) = n := by
  rcases Nat.eq_zero_or_pos n with h0 | hpos
  · subst h0
    simpa using round64_zero
  · have hlog : Nat.log 2 n < 53 := by
      have := Nat.log_lt_of_lt_pow (b := 2) (by omega) h
      exact this
    have hle : 2 ^ Nat.log 2 n ≤ n := Nat.pow_log_le_self 2 (by omega)
    have hlt : n < 2 ^ (Nat.log 2 n + 1) := Nat.lt_pow_succ_log_self (by norm_num) n
    have habs : |(n : ℚ)| = n := abs_of_nonneg (by positivity)
    have h1 : (2 : ℚ) ^ ((Nat.log 2 n : Nat) : Int) ≤ |(n : ℚ)| := by
      rw [habs, zpow_natCast]
      exact_mod_cast hle
    have h2 : |(n : ℚ)| < (2 : ℚ) ^ (((Nat.log 2 n : Nat) : Int) + 1) := by
      rw [habs]
      have e : (((Nat.log 2 n : Nat) : Int) + 1) = ((Nat.log 2 n + 1 : Nat) : Int) := by
        push_cast; ring
      rw [e, zpow_natCast]
      exact_mod_cast hlt
    have hq : (2 : ℚ) ^ (((Nat.log 2 n : Nat) : Int) - 52)
        = 1 / 2 ^ (52 - Nat.log 2 n) := by
      have e : (((Nat.log 2 n : Nat) : Int) - 52) = -((52 - Nat.log 2 n : Nat) : Int) := by
        omega
      rw [e, zpow_neg, zpow_natCast]
      simp
    rw [round64_eq (n : ℚ) (Nat.log 2 n : Nat) ((n * 2 ^ (52 - Nat.log 2 n) : Nat) : Int)
      (by omega) h1 h2 (by
        rw [hq]
        have : (n : ℚ) / (1 / 2 ^ (52 - Nat.log 2 n))
            - (((n * 2 ^ (52 - Nat.log 2 n) : Nat) : Int) : ℚ) = 0 := by
          push_cast
          field_simp
        rw [this]
        norm_num)]
    rw [hq]
    push_cast
    field_simp

theorem round64_half : round64 (1 / 2) = 1 / 2 := by
  rw [round64_eq (1 / 2) (-1) 4503599627370496 (by norm_num) (by norm_num [abs_of_pos])
    (by norm_num [abs_of_pos]) (by norm_num [abs_lt])]
  norm_num

/-- The parameter of the middle sample of `GeneratePath(2j+1)` is exactly 1/2. -/
theorem Float64.GeneratePath_middle (m : MathLib) (bc : BezierCurve) (j : Nat) (hj : 1 ≤ j)
    (hj2 : j < 2 ^ 52) :
    ∃ path, Float64.GeneratePath m bc (2 * (j : Int) + 1) = some path ∧
      path[j]? = some (Float64.CalculatePoint m bc (1 / 2)) := by
  have hn : ¬ (2 * (j : Int) + 1 < 0) := by omega
  refine ⟨_, by unfold Float64.GeneratePath; rw [if_neg hn], ?_⟩
  have hlen : j < (2 * (j : Int) + 1).toNat := by omega
  have hj0 : (j : ℚ) ≠ 0 := by
    have : (0 : ℚ) < j := by exact_mod_cast hj
    exact ne_of_gt this
  rw [List.getElem?_map, List.getElem?_range hlen]
  simp only [Option.map_some']
  have e1 : (((j : Nat) : Int) : ℚ) = ((j : Nat) : ℚ) := by push_cast; rfl
  have e2 : ((2 * (j : Int) + 1 - 1 : Int) : ℚ) = ((2 * j : Nat) : ℚ) := by push_cast; ring
  rw [e1, e2, round64_natCast j (by omega), round64_natCast (2 * j) (by omega)]
  have e3 : ((j : Nat) : ℚ) / ((2 * j : Nat) : ℚ) = 1 / 2 := by
    push_cast
    field_simp
    ring
  rw [e3, round64_half]

theorem round64_three_quarters : round64 (3 / 4) = 3 / 4 := by
  rw [round64_eq (3 / 4) (-1) 6755399441055744 (by norm_num) (by norm_num [abs_of_pos])
    (by norm_num [abs_of_pos]) (by norm_num [abs_lt])]
  norm_num

theorem round64_three_eighths : round64 (3 / 8) = 3 / 8 := by
  rw [round64_eq (3 / 8) (-2) 6755399441055744 (by norm_num) (by norm_num [abs_of_pos])
    (by norm_num [abs_of_pos]) (by norm_num [abs_lt])]
  norm_num

theorem round64_three_halves : round64 (3 / 2) = 3 / 2 := by
  rw [round64_eq (3 / 2) 0 6755399441055744 (by norm_num) (by norm_num [abs_of_pos])
    (by norm_num [abs_of_pos]) (by norm_num [abs_lt])]
  norm_num

/-- One coordinate of `CalculatePoint(0.5)`, when `math.Pow` is exact at `(0.5, 2)` and
`(0.5, 3)`: the coefficients 1/8, 3/8, 3/8, 1/8 are computed without rounding error. -/
theorem Float64.bezierCoordinate_half (m : MathLib) (hp2 : m.Pow (1 / 2) 2 = 1 / 4)
    (hp3 : m.Pow (1 / 2) 3 = 1 / 8) (s c1 c2 e : ℚ) :
    Float64.bezierCoordinate m (1 / 2) s c1 c2 e
      = round64 (round64 (round64 (round64 (1 / 8 * s) + round64 (3 / 8 * c1))
          + round64 (3 / 8 * c2)) + round64 (1 / 8 * e)) := by
  have e1 : (1 : ℚ) - 1 / 2 = 1 / 2 := by norm_num
  have e2 : (3 : ℚ) * (1 / 4) = 3 / 4 := by norm_num
  have e3 : (3 / 4 : ℚ) * (1 / 2) = 3 / 8 := by norm_num
  have e4 : (3 : ℚ) * (1 / 2) = 3 / 2 := by norm_num
  have e5 : (3 / 2 : ℚ) * (1 / 4) = 3 / 8 := by norm_num
  simp only [Float64.bezierCoordinate, e1, round64_half, hp2, hp3, e2, round64_three_quarters,
    e3, round64_three_eighths, e4, round64_three_halves, e5]

/-- The error of one coordinate of `CalculatePoint(0.5)` against the exact expression. -/
theorem bezier_half_err (s c1 c2 e M : ℚ) (hM : 1 ≤ M) (hs : |s| ≤ M) (he : |e| ≤ M)
    (hc1 : |c1| ≤ 14 * M) (hc2 : |c2| ≤ 14 * M) :
    |round64 (round64 (round64 (round64 (1 / 8 * s) + round64 (3 / 8 * c1))
          + round64 (3 / 8 * c2)) + round64 (1 / 8 * e))
      - (1 / 8 * s + 3 / 8 * c1 + 3 / 8 * c2 + 1 / 8 * e)| ≤ M / 2 ^ 46 := by
  have hM0 : 0 ≤ M := le_trans zero_le_one hM
  have up : ∀ (a b : ℚ), a + (a + 1) / 2 ^ 53 ≤ b → (a + (a + 1) / 2 ^ 53) * M ≤ b * M :=
    fun a b h => mul_le_mul_of_nonneg_right h hM0
  have hy1 : |1 / 8 * s| ≤ 1 * M := by
    rw [abs_mul, abs_of_pos (by norm_num : (0 : ℚ) < 1 / 8)]
    linarith only [abs_nonneg s, hs]
  obtain ⟨e1, b1⟩ := round64_scale (1 / 8 * s) 1 M hM hy1
  have b1' : |round64 (1 / 8 * s)| ≤ 2 * M := le_trans b1 (up 1 2 (by norm_num))
  have hy2 : |3 / 8 * c1| ≤ 6 * M := by
    rw [abs_mul, abs_of_pos (by norm_num : (0 : ℚ) < 3 / 8)]
    linarith only [abs_nonneg c1, hc1]
  obtain ⟨e2, b2⟩ := round64_scale (3 / 8 * c1) 6 M hM hy2
  have b2' : |round64 (3 / 8 * c1)| ≤ 7 * M := le_trans b2 (up 6 7 (by norm_num))
  have hy3 : |round64 (1 / 8 * s) + round64 (3 / 8 * c1)| ≤ 9 * M := by
    have := abs_add (round64 (1 / 8 * s)) (round64 (3 / 8 * c1))
    linarith only [this, b1', b2']
  obtain ⟨e3, b3⟩ := round64_scale (round64 (1 / 8 * s) + round64 (3 / 8 * c1)) 9 M hM hy3
  have b3' : |round64 (round64 (1 / 8 * s) + round64 (3 / 8 * c1))| ≤ 10 * M :=
    le_trans b3 (up 9 10 (by norm_num))
  have hy4 : |3 / 8 * c2| ≤ 6 * M := by
    rw [abs_mul, abs_of_pos (by norm_num : (0 : ℚ) < 3 / 8)]
    linarith only [abs_nonneg c2, hc2]
  obtain ⟨e4, b4⟩ := round64_scale (3 / 8 * c2) 6 M hM hy4
  have b4' : |round64 (3 / 8 * c2)| ≤ 7 * M := le_trans b4 (up 6 7 (by norm_num))
  have hy5 : |round64 (round64 (1 / 8 * s) + round64 (3 / 8 * c1)) + round64 (3 / 8 * c2)|
      ≤ 17 * M := by
    have := abs_add (round64 (round64 (1 / 8 * s) + round64 (3 / 8 * c1)))
      (round64 (3 / 8 * c2))
    linarith only [this, b3', b4']
  obtain ⟨e5, b5⟩ := round64_scale
    (round64 (round64 (1 / 8 * s) + round64 (3 / 8 * c1)) + round64 (3 / 8 * c2)) 17 M hM hy5
  have b5' : |round64 (round64 (round64 (1 / 8 * s) + round64 (3 / 8 * c1))
      + round64 (3 / 8 * c2))| ≤ 18 * M := le_trans b5 (up 17 18 (by norm_num))
  have hy6 : |1 / 8 * e| ≤ 1 * M := by
    rw [abs_mul, abs_of_pos (by norm_num : (0 : ℚ) < 1 / 8)]
    linarith only [abs_nonneg e, he]
  obtain ⟨e6, b6⟩ := round64_scale (1 / 8 * e) 1 M hM hy6
  have b6' : |round64 (1 / 8 * e)| ≤ 2 * M := le_trans b6 (up 1 2 (by norm_num))
  have hy7 : |round64 (round64 (round64 (1 / 8 * s) + round64 (3 / 8 * c1))
      + round64 (3 / 8 * c2)) + round64 (1 / 8 * e)| ≤ 20 * M := by
    have := abs_add (round64 (round64 (round64 (1 / 8 * s) + round64 (3 / 8 * c1))
      + round64 (3 / 8 * c2))) (round64 (1 / 8 * e))
    linarith only [this, b5', b6']
  obtain ⟨e7, -⟩ := round64_scale
    (round64 (round64 (round64 (1 / 8 * s) + round64 (3 / 8 * c1))
      + round64 (3 / 8 * c2)) + round64 (1 / 8 * e)) 20 M hM hy7
  rw [abs_le] at e1 e2 e3 e4 e5 e6 e7 ⊢
  have fin : (20 + 1) * M / 2 ^ 53 + (1 + 1) * M / 2 ^ 53 + (17 + 1) * M / 2 ^ 53
      + (6 + 1) * M / 2 ^ 53 + (9 + 1) * M / 2 ^ 53 + (6 + 1) * M / 2 ^ 53
      + (1 + 1) * M / 2 ^ 53 ≤ M / 2 ^ 46 := by
    have e : (20 + 1) * M / 2 ^ 53 + (1 + 1) * M / 2 ^ 53 + (17 + 1) * M / 2 ^ 53
      + (6 + 1) * M / 2 ^ 53 + (9 + 1) * M / 2 ^ 53 + (6 + 1) * M / 2 ^ 53
      + (1 + 1) * M / 2 ^ 53 = 67 / 2 ^ 53 * M := by ring
    rw [e]
    have : M / 2 ^ 46 = 1 / 2 ^ 46 * M := by ring
    rw [this]
    exact mul_le_mul_of_nonneg_right (by norm_num) hM0
  constructor
  · linarith only [e1.1, e2.1, e3.1, e4.1, e5.1, e6.1, e7.1, fin]
  · linarith only [e1.2, e2.2, e3.2, e4.2, e5.2, e6.2, e7.2, fin]

theorem round64_two_tenths : round64 (2 / 10) = 3602879701896397 / 18014398509481984 := by
  rw [round64_eq (2 / 10) (-3) 7205759403792794 (by norm_num) (by norm_num [abs_of_pos])
    (by norm_num [abs_of_pos]) (by norm_num [abs_lt])]
  norm_num

theorem offsetFactor_zero : Float64.offsetFactor 0 = 3602879701896397 / 18014398509481984 := by
  unfold Float64.offsetFactor
  rw [zero_mul, round64_zero, add_zero, round64_two_tenths]
  rw [round64_eq (3602879701896397 / 18014398509481984) (-3) 7205759403792794 (by norm_num)
    (by norm_num [abs_of_pos]) (by norm_num [abs_of_pos]) (by norm_num [abs_lt])]
  norm_num

/-- The first control point for start = (2^53, 0), end = (2^53 + 14, 0), every draw zero,
`math.Sqrt(196) = 14`, `math.Cos(0) = 1` and `math.Sin(0) = 0`: 14 * 0.2 is
2.8000000000000003, 2^53 + 3.5 is rounded to 2^53 + 4, and 2^53 + 4 + 2.8 to 2^53 + 6. -/
theorem NewBezierCurve_far :
    (Float64.NewBezierCurve (MathLib.constant 14 1 0) RandSource.zero 0
        { X := 9007199254740992, Y := 0 } { X := 9007199254741006, Y := 0 }).1.Control1
      = { X := 9007199254740998, Y := 0 } := by
  have e14 : (9007199254741006 : ℚ) - 9007199254740992 = 14 := by norm_num
  have h14 : round64 14 = 14 := by
    have := round64_natCast 14 (by norm_num)
    simpa using this
  have hq : round64 (14 * (25 / 100)) = 7 / 2 := by
    rw [round64_eq _ 1 7881299347898368 (by norm_num) (by norm_num [abs_of_pos])
      (by norm_num [abs_of_pos]) (by norm_num [abs_lt])]
    norm_num
  have ha : round64 (9007199254740992 + 7 / 2) = 9007199254740996 := by
    rw [round64_eq _ 53 4503599627370498 (by norm_num) (by norm_num [abs_of_pos])
      (by norm_num [abs_of_pos]) (by norm_num [abs_lt])]
    norm_num
  have hm : round64 (14 * (3602879701896397 / 18014398509481984))
      = 6305039478318695 / 2251799813685248 := by
    rw [round64_eq _ 1 6305039478318695 (by norm_num) (by norm_num [abs_of_pos])
      (by norm_num [abs_of_pos]) (by norm_num [abs_lt])]
    norm_num
  have hmi : round64 (6305039478318695 / 2251799813685248)
      = 6305039478318695 / 2251799813685248 := by
    rw [round64_eq _ 1 6305039478318695 (by norm_num) (by norm_num [abs_of_pos])
      (by norm_num [abs_of_pos]) (by norm_num [abs_lt])]
    norm_num
  have hc : round64 (9007199254740996 + 6305039478318695 / 2251799813685248)
      = 9007199254740998 := by
    rw [round64_eq _ 53 4503599627370499 (by norm_num) (by norm_num [abs_of_pos])
      (by norm_num [abs_of_pos]) (by norm_num [abs_lt])]
    norm_num
  rw [Float64.NewBezierCurve_eq]
  simp only [MathLib.constant, RandSource.zero, Float64.offsetMagnitudeOf, Float64.chordDistance,
    offsetFactor_zero, e14, h14, hq, ha, hm, one_mul, hmi, hc, sub_zero, zero_mul, round64_zero,
    add_zero]

/-- C11, counterexample: for start = (2^53, 0) and end = (2^53 + 14, 0), with every draw
zero, math.Sqrt(196) = 14, math.Cos(0) = 1 and math.Sin(0) = 0, NewBezierCurve computes
in float64 arithmetic Control1 = (2^53 + 6, 0); the chord point
start + 0.25 * (end - start) is (2^53 + 3.5, 0), so Control1 lies at distance 2.5 from
it, less than 20% of the chord length 14. -/
theorem C11_counterexample :
    (Float64.NewBezierCurve (MathLib.constant 14 1 0) RandSource.zero 0
        { X := 9007199254740992, Y := 0 } { X := 9007199254741006, Y := 0 }).1.Control1
      = { X := 9007199254740998, Y := 0 } ∧
    chordPoint { X := 9007199254740992, Y := 0 } { X := 9007199254741006, Y := 0 } (25 / 100)
      = { X := 9007199254740992 + 7 / 2, Y := 0 } ∧
    distSq { X := 9007199254740998, Y := 0 } { X := 9007199254740992 + 7 / 2, Y := 0 }
      = (5 / 2) ^ 2 ∧
    distSq { X := 9007199254741006, Y := 0 } { X := 9007199254740992, Y := 0 } = 14 ^ 2 ∧
    (5 / 2 : ℚ) < 20 / 100 * 14 := by
  refine ⟨NewBezierCurve_far, ?_, ?_, ?_, ?_⟩
  · simp only [chordPoint]
    norm_num
  · norm_num [distSq]
  · norm_num [distSq]
  · norm_num

/-- What the bounds on the coordinates, the chord and `math.Sqrt` give for the values
`distance` and `offsetMagnitude` of `NewBezierCurve`. -/
theorem Float64.magnitude_bounds (m : MathLib) (rng : RandSource) (k : Nat)
    (start stop : Point) (M : ℚ) (hM : 1 ≤ M)
    (hSX : |start.X| ≤ M) (hSY : |start.Y| ≤ M) (hEX : |stop.X| ≤ M) (hEY : |stop.Y| ≤ M)
    (hchord : (M / 2 ^ 20) ^ 2 ≤ distSq stop start)
    (hsqrt : 0 ≤ Float64.chordDistance m start stop ∧
      |Float64.chordDistance m start stop ^ 2 - Float64.sumSquares start stop|
        ≤ Float64.sumSquares start stop / 2 ^ 50) :
    2 / 10 * (1 - 1 / 2 ^ 49) * Float64.chordDistance m start stop
      ≤ Float64.offsetMagnitudeOf m rng k start stop ∧
    Float64.offsetMagnitudeOf m rng k start stop
      ≤ 5 / 10 * (1 + 1 / 2 ^ 49) * Float64.chordDistance m start stop := by
  obtain ⟨-, -, hMD, -⟩ := chordDistance_bounds m start stop M hM hSX hSY hEX hEY hchord hsqrt
  obtain ⟨hg0, hg1⟩ := offsetFactor_bounds (rng.float64 k) (rng.float64_range k).1
    (rng.float64_range k).2
  have hD : 1 / 2 ^ 21 ≤ Float64.chordDistance m start stop := by
    rw [div_le_iff₀ (by positivity)]
    linarith only [hMD, hM]
  exact offsetMagnitude_bounds _ _ hD hg0 hg1

/-- C11, amended: for start and end with coordinates of magnitude at most M, where
1 ≤ M ≤ 2^500, and a chord of length at least M / 2^20, when math.Sqrt is accurate to a
relative 2^(-50) in the square at its argument and math.Cos, math.Sin at the two angles
satisfy |cos^2 + sin^2 - 1| ≤ 2^(-50), the curve that NewBezierCurve builds in float64
arithmetic has Start and End exactly start and end, and each of its control points lies
at a distance between 20% * (1 - 2^(-20)) and 50% * (1 + 2^(-20)) of the chord length
from the chord point start + 0.25 * (end - start), respectively
start + 0.75 * (end - start); so does the value of offsetMagnitude.  Distances are
stated through their squares. -/
theorem C11_NewBezierCurve_controls (m : MathLib) (rng : RandSource) (k : Nat)
    (start stop : Point) (M : ℚ) (hM : 1 ≤ M) (_hMax : M ≤ 2 ^ 500)
    (hSX : |start.X| ≤ M) (hSY : |start.Y| ≤ M) (hEX : |stop.X| ≤ M) (hEY : |stop.Y| ≤ M)
    (hchord : (M / 2 ^ 20) ^ 2 ≤ distSq stop start)
    (hsqrt : 0 ≤ Float64.chordDistance m start stop ∧
      |Float64.chordDistance m start stop ^ 2 - Float64.sumSquares start stop|
        ≤ Float64.sumSquares start stop / 2 ^ 50)
    (hcs1 : |m.Cos (Float64.angleOf m (rng.float64 (k + 1))) ^ 2
      + m.Sin (Float64.angleOf m (rng.float64 (k + 1))) ^ 2 - 1| ≤ 1 / 2 ^ 50)
    (hcs2 : |m.Cos (Float64.angleOf m (rng.float64 (k + 2))) ^ 2
      + m.Sin (Float64.angleOf m (rng.float64 (k + 2))) ^ 2 - 1| ≤ 1 / 2 ^ 50) :
    (Float64.NewBezierCurve m rng k start stop).1.Start = start ∧
    (Float64.NewBezierCurve m rng k start stop).1.End = stop ∧
    (20 / 100 * (1 - 1 / 2 ^ 20)) ^ 2 * distSq stop start
      ≤ distSq (Float64.NewBezierCurve m rng k start stop).1.Control1
          (chordPoint start stop (25 / 100)) ∧
    distSq (Float64.NewBezierCurve m rng k start stop).1.Control1
        (chordPoint start stop (25 / 100))
      ≤ (50 / 100 * (1 + 1 / 2 ^ 20)) ^ 2 * distSq stop start ∧
    (20 / 100 * (1 - 1 / 2 ^ 20)) ^ 2 * distSq stop start
      ≤ distSq (Float64.NewBezierCurve m rng k start stop).1.Control2
          (chordPoint start stop (75 / 100)) ∧
    distSq (Float64.NewBezierCurve m rng k start stop).1.Control2
        (chordPoint start stop (75 / 100))
      ≤ (50 / 100 * (1 + 1 / 2 ^ 20)) ^ 2 * distSq stop start ∧
    (20 / 100 * (1 - 1 / 2 ^ 20)) ^ 2 * distSq stop start
      ≤ Float64.offsetMagnitudeOf m rng k start stop ^ 2 ∧
    Float64.offsetMagnitudeOf m rng k start stop ^ 2
      ≤ (50 / 100 * (1 + 1 / 2 ^ 20)) ^ 2 * distSq stop start := by
  obtain ⟨hDlo, hDup, hMD, hD3⟩ :=
    chordDistance_bounds m start stop M hM hSX hSY hEX hEY hchord hsqrt
  obtain ⟨hmag0, hmag1⟩ :=
    Float64.magnitude_bounds m rng k start stop M hM hSX hSY hEX hEY hchord hsqrt
  obtain ⟨h1lo, h1up⟩ := control_point_bounds start stop
    (m.Cos (Float64.angleOf m (rng.float64 (k + 1))))
    (m.Sin (Float64.angleOf m (rng.float64 (k + 1))))
    (Float64.offsetMagnitudeOf m rng k start stop) (Float64.chordDistance m start stop)
    (25 / 100) M hM hSX hSY hEX hEY (by norm_num) (by norm_num) hcs1 hMD hD3 hmag0 hmag1
  obtain ⟨h2lo, h2up⟩ := control_point_bounds start stop
    (m.Cos (Float64.angleOf m (rng.float64 (k + 2))))
    (m.Sin (Float64.angleOf m (rng.float64 (k + 2))))
    (Float64.offsetMagnitudeOf m rng k start stop) (Float64.chordDistance m start stop)
    (75 / 100) M hM hSX hSY hEX hEY (by norm_num) (by norm_num) hcs2 hMD hD3 hmag0 hmag1
  have hL0 : 0 ≤ distSq stop start := add_nonneg (sq_nonneg _) (sq_nonneg _)
  have hD0 : 0 ≤ Float64.chordDistance m start stop := hsqrt.1
  have hlow : (20 / 100 * (1 - 1 / 2 ^ 20)) ^ 2 * distSq stop start
      ≤ (2 / 10 * (1 - 1 / 2 ^ 22) * Float64.chordDistance m start stop) ^ 2 := by
    have e : (2 / 10 * (1 - 1 / 2 ^ 22) * Float64.chordDistance m start stop) ^ 2
        = (2 / 10 * (1 - 1 / 2 ^ 22)) ^ 2 * Float64.chordDistance m start stop ^ 2 := by ring
    rw [e]
    have h1 : (2 / 10 * (1 - 1 / 2 ^ 22) : ℚ) ^ 2 * ((1 - 1 / 2 ^ 48) * distSq stop start)
        ≤ (2 / 10 * (1 - 1 / 2 ^ 22)) ^ 2 * Float64.chordDistance m start stop ^ 2 :=
      mul_le_mul_of_nonneg_left hDlo (by positivity)
    have h2 : (20 / 100 * (1 - 1 / 2 ^ 20) : ℚ) ^ 2 * distSq stop start
        ≤ (2 / 10 * (1 - 1 / 2 ^ 22)) ^ 2 * ((1 - 1 / 2 ^ 48) * distSq stop start) := by
      have e2 : (2 / 10 * (1 - 1 / 2 ^ 22) : ℚ) ^ 2 * ((1 - 1 / 2 ^ 48) * distSq stop start)
          = ((2 / 10 * (1 - 1 / 2 ^ 22)) ^ 2 * (1 - 1 / 2 ^ 48)) * distSq stop start := by ring
      rw [e2]
      exact mul_le_mul_of_nonneg_right (by norm_num) hL0
    linarith only [h1, h2]
  have hupp : (5 / 10 * (1 + 1 / 2 ^ 22) * Float64.chordDistance m start stop) ^ 2
      ≤ (50 / 100 * (1 + 1 / 2 ^ 20)) ^ 2 * distSq stop start := by
    have e : (5 / 10 * (1 + 1 / 2 ^ 22) * Float64.chordDistance m start stop) ^ 2
        = (5 / 10 * (1 + 1 / 2 ^ 22)) ^ 2 * Float64.chordDistance m start stop ^ 2 := by ring
    rw [e]
    have h1 : (5 / 10 * (1 + 1 / 2 ^ 22) : ℚ) ^ 2 * Float64.chordDistance m start stop ^ 2
        ≤ (5 / 10 * (1 + 1 / 2 ^ 22)) ^ 2 * ((1 + 1 / 2 ^ 48) * distSq stop start) :=
      mul_le_mul_of_nonneg_left hDup (by positivity)
    have h2 : (5 / 10 * (1 + 1 / 2 ^ 22) : ℚ) ^ 2 * ((1 + 1 / 2 ^ 48) * distSq stop start)
        ≤ (50 / 100 * (1 + 1 / 2 ^ 20)) ^ 2 * distSq stop start := by
      have e2 : (5 / 10 * (1 + 1 / 2 ^ 22) : ℚ) ^ 2 * ((1 + 1 / 2 ^ 48) * distSq stop start)
          = ((5 / 10 * (1 + 1 / 2 ^ 22)) ^ 2 * (1 + 1 / 2 ^ 48)) * distSq stop start := by ring
      rw [e2]
      exact mul_le_mul_of_nonneg_right (by norm_num) hL0
    linarith only [h1, h2]
  have hmlo : (2 / 10 * (1 - 1 / 2 ^ 22) * Float64.chordDistance m start stop) ^ 2
      ≤ Float64.offsetMagnitudeOf m rng k start stop ^ 2 := by
    apply pow_le_pow_left₀ (mul_nonneg (by norm_num) hD0)
    have : 2 / 10 * (1 - 1 / 2 ^ 22) * Float64.chordDistance m start stop
        ≤ 2 / 10 * (1 - 1 / 2 ^ 49) * Float64.chordDistance m start stop :=
      mul_le_mul_of_nonneg_right (by norm_num) hD0
    linarith only [this, hmag0]
  have hmup : Float64.offsetMagnitudeOf m rng k start stop ^ 2
      ≤ (5 / 10 * (1 + 1 / 2 ^ 22) * Float64.chordDistance m start stop) ^ 2 := by
    have h0 : 0 ≤ Float64.offsetMagnitudeOf m rng k start stop := by
      have : 0 ≤ 2 / 10 * (1 - 1 / 2 ^ 49) * Float64.chordDistance m start stop :=
        mul_nonneg (by norm_num) hD0
      linarith only [this, hmag0]
    apply pow_le_pow_left₀ h0
    have : 5 / 10 * (1 + 1 / 2 ^ 49) * Float64.chordDistance m start stop
        ≤ 5 / 10 * (1 + 1 / 2 ^ 22) * Float64.chordDistance m start stop :=
      mul_le_mul_of_nonneg_right (by norm_num) hD0
    linarith only [this, hmag1]
  rw [Float64.NewBezierCurve_eq]
  exact ⟨rfl, rfl, le_trans hlow h1lo, le_trans h1up hupp, le_trans hlow h2lo,
    le_trans h2up hupp, le_trans hlow hmlo, le_trans hmup hupp⟩

/-- The two control points for start = (10^17, 0), end = (10^17 + 16, 0), every draw
zero, `math.Sqrt(256) = 16`, `math.Cos(0) = 1` and `math.Sin(0) = 0`: the spacing of
`float64` at 10^17 is 16, so 10^17 + 4 + 3.2 is rounded to 10^17 and 10^17 + 12 + 3.2 to
10^17 + 16. -/
theorem NewBezierCurve_coarse :
    (Float64.NewBezierCurve (MathLib.constant 16 1 0) RandSource.zero 0
        { X := 100000000000000000, Y := 0 } { X := 100000000000000016, Y := 0 }).1
      = { Start := { X := 100000000000000000, Y := 0 }
          End := { X := 100000000000000016, Y := 0 }
          Control1 := { X := 100000000000000000, Y := 0 }
          Control2 := { X := 100000000000000016, Y := 0 } } ∧
    Float64.offsetMagnitudeOf (MathLib.constant 16 1 0) RandSource.zero 0
        { X := 100000000000000000, Y := 0 } { X := 100000000000000016, Y := 0 }
      = 3602879701896397 / 1125899906842624 := by
  have e16 : (100000000000000016 : ℚ) - 100000000000000000 = 16 := by norm_num
  have h16 : round64 16 = 16 := by
    have := round64_natCast 16 (by norm_num)
    simpa using this
  have hq1 : round64 (16 * (25 / 100)) = 4 := by
    rw [round64_eq _ 2 4503599627370496 (by norm_num) (by norm_num [abs_of_pos])
      (by norm_num [abs_of_pos]) (by norm_num [abs_lt])]
    norm_num
  have hq3 : round64 (16 * (75 / 100)) = 12 := by
    rw [round64_eq _ 3 6755399441055744 (by norm_num) (by norm_num [abs_of_pos])
      (by norm_num [abs_of_pos]) (by norm_num [abs_lt])]
    norm_num
  have ha1 : round64 (100000000000000000 + 4) = 100000000000000000 := by
    rw [round64_eq _ 56 6250000000000000 (by norm_num) (by norm_num [abs_of_pos])
      (by norm_num [abs_of_pos]) (by norm_num [abs_lt])]
    norm_num
  have ha3 : round64 (100000000000000000 + 12) = 100000000000000016 := by
    rw [round64_eq _ 56 6250000000000001 (by norm_num) (by norm_num [abs_of_pos])
      (by norm_num [abs_of_pos]) (by norm_num [abs_lt])]
    norm_num
  have hm : round64 (16 * (3602879701896397 / 18014398509481984)) = 3602879701896397 / 1125899906842624 := by
    rw [round64_eq _ 1 7205759403792794 (by norm_num) (by norm_num [abs_of_pos])
      (by norm_num [abs_of_pos]) (by norm_num [abs_lt])]
    norm_num
  have hmi : round64 (3602879701896397 / 1125899906842624) = 3602879701896397 / 1125899906842624 := by
    rw [round64_eq _ 1 7205759403792794 (by norm_num) (by norm_num [abs_of_pos])
      (by norm_num [abs_of_pos]) (by norm_num [abs_lt])]
    norm_num
  have hc1 : round64 (100000000000000000 + 3602879701896397 / 1125899906842624) = 100000000000000000 := by
    rw [round64_eq _ 56 6250000000000000 (by norm_num) (by norm_num [abs_of_pos])
      (by norm_num [abs_of_pos]) (by norm_num [abs_lt])]
    norm_num
  have hc2 : round64 (100000000000000016 + 3602879701896397 / 1125899906842624) = 100000000000000016 := by
    rw [round64_eq _ 56 6250000000000001 (by norm_num) (by norm_num [abs_of_pos])
      (by norm_num [abs_of_pos]) (by norm_num [abs_lt])]
    norm_num
  constructor
  · rw [Float64.NewBezierCurve_eq]
    simp only [MathLib.constant, RandSource.zero, Float64.offsetMagnitudeOf,
      Float64.chordDistance, offsetFactor_zero, e16, h16, hq1, hq3, ha1, ha3, hm, one_mul, hmi,
      hc1, hc2, sub_zero, zero_mul, round64_zero, add_zero]
  · simp only [MathLib.constant, RandSource.zero, Float64.offsetMagnitudeOf,
      Float64.chordDistance, offsetFactor_zero, hm]

/-- The point at t = 1/2 of the curve with start = (10^17, 0), Control1 = (10^17, 0),
Control2 = end = (10^17 + 16, 0): the sum 8.75 * 10^16 + 8 of the first three products
lies half-way between two `float64` values and is rounded to 8.75 * 10^16, and
10^17 + 2 is rounded to 10^17. -/
theorem CalculatePoint_coarse :
    Float64.CalculatePoint (MathLib.constant 16 1 0)
        { Start := { X := 100000000000000000, Y := 0 }
          End := { X := 100000000000000016, Y := 0 }
          Control1 := { X := 100000000000000000, Y := 0 }
          Control2 := { X := 100000000000000016, Y := 0 } } (1 / 2)
      = { X := 100000000000000000, Y := 0 } := by
  have hp2 : (MathLib.constant 16 1 0).Pow (1 / 2) 2 = 1 / 4 := by
    norm_num [MathLib.constant]
  have hp3 : (MathLib.constant 16 1 0).Pow (1 / 2) 3 = 1 / 8 := by
    norm_num [MathLib.constant]
  have hA : round64 (1 / 8 * 100000000000000000) = 12500000000000000 := by
    rw [round64_eq _ 53 6250000000000000 (by norm_num) (by norm_num [abs_of_pos])
      (by norm_num [abs_of_pos]) (by norm_num [abs_lt])]
    norm_num
  have hB : round64 (3 / 8 * 100000000000000000) = 37500000000000000 := by
    rw [round64_eq _ 55 4687500000000000 (by norm_num) (by norm_num [abs_of_pos])
      (by norm_num [abs_of_pos]) (by norm_num [abs_lt])]
    norm_num
  have hAB : round64 (12500000000000000 + 37500000000000000) = 50000000000000000 := by
    rw [round64_eq _ 55 6250000000000000 (by norm_num) (by norm_num [abs_of_pos])
      (by norm_num [abs_of_pos]) (by norm_num [abs_lt])]
    norm_num
  have hC : round64 (3 / 8 * 100000000000000016) = 37500000000000008 := by
    rw [round64_eq _ 55 4687500000000001 (by norm_num) (by norm_num [abs_of_pos])
      (by norm_num [abs_of_pos]) (by norm_num [abs_lt])]
    norm_num
  have hABC : round64 (50000000000000000 + 37500000000000008) = 87500000000000000 := by
    rw [round64_tie _ 56 5468750000000000 (by norm_num) (by norm_num [abs_of_pos])
      (by norm_num [abs_of_pos]) (by norm_num)]
    norm_num
  have hD : round64 (1 / 8 * 100000000000000016) = 12500000000000002 := by
    rw [round64_eq _ 53 6250000000000001 (by norm_num) (by norm_num [abs_of_pos])
      (by norm_num [abs_of_pos]) (by norm_num [abs_lt])]
    norm_num
  have hP : round64 (87500000000000000 + 12500000000000002) = 100000000000000000 := by
    rw [round64_eq _ 56 6250000000000000 (by norm_num) (by norm_num [abs_of_pos])
      (by norm_num [abs_of_pos]) (by norm_num [abs_lt])]
    norm_num
  simp only [Float64.CalculatePoint, Float64.bezierCoordinate_half _ hp2 hp3, hA, hB, hAB, hC,
    hABC, hD, hP, mul_zero, round64_zero, add_zero]

/-- C12, counterexample: for start = (10^17, 0) and end = (10^17 + 16, 0), with every
draw zero, math.Sqrt(256) = 16, math.Cos(0) = 1 and math.Sin(0) = 0, the value of
offsetMagnitude is 3.2 and the point at t = 1/2 of the curve that NewBezierCurve builds in
float64 arithmetic is (10^17, 0), the sample of index 2 of GeneratePath(5); it lies at
distance 8 from the midpoint (10^17 + 8, 0), more than the offset magnitude. -/
theorem C12_counterexample :
    Float64.CalculatePoint (MathLib.constant 16 1 0)
        (Float64.NewBezierCurve (MathLib.constant 16 1 0) RandSource.zero 0
          { X := 100000000000000000, Y := 0 } { X := 100000000000000016, Y := 0 }).1 (1 / 2)
      = { X := 100000000000000000, Y := 0 } ∧
    (∃ path, Float64.GeneratePath (MathLib.constant 16 1 0)
        (Float64.NewBezierCurve (MathLib.constant 16 1 0) RandSource.zero 0
          { X := 100000000000000000, Y := 0 } { X := 100000000000000016, Y := 0 }).1 5
        = some path ∧ path[2]? = some { X := 100000000000000000, Y := 0 }) ∧
    midpoint { X := 100000000000000000, Y := 0 } { X := 100000000000000016, Y := 0 }
      = { X := 100000000000000008, Y := 0 } ∧
    distSq { X := 100000000000000000, Y := 0 } { X := 100000000000000008, Y := 0 } = 8 ^ 2 ∧
    Float64.offsetMagnitudeOf (MathLib.constant 16 1 0) RandSource.zero 0
        { X := 100000000000000000, Y := 0 } { X := 100000000000000016, Y := 0 }
      = 3602879701896397 / 1125899906842624 ∧
    (3602879701896397 / 1125899906842624 : ℚ) < 8 := by
  have hpt : Float64.CalculatePoint (MathLib.constant 16 1 0)
      (Float64.NewBezierCurve (MathLib.constant 16 1 0) RandSource.zero 0
        { X := 100000000000000000, Y := 0 } { X := 100000000000000016, Y := 0 }).1 (1 / 2)
      = { X := 100000000000000000, Y := 0 } := by
    rw [NewBezierCurve_coarse.1]
    exact CalculatePoint_coarse
  refine ⟨hpt, ?_, ?_, ?_, NewBezierCurve_coarse.2, ?_⟩
  · obtain ⟨path, h1, h2⟩ := Float64.GeneratePath_middle (MathLib.constant 16 1 0)
      (Float64.NewBezierCurve (MathLib.constant 16 1 0) RandSource.zero 0
        { X := 100000000000000000, Y := 0 } { X := 100000000000000016, Y := 0 }).1 2
      (by norm_num) (by norm_num)
    exact ⟨path, h1, by rw [h2, hpt]⟩
  · simp only [midpoint]
    norm_num
  · norm_num [distSq]
  · norm_num

theorem three_err (a b c M : ℚ) (hM : 0 ≤ M) (ha : |a| ≤ M / 2 ^ 46) (hb : |b| ≤ M / 2 ^ 47)
    (hc : |c| ≤ M / 2 ^ 47) : |a + 3 / 8 * b + 3 / 8 * c| ≤ M / 2 ^ 45 := by
  rw [abs_le] at ha hb hc ⊢
  have h : M / 2 ^ 46 + 3 / 8 * (M / 2 ^ 47) + 3 / 8 * (M / 2 ^ 47) ≤ M / 2 ^ 45 := by
    have e : M / 2 ^ 46 + 3 / 8 * (M / 2 ^ 47) + 3 / 8 * (M / 2 ^ 47)
        = (1 / 2 ^ 46 + 3 / 8 / 2 ^ 46) * M := by ring
    have e2 : M / 2 ^ 45 = 1 / 2 ^ 45 * M := by ring
    rw [e, e2]
    exact mul_le_mul_of_nonneg_right (by norm_num) hM
  constructor
  · linarith only [ha.1, hb.1, hc.1, h]
  · linarith only [ha.2, hb.2, hc.2, h]

/-- The point at t = 1/2, computed in float64 from the cosines, the sines and the
magnitude, against the exact midpoint. -/

theorem midpoint_bounds (start stop : Point) (c1 s1 c2 s2 mag D M : ℚ) (hM : 1 ≤ M)
    (hSX : |start.X| ≤ M) (hSY : |start.Y| ≤ M) (hEX : |stop.X| ≤ M) (hEY : |stop.Y| ≤ M)
    (hcs1 : |c1 ^ 2 + s1 ^ 2 - 1| ≤ 1 / 2 ^ 50) (hcs2 : |c2 ^ 2 + s2 ^ 2 - 1| ≤ 1 / 2 ^ 50)
    (hMD : M ≤ 2 ^ 21 * D) (hD3 : D ≤ 3 * M)
    (hDup : D ^ 2 ≤ (1 + 1 / 2 ^ 48) * distSq stop start)
    (hmag0 : 2 / 10 * (1 - 1 / 2 ^ 49) * D ≤ mag)
    (hmag1 : mag ≤ 5 / 10 * (1 + 1 / 2 ^ 49) * D) :
    distSq
        { X := round64 (round64 (round64 (round64 (1 / 8 * start.X)
              + round64 (3 / 8 * round64 (round64 (start.X
                  + round64 (round64 (stop.X - start.X) * (25 / 100))) + round64 (c1 * mag))))
              + round64 (3 / 8 * round64 (round64 (start.X
                  + round64 (round64 (stop.X - start.X) * (75 / 100))) + round64 (c2 * mag))))
              + round64 (1 / 8 * stop.X))
          Y := round64 (round64 (round64 (round64 (1 / 8 * start.Y)
              + round64 (3 / 8 * round64 (round64 (start.Y
                  + round64 (round64 (stop.Y - start.Y) * (25 / 100))) + round64 (s1 * mag))))
              + round64 (3 / 8 * round64 (round64 (start.Y
                  + round64 (round64 (stop.Y - start.Y) * (75 / 100))) + round64 (s2 * mag))))
              + round64 (1 / 8 * stop.Y)) }
        (midpoint start stop)
      ≤ (76 / 100 * mag) ^ 2 ∧
    (76 / 100 * mag) ^ 2 ≤ mag ^ 2 ∧
    (76 / 100 * mag) ^ 2 ≤ (50 / 100) ^ 2 * distSq stop start := by
  have hM0 : 0 < M := lt_of_lt_of_le zero_lt_one hM
  have hD0 : 0 < D := by linarith only [hM0, hMD]
  have hmagpos : 0 ≤ mag := by
    have : 0 ≤ 2 / 10 * (1 - 1 / 2 ^ 49) * D := mul_nonneg (by norm_num) hD0.le
    linarith only [this, hmag0]
  have hmag3 : mag ≤ 3 * M := by
    have : 5 / 10 * (1 + 1 / 2 ^ 49) * D ≤ 1 * D :=
      mul_le_mul_of_nonneg_right (by norm_num) hD0.le
    linarith only [this, hmag1, hD3]
  obtain ⟨hc1, hs1⟩ := abs_le_two_of_sq c1 s1 hcs1
  obtain ⟨hc2, hs2⟩ := abs_le_two_of_sq c2 s2 hcs2
  obtain ⟨ex1, bx1⟩ := control_coordinate_err start.X stop.X c1 mag (25 / 100) M hM hSX hEX hc1
    hmagpos hmag3 (by norm_num) (by norm_num)
  obtain ⟨ex2, bx2⟩ := control_coordinate_err start.X stop.X c2 mag (75 / 100) M hM hSX hEX hc2
    hmagpos hmag3 (by norm_num) (by norm_num)
  obtain ⟨ey1, by1⟩ := control_coordinate_err start.Y stop.Y s1 mag (25 / 100) M hM hSY hEY hs1
    hmagpos hmag3 (by norm_num) (by norm_num)
  obtain ⟨ey2, by2⟩ := control_coordinate_err start.Y stop.Y s2 mag (75 / 100) M hM hSY hEY hs2
    hmagpos hmag3 (by norm_num) (by norm_num)
  generalize round64 (round64 (start.X + round64 (round64 (stop.X - start.X) * (25 / 100)))
    + round64 (c1 * mag)) = X1 at ex1 bx1 ⊢
  generalize round64 (round64 (start.X + round64 (round64 (stop.X - start.X) * (75 / 100)))
    + round64 (c2 * mag)) = X2 at ex2 bx2 ⊢
  generalize round64 (round64 (start.Y + round64 (round64 (stop.Y - start.Y) * (25 / 100)))
    + round64 (s1 * mag)) = Y1 at ey1 by1 ⊢
  generalize round64 (round64 (start.Y + round64 (round64 (stop.Y - start.Y) * (75 / 100)))
    + round64 (s2 * mag)) = Y2 at ey2 by2 ⊢
  have bX := bezier_half_err start.X X1 X2 stop.X M hM hSX hEX bx1 bx2
  have bY := bezier_half_err start.Y Y1 Y2 stop.Y M hM hSY hEY by1 by2
  generalize round64 (round64 (round64 (round64 (1 / 8 * start.X) + round64 (3 / 8 * X1))
    + round64 (3 / 8 * X2)) + round64 (1 / 8 * stop.X)) = PX at bX ⊢
  generalize round64 (round64 (round64 (round64 (1 / 8 * start.Y) + round64 (3 / 8 * Y1))
    + round64 (3 / 8 * Y2)) + round64 (1 / 8 * stop.Y)) = PY at bY ⊢
  -- the deviation from the midpoint
  have hdist : distSq { X := PX, Y := PY } (midpoint start stop)
      = (3 / 8 * mag * (c1 + c2)
          + ((PX - (1 / 8 * start.X + 3 / 8 * X1 + 3 / 8 * X2 + 1 / 8 * stop.X))
            + 3 / 8 * (X1 - (start.X + 25 / 100 * (stop.X - start.X) + c1 * mag))
            + 3 / 8 * (X2 - (start.X + 75 / 100 * (stop.X - start.X) + c2 * mag)))) ^ 2
        + (3 / 8 * mag * (s1 + s2)
          + ((PY - (1 / 8 * start.Y + 3 / 8 * Y1 + 3 / 8 * Y2 + 1 / 8 * stop.Y))
            + 3 / 8 * (Y1 - (start.Y + 25 / 100 * (stop.Y - start.Y) + s1 * mag))
            + 3 / 8 * (Y2 - (start.Y + 75 / 100 * (stop.Y - start.Y) + s2 * mag)))) ^ 2 := by
    simp only [distSq, midpoint]
    ring
  have hEX' := three_err _ _ _ M hM0.le bX ex1 ex2
  have hEY' := three_err _ _ _ M hM0.le bY ey1 ey2
  rw [hdist]
  generalize (PX - (1 / 8 * start.X + 3 / 8 * X1 + 3 / 8 * X2 + 1 / 8 * stop.X))
            + 3 / 8 * (X1 - (start.X + 25 / 100 * (stop.X - start.X) + c1 * mag))
            + 3 / 8 * (X2 - (start.X + 75 / 100 * (stop.X - start.X) + c2 * mag)) = eX
    at hEX' ⊢
  generalize (PY - (1 / 8 * start.Y + 3 / 8 * Y1 + 3 / 8 * Y2 + 1 / 8 * stop.Y))
            + 3 / 8 * (Y1 - (start.Y + 25 / 100 * (stop.Y - start.Y) + s1 * mag))
            + 3 / 8 * (Y2 - (start.Y + 75 / 100 * (stop.Y - start.Y) + s2 * mag)) = eY
    at hEY' ⊢
  have hq : eX ^ 2 + eY ^ 2 ≤ (M / 2 ^ 44) ^ 2 := by
    have := sq_add_sq_le_of_abs eX eY (M / 2 ^ 45) hEX' hEY'
    have e : (2 * (M / 2 ^ 45)) = M / 2 ^ 44 := by ring
    rw [e] at this
    exact this
  rw [abs_le] at hcs1 hcs2
  have hmm : 0 ≤ mag ^ 2 := sq_nonneg mag
  have hp : (3 / 8 * mag * (c1 + c2)) ^ 2 + (3 / 8 * mag * (s1 + s2)) ^ 2
      ≤ (3 / 4 * mag * (1 + 1 / 2 ^ 50)) ^ 2 := by
    have e1 : (3 / 8 * mag * (c1 + c2)) ^ 2 + (3 / 8 * mag * (s1 + s2)) ^ 2
        = mag ^ 2 * (9 / 64 * ((c1 + c2) ^ 2 + (s1 + s2) ^ 2)) := by ring
    have e2 : (3 / 4 * mag * (1 + 1 / 2 ^ 50)) ^ 2
        = mag ^ 2 * (9 / 16 * (1 + 1 / 2 ^ 50) ^ 2) := by ring
    rw [e1, e2]
    apply mul_le_mul_of_nonneg_left _ hmm
    have h4 : (c1 + c2) ^ 2 + (s1 + s2) ^ 2 ≤ 4 * (1 + 1 / 2 ^ 50) := by
      have e : (c1 + c2) ^ 2 + (s1 + s2) ^ 2
          = 2 * (c1 ^ 2 + s1 ^ 2) + 2 * (c2 ^ 2 + s2 ^ 2)
            - ((c1 - c2) ^ 2 + (s1 - s2) ^ 2) := by ring
      have h0 : 0 ≤ (c1 - c2) ^ 2 + (s1 - s2) ^ 2 := add_nonneg (sq_nonneg _) (sq_nonneg _)
      rw [e]
      linarith only [hcs1.2, hcs2.2, h0]
    have h5 : (9 / 16 : ℚ) * (1 + 1 / 2 ^ 50) ≤ 9 / 16 * (1 + 1 / 2 ^ 50) ^ 2 := by norm_num
    linarith only [h4, h5]
  have hP0 : 0 ≤ 3 / 4 * mag * (1 + 1 / 2 ^ 50) := by positivity
  have hQ0 : 0 ≤ M / 2 ^ 44 := by positivity
  have h := norm_add_le _ _ eX eY _ _ hp hq hP0 hQ0
  have hQD : M / 2 ^ 44 ≤ D / 2 ^ 23 := by
    rw [div_le_div_iff₀ (by positivity) (by positivity)]
    have : M * 2 ^ 23 ≤ 2 ^ 21 * D * 2 ^ 23 := mul_le_mul_of_nonneg_right hMD (by positivity)
    have e : D * 2 ^ 44 = 2 ^ 21 * D * 2 ^ 23 := by ring
    rw [e]; exact this
  have hDm : D ≤ 501 / 100 * mag := by
    have h1 : 501 / 100 * (2 / 10 * (1 - 1 / 2 ^ 49) * D) ≤ 501 / 100 * mag :=
      mul_le_mul_of_nonneg_left hmag0 (by norm_num)
    have e : 501 / 100 * (2 / 10 * (1 - 1 / 2 ^ 49) * D)
        = D + D * (501 / 100 * (2 / 10 * (1 - 1 / 2 ^ 49)) - 1) := by ring
    have : 0 ≤ D * (501 / 100 * (2 / 10 * (1 - 1 / 2 ^ 49)) - 1) :=
      mul_nonneg hD0.le (by norm_num)
    linarith only [h1, e, this]
  have hbase : 3 / 4 * mag * (1 + 1 / 2 ^ 50) + M / 2 ^ 44 ≤ 76 / 100 * mag := by
    have h1 : D / 2 ^ 23 ≤ 501 / 100 * mag / 2 ^ 23 :=
      div_le_div_of_nonneg_right hDm (by positivity)
    have e : 76 / 100 * mag
        = 3 / 4 * mag * (1 + 1 / 2 ^ 50) + 501 / 100 * mag / 2 ^ 23
          + mag * (76 / 100 - 3 / 4 * (1 + 1 / 2 ^ 50) - 501 / 100 / 2 ^ 23) := by ring
    have : 0 ≤ mag * (76 / 100 - 3 / 4 * (1 + 1 / 2 ^ 50) - 501 / 100 / 2 ^ 23) :=
      mul_nonneg hmagpos (by norm_num)
    rw [e]; linarith only [h1, hQD, this]
  have h76 : 0 ≤ 76 / 100 * mag := mul_nonneg (by norm_num) hmagpos
  refine ⟨le_trans h (pow_le_pow_left₀ (by linarith only [hP0, hQ0]) hbase 2), ?_, ?_⟩
  · exact pow_le_pow_left₀ h76 (by linarith only [hmagpos]) 2
  · have h1 : 76 / 100 * mag ≤ 4 / 10 * D := by
      have h2 : 76 / 100 * mag ≤ 76 / 100 * (5 / 10 * (1 + 1 / 2 ^ 49) * D) :=
        mul_le_mul_of_nonneg_left hmag1 (by norm_num)
      have e : 4 / 10 * D = 76 / 100 * (5 / 10 * (1 + 1 / 2 ^ 49) * D)
          + D * (4 / 10 - 76 / 100 * (5 / 10 * (1 + 1 / 2 ^ 49))) := by ring
      have : 0 ≤ D * (4 / 10 - 76 / 100 * (5 / 10 * (1 + 1 / 2 ^ 49))) :=
        mul_nonneg hD0.le (by norm_num)
      rw [e]; linarith only [h2, this]
    have h3 : (76 / 100 * mag) ^ 2 ≤ (4 / 10 * D) ^ 2 := pow_le_pow_left₀ h76 h1 2
    have hL0 : 0 ≤ distSq stop start := add_nonneg (sq_nonneg _) (sq_nonneg _)
    have h4 : (4 / 10 * D) ^ 2 ≤ (50 / 100) ^ 2 * distSq stop start := by
      have e : (4 / 10 * D) ^ 2 = 16 / 100 * D ^ 2 := by ring
      rw [e]
      have h5 : 16 / 100 * D ^ 2 ≤ 16 / 100 * ((1 + 1 / 2 ^ 48) * distSq stop start) :=
        mul_le_mul_of_nonneg_left hDup (by norm_num)
      have e2 : (50 / 100 : ℚ) ^ 2 * distSq stop start
          = 16 / 100 * ((1 + 1 / 2 ^ 48) * distSq stop start)
            + distSq stop start * ((50 / 100) ^ 2 - 16 / 100 * (1 + 1 / 2 ^ 48)) := by ring
      have : 0 ≤ distSq stop start * ((50 / 100 : ℚ) ^ 2 - 16 / 100 * (1 + 1 / 2 ^ 48)) :=
        mul_nonneg hL0 (by norm_num)
      rw [e2]; linarith only [h5, this]
    linarith only [h3, h4]

/-- C12, amended: for start and end with coordinates of magnitude at most M, where
1 ≤ M ≤ 2^500, and a chord of length at least M / 2^20, when math.Sqrt is accurate to a
relative 2^(-50) in the square at its argument, math.Cos, math.Sin at the two angles
satisfy |cos^2 + sin^2 - 1| ≤ 2^(-50), and math.Pow is exact at (0.5, 2) and (0.5, 3),
the point at t = 1/2 of the curve that NewBezierCurve builds, computed in float64
arithmetic, lies within 76% of the value of offsetMagnitude, hence within
offsetMagnitude, of the midpoint (start + end) / 2, and within 50% of the chord length;
it is the sample of index j of GeneratePath(2j + 1) for 1 ≤ j < 2^52.  Distances are
stated through their squares. -/
theorem C12_midpoint_deviation (m : MathLib) (rng : RandSource) (k : Nat)
    (start stop : Point) (M : ℚ) (hM : 1 ≤ M) (_hMax : M ≤ 2 ^ 500)
    (hSX : |start.X| ≤ M) (hSY : |start.Y| ≤ M) (hEX : |stop.X| ≤ M) (hEY : |stop.Y| ≤ M)
    (hchord : (M / 2 ^ 20) ^ 2 ≤ distSq stop start)
    (hsqrt : 0 ≤ Float64.chordDistance m start stop ∧
      |Float64.chordDistance m start stop ^ 2 - Float64.sumSquares start stop|
        ≤ Float64.sumSquares start stop / 2 ^ 50)
    (hcs1 : |m.Cos (Float64.angleOf m (rng.float64 (k + 1))) ^ 2
      + m.Sin (Float64.angleOf m (rng.float64 (k + 1))) ^ 2 - 1| ≤ 1 / 2 ^ 50)
    (hcs2 : |m.Cos (Float64.angleOf m (rng.float64 (k + 2))) ^ 2
      + m.Sin (Float64.angleOf m (rng.float64 (k + 2))) ^ 2 - 1| ≤ 1 / 2 ^ 50)
    (hp2 : m.Pow (1 / 2) 2 = 1 / 4) (hp3 : m.Pow (1 / 2) 3 = 1 / 8) :
    distSq (Float64.CalculatePoint m (Float64.NewBezierCurve m rng k start stop).1 (1 / 2))
        (midpoint start stop)
      ≤ (76 / 100 * Float64.offsetMagnitudeOf m rng k start stop) ^ 2 ∧
    distSq (Float64.CalculatePoint m (Float64.NewBezierCurve m rng k start stop).1 (1 / 2))
        (midpoint start stop)
      ≤ Float64.offsetMagnitudeOf m rng k start stop ^ 2 ∧
    distSq (Float64.CalculatePoint m (Float64.NewBezierCurve m rng k start stop).1 (1 / 2))
        (midpoint start stop)
      ≤ (50 / 100) ^ 2 * distSq stop start ∧
    0 ≤ Float64.offsetMagnitudeOf m rng k start stop ∧
    ∀ j : Nat, 1 ≤ j → j < 2 ^ 52 → ∃ path,
      Float64.GeneratePath m (Float64.NewBezierCurve m rng k start stop).1
        (2 * (j : Int) + 1) = some path ∧
      path[j]? = some
        (Float64.CalculatePoint m (Float64.NewBezierCurve m rng k start stop).1 (1 / 2)) := by
  obtain ⟨-, hDup, hMD, hD3⟩ :=
    chordDistance_bounds m start stop M hM hSX hSY hEX hEY hchord hsqrt
  obtain ⟨hmag0, hmag1⟩ :=
    Float64.magnitude_bounds m rng k start stop M hM hSX hSY hEX hEY hchord hsqrt
  have hmagpos : 0 ≤ Float64.offsetMagnitudeOf m rng k start stop := by
    have : 0 ≤ 2 / 10 * (1 - 1 / 2 ^ 49) * Float64.chordDistance m start stop :=
      mul_nonneg (by norm_num) hsqrt.1
    linarith only [this, hmag0]
  obtain ⟨h1, h2, h3⟩ := midpoint_bounds start stop
    (m.Cos (Float64.angleOf m (rng.float64 (k + 1))))
    (m.Sin (Float64.angleOf m (rng.float64 (k + 1))))
    (m.Cos (Float64.angleOf m (rng.float64 (k + 2))))
    (m.Sin (Float64.angleOf m (rng.float64 (k + 2))))
    (Float64.offsetMagnitudeOf m rng k start stop) (Float64.chordDistance m start stop) M
    hM hSX hSY hEX hEY hcs1 hcs2 hMD hD3 hDup hmag0 hmag1
  have hpt : Float64.CalculatePoint m (Float64.NewBezierCurve m rng k start stop).1 (1 / 2)
      = { X := round64 (round64 (round64 (round64 (1 / 8 * start.X)
              + round64 (3 / 8 * round64 (round64 (start.X
                  + round64 (round64 (stop.X - start.X) * (25 / 100)))
                + round64 (m.Cos (Float64.angleOf m (rng.float64 (k + 1)))
                    * Float64.offsetMagnitudeOf m rng k start stop))))
              + round64 (3 / 8 * round64 (round64 (start.X
                  + round64 (round64 (stop.X - start.X) * (75 / 100)))
                + round64 (m.Cos (Float64.angleOf m (rng.float64 (k + 2)))
                    * Float64.offsetMagnitudeOf m rng k start stop))))
              + round64 (1 / 8 * stop.X))
          Y := round64 (round64 (round64 (round64 (1 / 8 * start.Y)
              + round64 (3 / 8 * round64 (round64 (start.Y
                  + round64 (round64 (stop.Y - start.Y) * (25 / 100)))
                + round64 (m.Sin (Float64.angleOf m (rng.float64 (k + 1)))
                    * Float64.offsetMagnitudeOf m rng k start stop))))
              + round64 (3 / 8 * round64 (round64 (start.Y
                  + round64 (round64 (stop.Y - start.Y) * (75 / 100)))
                + round64 (m.Sin (Float64.angleOf m (rng.float64 (k + 2)))
                    * Float64.offsetMagnitudeOf m rng k start stop))))
              + round64 (1 / 8 * stop.Y)) } := by
    rw [Float64.NewBezierCurve_eq]
    simp only [Float64.CalculatePoint, Float64.bezierCoordinate_half m hp2 hp3]
  refine ⟨?_, ?_, ?_, hmagpos, ?_⟩
  · rw [hpt]; exact h1
  · rw [hpt]; exact le_trans h1 h2
  · rw [hpt]; exact le_trans h1 h3
  · intro j hj hj2
    exact Float64.GeneratePath_middle m _ j hj hj2

/-- C13, counterexample: for p = (3, 4) NewBezierCurve(p, p) returns a curve, all four
points of which are p. -/
theorem C13_counterexample :
    (NewBezierCurve MathLib.axis RandSource.zero 0 { X := 3, Y := 4 } { X := 3, Y := 4 }).1
      = { Start := { X := 3, Y := 4 }, End := { X := 3, Y := 4 },
          Control1 := { X := 3, Y := 4 }, Control2 := { X := 3, Y := 4 } } := by
  simp [NewBezierCurve, MathLib.axis, RandSource.zero]

/-- C13, amended: for every point p, NewBezierCurve(p, p) returns a curve with
Start = End = p; with math.Sqrt(0) = 0 both control points are p as well. -/
theorem C13_NewBezierCurve_degenerate (m : MathLib) (rng : RandSource) (k : Nat) (p : Point) :
    (NewBezierCurve m rng k p p).1.Start = p ∧
    (NewBezierCurve m rng k p p).1.End = p ∧
    (m.Sqrt 0 = 0 →
      (NewBezierCurve m rng k p p).1
        = { Start := p, End := p, Control1 := p, Control2 := p }) := by
  refine ⟨rfl, rfl, ?_⟩
  intro hsqrt
  simp [NewBezierCurve, hsqrt]

/-- C14, counterexample: GeneratePath(0) returns the empty path and GeneratePath(1) a
path of one point. -/
theorem C14_counterexample :
    BezierCurve.sample.GeneratePath 0 = some [] ∧
    (∃ path, BezierCurve.sample.GeneratePath 1 = some path ∧ path.length = 1) := by
  refine ⟨rfl, _, rfl, rfl⟩

/-- C14, amended: for every curve and every n < 2, GeneratePath(n) panics in make when
n is negative, returns the empty path when n = 0, and returns a path of one point when
n = 1. -/
theorem C14_GeneratePath_small (bc : BezierCurve) (n : Int) (hn : n < 2) :
    (n < 0 ∧ bc.GeneratePath n = none) ∨
    (n = 0 ∧ bc.GeneratePath n = some []) ∨
    (n = 1 ∧ ∃ p, bc.GeneratePath n = some [p]) := by
  rcases lt_trichotomy n 0 with h | h | h
  · left
    refine ⟨h, ?_⟩
    unfold BezierCurve.GeneratePath
    rw [if_pos h]
  · right; left
    subst h
    exact ⟨rfl, rfl⟩
  · right; right
    have h1 : n = 1 := by omega
    subst h1
    exact ⟨rfl, _, rfl⟩

/-! ### The delay of a step of MoveMouseBezier -/

theorem tdiv_natAbs_le (a b : Int) : (a.tdiv b).natAbs ≤ a.natAbs := by
  rw [Int.natAbs_tdiv]
  exact Nat.div_le_self _ _

theorem stepDelayOf_general (D n : Int) (ov : Bool)
    (hlo : -2 ^ 63 < 3 * D * Millisecond) (hhi : 3 * D * Millisecond < 2 ^ 63) :
    stepDelayOf { Duration := D, Overshoot := ov, Steps := n } = D.tdiv n * Millisecond ∧
    (wrap64 (D.tdiv n * Millisecond * 3)).tdiv 2 * 2 = D.tdiv n * Millisecond * 3 := by
  have hq := tdiv_natAbs_le D n
  unfold Millisecond at hlo hhi ⊢
  have hq1 : -2 ^ 63 ≤ D.tdiv n ∧ D.tdiv n < 2 ^ 63 := by omega
  have hq2 : -2 ^ 63 ≤ D.tdiv n * 1000000 ∧ D.tdiv n * 1000000 < 2 ^ 63 := by omega
  have hq3 : -2 ^ 63 ≤ D.tdiv n * 1000000 * 3 ∧ D.tdiv n * 1000000 * 3 < 2 ^ 63 := by omega
  constructor
  · unfold stepDelayOf msDuration Millisecond
    simp only []
    rw [wrap64_of_range _ hq1.1 hq1.2, wrap64_of_range _ hq2.1 hq2.2]
  · rw [wrap64_of_range _ hq3.1 hq3.2]
    have e : D.tdiv n * 1000000 * 3 = 2 * (D.tdiv n * 1500000) := by ring
    rw [e, Int.mul_tdiv_cancel_left _ (by norm_num)]
    ring

/-- C20, counterexample: for D = 1000 and n = 20 the step i = 15 satisfies i ≥ 3n/4,
and its delay is the base delay of 50 ms, not 1.5 times the base delay. -/
theorem C20_counterexample :
    (15 : Int) ≥ 3 * 20 / 4 ∧
    pathDelay (stepDelayOf { Duration := 1000, Overshoot := false, Steps := 20 }) 20 15
      = 1000 / 20 * Millisecond ∧
    2 * pathDelay (stepDelayOf { Duration := 1000, Overshoot := false, Steps := 20 }) 20 15
      ≠ 3 * (1000 / 20 * Millisecond) := by
  decide

/-- C20, amended: for every duration D (3 * D ms being inside the 64-bit nanosecond
range) and every n ≥ 1, the base delay is (D div n) ms, and the delay of step i is 1.5
times the base delay when i < n/4 or i > 3n/4 (integer quotients) and exactly the base
delay for every other step. -/
theorem C20_pathDelay_cases (D n i : Int) (ov : Bool) (hn : 1 ≤ n)
    (hlo : -2 ^ 63 < 3 * D * Millisecond) (hhi : 3 * D * Millisecond < 2 ^ 63) :
    stepDelayOf { Duration := D, Overshoot := ov, Steps := n } = D.tdiv n * Millisecond ∧
    (i < n / 4 ∨ i > n * 3 / 4 →
      2 * pathDelay (stepDelayOf { Duration := D, Overshoot := ov, Steps := n }) n i
        = 3 * (D.tdiv n * Millisecond)) ∧
    (¬ (i < n / 4 ∨ i > n * 3 / 4) →
      pathDelay (stepDelayOf { Duration := D, Overshoot := ov, Steps := n }) n i
        = D.tdiv n * Millisecond) := by
  obtain ⟨hsd, hboost⟩ := stepDelayOf_general D n ov hlo hhi
  have hq1 : n.tdiv 4 = n / 4 := Int.tdiv_eq_ediv (by omega) (by norm_num)
  have hq3 : (n * 3).tdiv 4 = n * 3 / 4 := Int.tdiv_eq_ediv (by omega) (by norm_num)
  refine ⟨hsd, ?_, ?_⟩
  · intro h
    unfold pathDelay
    rw [hq1, hq3, if_pos h, hsd]
    linarith
  · intro h
    unfold pathDelay
    rw [hq1, hq3, if_neg h, hsd]

/-! ### getTypoChar -/

theorem lookup_eq_none_of_not_key (l : List (Int × List Int)) (key : Int)
    (h : ∀ p ∈ l, p.1 ≠ key) : l.lookup key = none := by
  induction l with
  | nil => rfl
  | cons p rest ih =>
    obtain ⟨a, b⟩ := p
    have hne : key ≠ a := fun e => h (a, b) (List.mem_cons_self _ _) e.symm
    have hb : (key == a) = false := by simpa using hne
    simp only [List.lookup, hb]
    exact ih (fun q hq => h q (List.mem_cons_of_mem _ hq))

theorem typoMap_keys : ∀ p ∈ typoMap, 97 ≤ p.1 ∧ p.1 ≤ 122 := by
  decide

theorem typoMap_values : ∀ p ∈ typoMap, ∀ t ∈ p.2, 97 ≤ t ∧ t ≤ 122 := by
  decide

theorem typoMap_lookup_letter (c : Int) (h1 : 97 ≤ c) (h2 : c ≤ 122) :
    ∃ typos, typoMap.lookup c = some typos := by
  have hc : c = 97 ∨ c = 98 ∨ c = 99 ∨ c = 100 ∨ c = 101 ∨ c = 102 ∨ c = 103 ∨ c = 104 ∨
      c = 105 ∨ c = 106 ∨ c = 107 ∨ c = 108 ∨ c = 109 ∨ c = 110 ∨ c = 111 ∨ c = 112 ∨
      c = 113 ∨ c = 114 ∨ c = 115 ∨ c = 116 ∨ c = 117 ∨ c = 118 ∨ c = 119 ∨ c = 120 ∨
      c = 121 ∨ c = 122 := by omega
  rcases hc with h | h | h | h | h | h | h | h | h | h | h | h | h | h | h | h | h | h | h |
    h | h | h | h | h | h | h <;> subst h <;> exact ⟨_, rfl⟩

theorem typoMap_lookup_none (z : Int) (h : z < 97 ∨ 122 < z) : typoMap.lookup z = none := by
  apply lookup_eq_none_of_not_key
  intro p hp e
  have := typoMap_keys p hp
  omega

theorem utf8FirstByte_not_letter (y : Int) (h : y < 97 ∨ 122 < y) :
    utf8FirstByte y < 97 ∨ 122 < utf8FirstByte y := by
  unfold utf8FirstByte
  split
  · right; norm_num
  · rename_i hv
    have hv2 : validRune y = true := by simpa using hv
    simp only [validRune, decide_eq_true_eq] at hv2
    split
    · exact h
    · split
      · right; omega
      · split
        · right; omega
        · right; omega

theorem lowerFirstByte_not_key (u : Unicode) (char : Int)
    (h : typoMap.lookup (lowerRune u char) = none) :
    typoMap.lookup (lowerFirstByte u char) = none := by
  have hz : lowerRune u char < 97 ∨ 122 < lowerRune u char := by
    by_contra hc
    obtain ⟨typos, ht⟩ := typoMap_lookup_letter (lowerRune u char) (by omega) (by omega)
    rw [ht] at h
    cases h
  unfold lowerRune at hz
  unfold lowerFirstByte
  dsimp only at hz ⊢
  generalize (if validRune char = true then char else 0xFFFD) = r at hz ⊢
  by_cases hlt : r < 0x80
  · rw [if_pos hlt] at hz ⊢
    exact typoMap_lookup_none _ hz
  · rw [if_neg hlt] at hz ⊢
    exact typoMap_lookup_none _ (utf8FirstByte_not_letter _ hz)

theorem index_mem (l : List Int) (i x : Int) (h : index l i = some x) : x ∈ l := by
  unfold index at h
  split at h
  · cases h
  · exact List.getElem?_mem h

theorem rune_values : rune 'A' = 65 ∧ rune 'Z' = 90 ∧ rune 'a' = 97 ∧ rune 'z' = 122 := by
  decide

theorem upperFirstByte_letter (u : Unicode) (t : Int) (h1 : 97 ≤ t) (h2 : t ≤ 122) :
    upperFirstByte u t = t - 32 := by
  obtain ⟨hA, hZ, ha, hz⟩ := rune_values
  have hv : validRune t = true := by
    simp only [validRune, decide_eq_true_eq]
    omega
  unfold upperFirstByte
  simp only [hv, if_true, ha, hz, hA]
  rw [if_pos (by omega), if_pos ⟨h1, h2⟩]
  omega

theorem lowerFirstByte_ascii (u : Unicode) (c : Int) (h0 : 0 ≤ c) (h1 : c < 128) :
    lowerFirstByte u c = lowerRune u c := by
  have hv : validRune c = true := by
    simp only [validRune, decide_eq_true_eq]
    omega
  unfold lowerFirstByte lowerRune
  simp only [hv, if_true]
  rw [if_pos h1, if_pos h1]

theorem getTypoChar_some (u : Unicode) (rng : RandSource) (k : Nat) (char : Int)
    (typos : List Int) (h : typoMap.lookup (lowerFirstByte u char) = some typos) :
    ∃ t, t ∈ typos ∧ getTypoChar u rng k char
      = some (if rune 'A' ≤ char ∧ char ≤ rune 'Z' then upperFirstByte u t else t, k + 1) := by
  have hpos : (0 : Int) < (typos.length : Int) := by
    exact_mod_cast typoMap_entries_nonempty _ (lookup_mem _ _ _ h)
  obtain ⟨h0, h1⟩ := rng.intn_range k _ hpos
  obtain ⟨x, hx⟩ := index_in_range typos _ h0 h1
  refine ⟨x, index_mem _ _ _ hx, ?_⟩
  unfold getTypoChar
  dsimp only
  rw [h]
  simp only [RandSource.Intn, if_neg (not_le.mpr hpos), hx]
  split <;> rfl

theorem getTypoChar_none (u : Unicode) (rng : RandSource) (k : Nat) (char : Int)
    (h : typoMap.lookup (lowerFirstByte u char) = none) :
    ∃ w, w ∈ nearby ∧ getTypoChar u rng k char = some (w, k + 1) := by
  have hpos : (0 : Int) < (nearby.length : Int) := by decide
  obtain ⟨h0, h1⟩ := rng.intn_range k _ hpos
  obtain ⟨x, hx⟩ := index_in_range nearby _ h0 h1
  refine ⟨x, index_mem _ _ _ hx, ?_⟩
  unfold getTypoChar
  dsimp only
  rw [h]
  simp only [RandSource.Intn, if_neg (not_le.mpr hpos), hx]

/-- C16: for every ASCII letter c and every random draw, getTypoChar(c) is a member t of
the adjacency-table entry of the lower-case form of c, returned as t itself when c is
lower case and as the upper-case letter of t when c is upper case; for every character
whose lower-case form is not a key of the table, getTypoChar returns one of the vowels
a, e, i, o, u. -/
theorem C16_getTypoChar_table (u : Unicode) (rng : RandSource) (k : Nat) (c : Int) :
    (rune 'a' ≤ c ∧ c ≤ rune 'z' →
      lowerRune u c = c ∧
      ∃ typos t, typoMap.lookup (lowerRune u c) = some typos ∧ t ∈ typos ∧
        getTypoChar u rng k c = some (t, k + 1) ∧ rune 'a' ≤ t ∧ t ≤ rune 'z') ∧
    (rune 'A' ≤ c ∧ c ≤ rune 'Z' →
      lowerRune u c = c + (rune 'a' - rune 'A') ∧
      ∃ typos t, typoMap.lookup (lowerRune u c) = some typos ∧ t ∈ typos ∧
        getTypoChar u rng k c = some (t - (rune 'a' - rune 'A'), k + 1) ∧
        rune 'a' ≤ t ∧ t ≤ rune 'z') ∧
    (typoMap.lookup (lowerRune u c) = none →
      ∃ w, w ∈ nearby ∧ getTypoChar u rng k c = some (w, k + 1)) := by
  obtain ⟨hA, hZ, ha, hz⟩ := rune_values
  rw [hA, hZ, ha, hz]
  refine ⟨?_, ?_, ?_⟩
  · rintro ⟨h1, h2⟩
    have hv : validRune c = true := by
      simp only [validRune, decide_eq_true_eq]; omega
    have hl : lowerRune u c = c := by
      unfold lowerRune
      simp only [hv, if_true, hA, hZ, ha]
      rw [if_pos (by omega), if_neg (by omega)]
    obtain ⟨typos, ht⟩ := typoMap_lookup_letter c h1 h2
    have hfb : typoMap.lookup (lowerFirstByte u c) = some typos := by
      rw [lowerFirstByte_ascii u c (by omega) (by omega), hl, ht]
    obtain ⟨t, htm, hg⟩ := getTypoChar_some u rng k c typos hfb
    have hrange := typoMap_values _ (lookup_mem _ _ _ ht) t htm
    rw [hA, hZ, if_neg (by omega)] at hg
    exact ⟨hl, typos, t, by rw [hl]; exact ht, htm, hg, hrange.1, hrange.2⟩
  · rintro ⟨h1, h2⟩
    have hv : validRune c = true := by
      simp only [validRune, decide_eq_true_eq]; omega
    have hl : lowerRune u c = c + (97 - 65) := by
      unfold lowerRune
      simp only [hv, if_true, hA, hZ, ha]
      rw [if_pos (by omega), if_pos (by omega)]
    obtain ⟨typos, ht⟩ := typoMap_lookup_letter (c + (97 - 65)) (by omega) (by omega)
    have hfb : typoMap.lookup (lowerFirstByte u c) = some typos := by
      rw [lowerFirstByte_ascii u c (by omega) (by omega), hl, ht]
    obtain ⟨t, htm, hg⟩ := getTypoChar_some u rng k c typos hfb
    have hrange := typoMap_values _ (lookup_mem _ _ _ ht) t htm
    rw [hA, hZ, if_pos ⟨h1, h2⟩, upperFirstByte_letter u t hrange.1 hrange.2] at hg
    exact ⟨hl, typos, t, by rw [hl]; exact ht, htm, hg, hrange.1, hrange.2⟩
  · intro h
    exact getTypoChar_none u rng k c (lowerFirstByte_not_key u c h)

/-! ### Fingerprint -/

theorem indexAt_in_range {α : Type} (l : List α) (i : Int) (h0 : 0 ≤ i) (h1 : i < l.length) :
    ∃ x, indexAt l i = some x ∧ x ∈ l := by
  have hlt : i.toNat < l.length := by omega
  refine ⟨l[i.toNat], ?_, List.getElem_mem _⟩
  unfold indexAt
  rw [if_neg (by omega)]
  exact List.getElem?_eq_getElem hlt

theorem NewRandomFingerprintConfig_eq (rng : RandSource) (k : Nat) :
    ∃ userAgent viewport, userAgent ∈ UserAgents ∧ viewport ∈ CommonViewports ∧
      NewRandomFingerprintConfig rng k =
        some ({ UserAgent := userAgent
                Viewport := some { Width := viewport.1 + rng.intn (k + 2) 100 - 50
                                   Height := viewport.2 + rng.intn (k + 3) 100 - 50
                                   DeviceScaleFactor := 1, Mobile := false }
                Language := "en-US,en;q=0.9"
                Timezone := "America/New_York"
                WebRTCPolicy := "default_public_interface_only"
                DisableWebGL := false
                CanvasNoise := true }, k + 4) := by
  have hu : (0 : Int) < (UserAgents.length : Int) := by decide
  have hv : (0 : Int) < (CommonViewports.length : Int) := by decide
  obtain ⟨a0, a1⟩ := rng.intn_range k _ hu
  obtain ⟨b0, b1⟩ := rng.intn_range (k + 1) _ hv
  obtain ⟨ua, hua, huam⟩ := indexAt_in_range UserAgents _ a0 a1
  obtain ⟨vp, hvp, hvpm⟩ := indexAt_in_range CommonViewports _ b0 b1
  refine ⟨ua, vp, huam, hvpm, ?_⟩
  unfold NewRandomFingerprintConfig
  simp only [hua, hvp]

/-- C17: for every random draw, NewRandomFingerprintConfig returns a profile whose
UserAgent is a member of UserAgents, whose viewport width and height are within 50 px
of the width and height of one entry of CommonViewports, and whose language and
timezone are "en-US,en;q=0.9" and "America/New_York". -/
theorem C17_NewRandomFingerprintConfig_profile (rng : RandSource) (k : Nat) :
    ∃ cfg vp entry, NewRandomFingerprintConfig rng k = some (cfg, k + 4) ∧
      cfg.UserAgent ∈ UserAgents ∧
      entry ∈ CommonViewports ∧ cfg.Viewport = some vp ∧
      |vp.Width - entry.1| ≤ 50 ∧ |vp.Height - entry.2| ≤ 50 ∧
      cfg.Language = "en-US,en;q=0.9" ∧ cfg.Timezone = "America/New_York" := by
  obtain ⟨ua, entry, hua, hentry, h⟩ := NewRandomFingerprintConfig_eq rng k
  obtain ⟨w0, w1⟩ := rng.intn_range (k + 2) 100 (by norm_num)
  obtain ⟨h0, h1⟩ := rng.intn_range (k + 3) 100 (by norm_num)
  refine ⟨_, _, entry, h, hua, hentry, rfl, ?_, ?_, rfl, rfl⟩
  · rw [abs_le]; constructor <;> (simp only []; omega)
  · rw [abs_le]; constructor <;> (simp only []; omega)

/-- C18, counterexample: no random draw makes NewRandomFingerprintConfig return a
profile with the canvas-noise flag disabled. -/
theorem C18_counterexample :
    ¬ ∃ (rng : RandSource) (k : Nat) (r : FingerprintConfig × Nat),
      NewRandomFingerprintConfig rng k = some r ∧ r.1.CanvasNoise = false := by
  rintro ⟨rng, k, r, hr, hc⟩
  obtain ⟨ua, entry, -, -, h⟩ := NewRandomFingerprintConfig_eq rng k
  rw [h] at hr
  cases hr
  cases hc

/-- C18, amended: for every random draw, NewRandomFingerprintConfig returns a profile
with CanvasNoise true and DisableWebGL false (WebGL masking enabled). -/
theorem C18_flags_fixed (rng : RandSource) (k : Nat) :
    ∃ cfg, NewRandomFingerprintConfig rng k = some (cfg, k + 4) ∧
      cfg.CanvasNoise = true ∧ cfg.DisableWebGL = false := by
  obtain ⟨ua, entry, -, -, h⟩ := NewRandomFingerprintConfig_eq rng k
  exact ⟨_, h, rfl, rfl⟩

set_option maxRecDepth 100000 in
theorem stealthScript_contents (cn dw : Bool) :
    (∀ f ∈ baseFragments, occursIn f (stealthScript cn dw) = true) ∧
    occursIn canvasNoiseFragment (stealthScript cn dw) = cn ∧
    occursIn webglFragment (stealthScript cn dw) = !dw := by
  cases cn <;> cases dw <;> decide

/-- C19: for every profile, the script passed to EvalOnNewDocument is the
immediately-invoked function wrapper around a body that contains every base fragment
(webdriver removal, plugin list, languages override, permissions-query patch, chrome
runtime stub, toString disguise), contains the canvas noise fragment if and only if
CanvasNoise is true, and contains the WebGL override fragment if and only if
DisableWebGL is false. -/
theorem C19_injectStealthScripts_script (page : Page) (config : FingerprintConfig) :
    (injectStealthScripts page config).1
      = "(() => \x7b\n" ++ stealthScript config.CanvasNoise config.DisableWebGL ++ "\n\x7d)();" ∧
    (∀ f ∈ baseFragments,
      occursIn f (stealthScript config.CanvasNoise config.DisableWebGL) = true) ∧
    (occursIn canvasNoiseFragment (stealthScript config.CanvasNoise config.DisableWebGL) = true
      ↔ config.CanvasNoise = true) ∧
    (occursIn webglFragment (stealthScript config.CanvasNoise config.DisableWebGL) = true
      ↔ config.DisableWebGL = false) := by
  obtain ⟨hb, hc, hw⟩ := stealthScript_contents config.CanvasNoise config.DisableWebGL
  refine ⟨rfl, hb, ?_, ?_⟩
  · rw [hc]
  · rw [hw]; simp

/-! ### ClearSession -/

theorem ClearSession_absent {Data : Type} (fs : FileSystem Data) (filename : String)
    (h : fs.files filename = .absent) : ClearSession fs filename = (fs, .ok) := by
  simp [ClearSession, FileSystem.Remove, h]

theorem ClearSession_ok_absent {Data : Type} (fs : FileSystem Data) (filename : String)
    (h : (ClearSession fs filename).2 = .ok) :
    (ClearSession fs filename).1.files filename = .absent := by
  unfold ClearSession FileSystem.Remove at h ⊢
  cases hf : fs.files filename with
  | absent => simp [hf]
  | unreadable =>
    by_cases hr : fs.removeFails filename = true
    · simp [hf, hr] at h
    · simp [hf, hr]
  | file data =>
    by_cases hr : fs.removeFails filename = true
    · simp [hf, hr] at h
    · simp [hf, hr]

theorem IsSessionValid_absent {Data : Type} (codec : JsonCodec Data) (fs : FileSystem Data)
    (filename : String) (now : Int) (h : fs.files filename = .absent) :
    IsSessionValid codec fs filename now = false := by
  simp [IsSessionValid, FileSystem.statNotExist, h]

/-- C15, counterexample: when the session file exists and os.Remove fails, ClearSession
returns an error and IsSessionValid on that location is still true. -/
theorem C15_counterexample :
    (ClearSession FileSystem.locked "session.json").2
      = .error "failed to remove session file" ∧
    IsSessionValid JsonCodec.sample (ClearSession FileSystem.locked "session.json").1
      "session.json" Hour = true := by
  have h : ClearSession FileSystem.locked "session.json"
      = (FileSystem.locked, .error "failed to remove session file") := by
    simp [ClearSession, FileSystem.Remove, FileSystem.locked, FileSystem.stored]
  rw [h]
  refine ⟨rfl, ?_⟩
  simp [IsSessionValid, FileSystem.statNotExist, FileSystem.ReadFile, FileSystem.locked,
    FileSystem.stored, JsonCodec.sample, Session.sample, timeSince, minDuration, maxDuration,
    Hour]

theorem ClearSession_twice {Data : Type} (fs : FileSystem Data) (filename : String) :
    ClearSession (ClearSession fs filename).1 filename = ClearSession fs filename := by
  by_cases hok : (ClearSession fs filename).2 = .ok
  · have ha := ClearSession_ok_absent fs filename hok
    rw [ClearSession_absent _ filename ha]
    exact Prod.ext rfl hok.symm
  · have hsame : (ClearSession fs filename).1 = fs := by
      unfold ClearSession FileSystem.Remove at hok ⊢
      cases hf : fs.files filename with
      | absent => simp [hf]
      | unreadable =>
        by_cases hr : fs.removeFails filename = true
        · simp [hf, hr]
        · simp [hf, hr] at hok
      | file data =>
        by_cases hr : fs.removeFails filename = true
        · simp [hf, hr]
        · simp [hf, hr] at hok
    rw [hsame]

theorem ClearSession_failed {Data : Type} (fs : FileSystem Data) (filename : String)
    (hf : fs.files filename ≠ .absent) (hr : fs.removeFails filename = true) :
    fs.Remove filename = .failed ∧
    ClearSession fs filename = (fs, .error "failed to remove session file") := by
  unfold ClearSession FileSystem.Remove
  cases h : fs.files filename with
  | absent => exact absurd h hf
  | unreadable => simp [hr]
  | file data => simp [hr]

/-- C15, amended: ClearSession succeeds when the session file is absent and leaves the
storage as it is; applying ClearSession twice ends the same way and leaves the same
state as applying it once; whenever a call of ClearSession succeeds the file is
absent afterwards, a second call succeeds too, and IsSessionValid on that location is
false; and when os.Remove fails on an existing file (an error other than not-exist),
ClearSession returns the error "failed to remove session file" and leaves the storage,
the file included, as it was. -/
theorem C15_ClearSession_idempotent {Data : Type} (codec : JsonCodec Data)
    (fs : FileSystem Data) (filename : String) (now : Int) :
    (fs.files filename = .absent → ClearSession fs filename = (fs, .ok)) ∧
    ClearSession (ClearSession fs filename).1 filename = ClearSession fs filename ∧
    ((ClearSession fs filename).2 = .ok →
      (ClearSession fs filename).1.files filename = .absent ∧
      ClearSession (ClearSession fs filename).1 filename
        = ((ClearSession fs filename).1, .ok) ∧
      IsSessionValid codec (ClearSession fs filename).1 filename now = false) ∧
    (fs.files filename ≠ .absent → fs.removeFails filename = true →
      ClearSession fs filename = (fs, .error "failed to remove session file") ∧
      (ClearSession fs filename).1.files filename = fs.files filename ∧
      IsSessionValid codec (ClearSession fs filename).1 filename now
        = IsSessionValid codec fs filename now) := by
  refine ⟨ClearSession_absent fs filename, ClearSession_twice fs filename, ?_, ?_⟩
  · intro h
    have ha := ClearSession_ok_absent fs filename h
    exact ⟨ha, ClearSession_absent _ filename ha, IsSessionValid_absent codec _ filename now ha⟩
  · intro hf hr
    have h := (ClearSession_failed fs filename hf hr).2
    rw [h]
    exact ⟨rfl, rfl, rfl⟩

/-! ### The delay of a key in TypeHumanLike -/

theorem delayStep_eq_baseDelayStep (rng : RandSource) (opts : TypingOptions) (inBurst : Bool)
    (char : Int) (k : Nat) :
    delayStep rng opts inBurst char k =
      match baseDelayStep rng opts inBurst k with
      | none => none
      | some v =>
        if char = rune ' ' then some (truncQ ((v.1 : ℚ) * opts.WordPauseMultiplier), v.2)
        else some v := by
  rfl

theorem baseDelayStep_wraps :
    baseDelayStep RandSource.top
        { MinDelay := 10000000000000, MaxDelay := 40000000000000, TypoProbability := 5 / 100,
          WordPauseMultiplier := 2, BurstProbability := 15 / 100 } true 0
      = some (-3446744073710551616, 1) := by
  decide

theorem typoMap_key_not_value : ∀ p ∈ typoMap, p.1 ∉ p.2 := by
  decide

theorem nearby_values : ∀ w ∈ nearby, 97 ≤ w ∧ w ≤ 122 := by
  decide

theorem lowerFirstByte_lower (u : Unicode) (c : Int) (h1 : 97 ≤ c) (h2 : c ≤ 122) :
    lowerFirstByte u c = c := by
  obtain ⟨hA, hZ, ha, hz⟩ := rune_values
  have hv : validRune c = true := by
    simp only [validRune, decide_eq_true_eq]; omega
  unfold lowerFirstByte
  simp only [hv, if_true, hA, hZ, ha]
  rw [if_pos (by omega), if_neg (by omega)]

theorem lowerFirstByte_upper (u : Unicode) (c : Int) (h1 : 65 ≤ c) (h2 : c ≤ 90) :
    lowerFirstByte u c = c + 32 := by
  obtain ⟨hA, hZ, ha, hz⟩ := rune_values
  have hv : validRune c = true := by
    simp only [validRune, decide_eq_true_eq]; omega
  unfold lowerFirstByte
  simp only [hv, if_true, hA, hZ, ha]
  rw [if_pos (by omega), if_pos (by omega)]
  omega

/-- Claim C22: for every rune c and every random draw, getTypoChar(c) returns a rune
different from c. -/
theorem C22_getTypoChar_differs (u : Unicode) (rng : RandSource) (k : Nat) (c : Int) :
    ∃ w, getTypoChar u rng k c = some (w, k + 1) ∧ w ≠ c := by
  obtain ⟨hA, hZ, ha, hz⟩ := rune_values
  cases hl : typoMap.lookup (lowerFirstByte u c) with
  | none =>
    obtain ⟨w, hw, hg⟩ := getTypoChar_none u rng k c hl
    refine ⟨w, hg, ?_⟩
    have hwr := nearby_values w hw
    intro e
    subst e
    obtain ⟨typos, ht⟩ := typoMap_lookup_letter w hwr.1 hwr.2
    rw [lowerFirstByte_lower u w hwr.1 hwr.2, ht] at hl
    cases hl
  | some typos =>
    obtain ⟨t, htm, hg⟩ := getTypoChar_some u rng k c typos hl
    have hmem := lookup_mem _ _ _ hl
    have htr := typoMap_values _ hmem t htm
    have hkv := typoMap_key_not_value _ hmem
    rw [hA, hZ] at hg
    by_cases hup : 65 ≤ c ∧ c ≤ 90
    · rw [if_pos hup, upperFirstByte_letter u t htr.1 htr.2] at hg
      refine ⟨t - 32, hg, ?_⟩
      intro e
      have hkey : lowerFirstByte u c = t := by
        rw [lowerFirstByte_upper u c hup.1 hup.2]; omega
      rw [hkey] at hkv
      exact hkv htm
    · rw [if_neg hup] at hg
      refine ⟨t, hg, ?_⟩
      intro e
      subst e
      rw [lowerFirstByte_lower u t htr.1 htr.2] at hkv
      exact hkv htm

/-! ### The key events of TypeHumanLike -/

/-- Claim C23, failing input: for a session file that decodes to a cookie list holding one
null entry with a timestamp one hour old, IsSessionValid is true while LoadSession panics
on the nil cookie before it reaches the SetCookies call of the driver. -/
theorem C23_null_cookie_panics :
    IsSessionValid JsonCodec.sample FileSystem.nullStored "session.json" Hour = true ∧
    (LoadSession JsonCodec.sample Page.reliable FileSystem.nullStored "session.json"
      Hour).outcome = .panic "nil pointer dereference" := by
  constructor
  · simp [IsSessionValid, FileSystem.statNotExist, FileSystem.ReadFile, FileSystem.nullStored,
      JsonCodec.sample, Session.nullCookie, timeSince, minDuration, maxDuration, Hour]
  · simp [LoadSession, FileSystem.statNotExist, FileSystem.ReadFile, FileSystem.nullStored,
      JsonCodec.sample, Session.nullCookie, timeSince, minDuration, maxDuration, Hour,
      cookieParams]

/-! ### The random-range panic in TypeHumanLike -/

theorem typoStep_no_panic (u : Unicode) (rng : RandSource) (page : Page) (opts : TypingOptions)
    (char : Int) (k : Nat) (tr : List Action) (msg : String) :
    (typoStep u rng page opts char k tr).2.1 ≠ .panic msg := by
  obtain ⟨w, hw⟩ := getTypoChar_returns u rng (k + 1) char
  unfold typoStep
  simp only [hw]
  split
  · split
    · intro h; cases h
    · split
      · intro h; cases h
      · intro h; cases h
  · intro h; cases h

theorem typeRunes_no_panic (u : Unicode) (rng : RandSource) (page : Page) (opts : TypingOptions)
    (hmin : 0 < opts.MinDelay) (hlt : opts.MinDelay < opts.MaxDelay)
    (hmax : opts.MaxDelay < 2 ^ 63) (msg : String) :
    ∀ (runes : List Int) (inBurst : Bool) (k : Nat) (tr : List Action),
      (typeRunes u rng page opts runes inBurst k tr).2 ≠ .panic msg := by
  intro runes
  induction runes with
  | nil =>
    intro inBurst k tr h
    simp [typeRunes] at h
  | cons char rest ih =>
    intro inBurst k tr
    obtain ⟨d, hd⟩ := delayStep_returns rng opts hmin hlt hmax
      (burstStep rng opts inBurst char k).1 char (burstStep rng opts inBurst char k).2
    simp only [typeRunes, hd]
    split
    · split
      · intro h; cases h
      · exact ih _ _ _
    · exact typoStep_no_panic u rng page opts char d.2 tr msg

/-- Claim C24: for every text and typing options with 0 < MinDelay < MaxDelay (nil options
standing for the defaults 50 and 200), TypeHumanLike never ends in a panic, the delay
draws and getTypoChar always return, and every argument passed to rand.Intn is strictly
positive: MinDelay, MaxDelay - MinDelay, the length of every adjacency-table entry and of
the vowel list, and the constants 300 and 100. -/
theorem C24_no_random_range_panic (u : Unicode) (rng : RandSource) (k : Nat) (page : Page)
    (runes : List Int) (opts : Option TypingOptions)
    (hmin : 0 < (opts.getD DefaultTypingOptions).MinDelay)
    (hlt : (opts.getD DefaultTypingOptions).MinDelay < (opts.getD DefaultTypingOptions).MaxDelay)
    (hmax : (opts.getD DefaultTypingOptions).MaxDelay < 2 ^ 63) :
    (∀ msg, (TypeHumanLike u rng k page runes opts).2 ≠ .panic msg) ∧
    (∀ inBurst char j, delayStep rng (opts.getD DefaultTypingOptions) inBurst char j ≠ none) ∧
    (∀ char j, getTypoChar u rng j char ≠ none) ∧
    0 < (opts.getD DefaultTypingOptions).MinDelay ∧
    0 < wrap64 ((opts.getD DefaultTypingOptions).MaxDelay
      - (opts.getD DefaultTypingOptions).MinDelay) ∧
    (∀ p ∈ typoMap, (0 : Int) < (p.2.length : Int)) ∧
    (0 : Int) < (nearby.length : Int) ∧
    (0 : Int) < 300 ∧ (0 : Int) < 100 := by
  refine ⟨?_, ?_, ?_, hmin, ?_, ?_, by decide, by norm_num, by norm_num⟩
  · intro msg
    exact typeRunes_no_panic u rng page _ hmin hlt hmax msg runes false k []
  · intro inBurst char j h
    obtain ⟨d, hd⟩ := delayStep_returns rng _ hmin hlt hmax inBurst char j
    rw [hd] at h
    cases h
  · intro char j h
    obtain ⟨w, hw⟩ := getTypoChar_returns u rng j char
    rw [hw] at h
    cases h
  · rw [wrap64_of_range _ (by omega) (by omega)]
    omega
  · intro p hp
    exact_mod_cast typoMap_entries_nonempty p hp

/-! ### The default options of MoveMouseBezier -/

theorem movePath_no_panic (page : Page) (sd len : Int) (msg : String) :
    ∀ (ps : List Point) (i : Int) (tr : List Action),
      (movePath page sd len ps i tr).2 ≠ .panic msg := by
  intro ps
  induction ps with
  | nil => intro i tr h; simp [movePath] at h
  | cons p rest ih =>
    intro i tr
    simp only [movePath]
    split
    · intro h; cases h
    · exact ih _ _

theorem DefaultMoveMouseOptions_ranges (rng : RandSource) (k : Nat) :
    20 ≤ (DefaultMoveMouseOptions rng k).1.Steps ∧ (DefaultMoveMouseOptions rng k).1.Steps ≤ 49 ∧
    300 ≤ (DefaultMoveMouseOptions rng k).1.Duration ∧
    (DefaultMoveMouseOptions rng k).1.Duration ≤ 799 := by
  obtain ⟨d0, d1⟩ := rng.intn_range k 500 (by norm_num)
  obtain ⟨s0, s1⟩ := rng.intn_range (k + 2) 30 (by norm_num)
  simp only [DefaultMoveMouseOptions]
  omega

/-- Claim C25: for every random stream the options of DefaultMoveMouseOptions have Steps
between 20 and 49 and Duration between 300 and 799, so that in MoveMouseBezier the divisor
Steps and the divisor Steps - 1 of the parameter t are not zero, the sampled path has at
least 2 points, the base per-step delay is between 6 and 39 ms, and the call does not
panic. -/
theorem C25_default_options_safe (m : MathLib) (rng : RandSource) (k : Nat) (page : Page)
    (targetX targetY : ℚ) :
    20 ≤ (DefaultMoveMouseOptions rng k).1.Steps ∧ (DefaultMoveMouseOptions rng k).1.Steps ≤ 49 ∧
    300 ≤ (DefaultMoveMouseOptions rng k).1.Duration ∧
    (DefaultMoveMouseOptions rng k).1.Duration ≤ 799 ∧
    (DefaultMoveMouseOptions rng k).1.Steps ≠ 0 ∧
    (DefaultMoveMouseOptions rng k).1.Steps - 1 ≠ 0 ∧
    (∃ path, (NewBezierCurve m rng (DefaultMoveMouseOptions rng k).2 { X := 500, Y := 500 }
        { X := targetX, Y := targetY }).1.GeneratePath (DefaultMoveMouseOptions rng k).1.Steps
          = some path ∧ 2 ≤ path.length) ∧
    6 * Millisecond ≤ stepDelayOf (DefaultMoveMouseOptions rng k).1 ∧
    stepDelayOf (DefaultMoveMouseOptions rng k).1 ≤ 39 * Millisecond ∧
    ∀ msg, (MoveMouseBezier m rng k page targetX targetY none).2 ≠ .panic msg := by
  obtain ⟨hs0, hs1, hd0, hd1⟩ := DefaultMoveMouseOptions_ranges rng k
  generalize ho : DefaultMoveMouseOptions rng k = o at hs0 hs1 hd0 hd1 ⊢
  have hpath := GeneratePath_eq (NewBezierCurve m rng o.2 { X := 500, Y := 500 }
    { X := targetX, Y := targetY }).1 o.1.Steps (by omega)
  have hq : o.1.Duration.tdiv o.1.Steps = o.1.Duration / o.1.Steps :=
    Int.tdiv_eq_ediv (by omega) (by omega)
  have hq6 : 6 ≤ o.1.Duration / o.1.Steps :=
    Int.le_ediv_of_mul_le (by omega) (by omega)
  have hq39 : o.1.Duration / o.1.Steps < 40 :=
    Int.ediv_lt_of_lt_mul (by omega) (by omega)
  have hsd : stepDelayOf o.1 = o.1.Duration / o.1.Steps * 1000000 := by
    unfold stepDelayOf
    rw [hq]
    exact msDuration_of_range _ (by omega) (by omega)
  have hM : Millisecond = 1000000 := rfl
  refine ⟨hs0, hs1, hd0, hd1, by omega, by omega, ⟨_, hpath, ?_⟩, ?_, ?_, ?_⟩
  · simp only [List.length_map, List.length_range]; omega
  · rw [hsd, hM]; omega
  · rw [hsd, hM]; omega
  · intro msg
    unfold MoveMouseBezier
    simp only [ho, hpath, if_neg (show ¬ o.1.Steps = 0 by omega)]
    split
    · split
      · intro h; cases h
      · intro h; cases h
    · exact movePath_no_panic page _ _ msg _ _ _

/-! ### contains -/

theorem sliceOf_in_range (s : List Nat) (i n : Nat) (h : i + n ≤ s.length) :
    sliceOf s (i : Int) ((i : Int) + (n : Int)) = some ((s.drop i).take n) := by
  unfold sliceOf
  rw [if_pos (by omega)]
  have e1 : ((i : Int)).toNat = i := by omega
  have e2 : ((i : Int) + (n : Int) - (i : Int)).toNat = n := by omega
  rw [e1, e2]

theorem containsMiddleFrom_spec (s substr : List Nat) :
    ∀ (n i : Nat), i + n = s.length - substr.length + 1 → substr.length ≤ s.length →
      ∃ b, containsMiddleFrom s substr n (i : Int) = some b ∧
        (b = true ↔ ∃ j, i ≤ j ∧ j + substr.length ≤ s.length ∧
          (s.drop j).take substr.length = substr) := by
  intro n
  induction n with
  | zero =>
    intro i hi hlen
    refine ⟨false, rfl, ?_⟩
    constructor
    · intro h; cases h
    · rintro ⟨j, h1, h2, -⟩; omega
  | succ n ih =>
    intro i hi hlen
    have hs := sliceOf_in_range s i substr.length (by omega)
    simp only [containsMiddleFrom, hs]
    by_cases hx : (s.drop i).take substr.length = substr
    · rw [if_pos hx]
      exact ⟨true, rfl, ⟨fun _ => ⟨i, le_refl _, by omega, hx⟩, fun _ => rfl⟩⟩
    · rw [if_neg hx]
      obtain ⟨b, hb, hiff⟩ := ih (i + 1) (by omega) hlen
      refine ⟨b, by exact_mod_cast hb, ?_⟩
      rw [hiff]
      constructor
      · rintro ⟨j, h1, h2, h3⟩
        exact ⟨j, by omega, h2, h3⟩
      · rintro ⟨j, h1, h2, h3⟩
        have hne : j ≠ i := by
          intro e; subst e; exact hx h3
        exact ⟨j, by omega, h2, h3⟩

/-- Claim C26: for all strings s and substr, contains(s, substr) returns without a slice
index out of range, and returns true if and only if substr occurs as a contiguous
substring of s. -/
theorem C26_contains_iff_substring (s substr : List Nat) :
    ∃ b, contains s substr = some b ∧ (b = true ↔ occursAsSubstring substr s) := by
  unfold contains occursAsSubstring
  by_cases h1 : (s.length : Int) ≥ (substr.length : Int)
  · rw [if_neg (not_not.mpr h1)]
    by_cases h2 : s = substr
    · rw [if_pos h2]
      refine ⟨true, rfl, fun _ => ⟨0, by subst h2; simp, by subst h2; simp⟩, fun _ => rfl⟩
    · rw [if_neg h2]
      by_cases h3 : (s.length : Int) > (substr.length : Int)
      · rw [if_neg (not_not.mpr h3)]
        have hp := sliceOf_in_range s 0 substr.length (by omega)
        have hq := sliceOf_in_range s (s.length - substr.length) substr.length (by omega)
        have e1 : ((0 : Nat) : Int) + (substr.length : Int) = (substr.length : Int) := by simp
        have e2 : (((s.length - substr.length : Nat)) : Int)
            = (s.length : Int) - (substr.length : Int) := by omega
        have e3 : (s.length : Int) - (substr.length : Int) + (substr.length : Int)
            = (s.length : Int) := by omega
        rw [e1] at hp
        rw [e2, e3] at hq
        simp only [Nat.cast_zero] at hp
        simp only [hp, hq]
        by_cases h4 : (s.drop 0).take substr.length = substr
        · rw [if_pos h4]
          exact ⟨true, rfl, fun _ => ⟨0, by omega, h4⟩, fun _ => rfl⟩
        · rw [if_neg h4]
          by_cases h5 : (s.drop (s.length - substr.length)).take substr.length = substr
          · rw [if_pos h5]
            exact ⟨true, rfl, fun _ => ⟨s.length - substr.length, by omega, h5⟩, fun _ => rfl⟩
          · rw [if_neg h5]
            unfold containsMiddle
            have hn : ((s.length : Int) - (substr.length : Int) + 1).toNat
                = s.length - substr.length + 1 := by omega
            rw [hn]
            obtain ⟨b, hb, hiff⟩ := containsMiddleFrom_spec s substr
              (s.length - substr.length + 1) 0 (by omega) (by omega)
            refine ⟨b, by simpa using hb, ?_⟩
            rw [hiff]
            constructor
            · rintro ⟨j, -, h6, h7⟩; exact ⟨j, h6, h7⟩
            · rintro ⟨j, h6, h7⟩; exact ⟨j, Nat.zero_le _, h6, h7⟩
      · rw [if_pos h3]
        refine ⟨false, rfl, ?_⟩
        constructor
        · intro h; cases h
        · rintro ⟨i, hi, hx⟩
          exfalso
          have hlen : s.length = substr.length := by omega
          have hi0 : i = 0 := by omega
          subst hi0
          apply h2
          rw [← hx, ← hlen]
          simp
  · rw [if_pos h1]
    refine ⟨false, rfl, ?_⟩
    constructor
    · intro h; cases h
    · rintro ⟨i, hi, -⟩
      omega

/-! ### BulkConnect -/

theorem bulkLoop_invariant (opts : ConnectOptions) (alreadySent sendFails : Nat → Bool)
    (hm : 0 < opts.MaxRequestsPerSession) :
    ∀ (profiles : List SearchResult) (i : Nat) (c : BulkCounts),
      c.successCount ≤ opts.MaxRequestsPerSession →
      (bulkLoop opts alreadySent sendFails profiles i c).counts.successCount
        ≤ opts.MaxRequestsPerSession ∧
      (bulkLoop opts alreadySent sendFails profiles i c).counts.total
        ≤ c.total + profiles.length ∧
      ((bulkLoop opts alreadySent sendFails profiles i c).limitReached = false →
        (bulkLoop opts alreadySent sendFails profiles i c).counts.total
          = c.total + profiles.length) ∧
      ∀ c1 ∈ (bulkLoop opts alreadySent sendFails profiles i c).iterations,
        c1.successCount ≤ opts.MaxRequestsPerSession ∧ c1.total ≤ c.total + profiles.length := by
  intro profiles
  induction profiles with
  | nil =>
    intro i c hc
    simp [bulkLoop, hc]
  | cons p rest ih =>
    intro i c hc
    by_cases hlim : opts.MaxRequestsPerSession > 0 ∧ c.successCount ≥ opts.MaxRequestsPerSession
    · simp only [bulkLoop, if_pos hlim, List.length_cons, List.mem_singleton]
      refine ⟨hc, (by push_cast; omega), (fun h => by cases h), ?_⟩
      intro c1 h1
      subst h1
      exact ⟨hc, (by push_cast; omega)⟩
    · have hlt : c.successCount < opts.MaxRequestsPerSession := by
        by_contra hcon
        exact hlim ⟨hm, by omega⟩
      simp only [bulkLoop, if_neg hlim, List.length_cons, List.mem_cons]
      by_cases ha : alreadySent i = true
      · obtain ⟨h1, h2, h3, h4⟩ :=
          ih (i + 1) { c with skippedCount := c.skippedCount + 1 } hc
        simp only [ha, if_true]
        simp only [BulkCounts.total] at h2 h3 h4 ⊢
        refine ⟨h1, (by push_cast; omega), (fun h => by have := h3 h; push_cast; omega), ?_⟩
        rintro c1 (h5 | h5)
        · subst h5; exact ⟨hc, (by push_cast; omega)⟩
        · have := h4 c1 h5
          exact ⟨this.1, (by push_cast; omega)⟩
      · by_cases hs : sendFails i = true
        · obtain ⟨h1, h2, h3, h4⟩ :=
            ih (i + 1) { c with errorCount := c.errorCount + 1 } hc
          simp only [ha, hs, if_true, Bool.false_eq_true, if_false]
          simp only [BulkCounts.total] at h2 h3 h4 ⊢
          refine ⟨h1, (by push_cast; omega), (fun h => by have := h3 h; push_cast; omega), ?_⟩
          rintro c1 (h5 | h5)
          · subst h5; exact ⟨hc, (by push_cast; omega)⟩
          · have := h4 c1 h5
            exact ⟨this.1, (by push_cast; omega)⟩
        · obtain ⟨h1, h2, h3, h4⟩ :=
            ih (i + 1) { c with successCount := c.successCount + 1 } (by simp only []; omega)
          simp only [ha, hs, Bool.false_eq_true, if_false]
          simp only [BulkCounts.total] at h2 h3 h4 ⊢
          refine ⟨h1, (by push_cast; omega), (fun h => by have := h3 h; push_cast; omega), ?_⟩
          rintro c1 (h5 | h5)
          · subst h5; exact ⟨hc, (by push_cast; omega)⟩
          · have := h4 c1 h5
            exact ⟨this.1, (by push_cast; omega)⟩

/-- Claim C27: for every profile list, options with MaxRequestsPerSession = m > 0 and every
outcome of the database checks and send attempts, BulkConnect ends with at most m
successful sends; at the head of every loop iteration and at the end
sent + skipped + errors <= number of profiles, with equality at the end when the loop was
not left through the session limit. -/
theorem C27_BulkConnect_counts (alreadySent sendFails : Nat → Bool)
    (profiles : List SearchResult) (opts : Option ConnectOptions)
    (hm : 0 < (opts.getD DefaultConnectOptions).MaxRequestsPerSession) :
    (BulkConnect alreadySent sendFails profiles opts).counts.successCount
      ≤ (opts.getD DefaultConnectOptions).MaxRequestsPerSession ∧
    (∀ c ∈ (BulkConnect alreadySent sendFails profiles opts).iterations,
      c.successCount + c.skippedCount + c.errorCount ≤ (profiles.length : Int) ∧
      c.successCount ≤ (opts.getD DefaultConnectOptions).MaxRequestsPerSession) ∧
    (BulkConnect alreadySent sendFails profiles opts).counts.successCount
      + (BulkConnect alreadySent sendFails profiles opts).counts.skippedCount
      + (BulkConnect alreadySent sendFails profiles opts).counts.errorCount
      ≤ (profiles.length : Int) ∧
    ((BulkConnect alreadySent sendFails profiles opts).limitReached = false →
      (BulkConnect alreadySent sendFails profiles opts).counts.successCount
        + (BulkConnect alreadySent sendFails profiles opts).counts.skippedCount
        + (BulkConnect alreadySent sendFails profiles opts).counts.errorCount
        = (profiles.length : Int)) := by
  obtain ⟨h1, h2, h3, h4⟩ := bulkLoop_invariant (opts.getD DefaultConnectOptions)
    alreadySent sendFails hm profiles 0
    { successCount := 0, errorCount := 0, skippedCount := 0 } (by simp only []; omega)
  simp only [BulkCounts.total, add_zero, zero_add] at h2 h3 h4
  unfold BulkConnect
  refine ⟨h1, ?_, h2, h3⟩
  intro c hc
  have := h4 c hc
  exact ⟨this.2, this.1⟩

/-! ### Search -/

theorem pagesConcat_succ (pages : SearchPages) (j : Nat) (pageResults : List SearchResult)
    (h : pages.extract (j + 1) = some pageResults) :
    pagesConcat pages (j + 1) = pagesConcat pages j ++ pageResults := by
  unfold pagesConcat
  rw [List.range_succ, List.flatMap_append, List.flatMap_singleton, h]
  rfl

theorem searchLoop_spec (pages : SearchPages) (maxResults : Int) :
    ∀ (fuel done : Nat) (results : List SearchResult),
      maxResults ≤ (results.length : Int) + (fuel : Int) →
      (results.length : Int) ≤ max maxResults 0 →
      results = pagesConcat pages done →
      (∃ out, searchLoop pages maxResults fuel (done + 1) results = some out) ∧
      ∀ rs, searchLoop pages maxResults fuel (done + 1) results = some (.ok rs) →
        (rs.length : Int) ≤ max maxResults 0 ∧
        ∃ j rest, pagesConcat pages j = rs ++ rest := by
  intro fuel
  induction fuel with
  | zero =>
    intro done results hf hlen hres
    have hnot : ¬ ((results.length : Int) < maxResults) := by omega
    simp only [searchLoop, if_neg hnot]
    refine ⟨⟨_, rfl⟩, ?_⟩
    intro rs h
    cases h
    exact ⟨hlen, done, [], by rw [← hres]; simp⟩
  | succ fuel ih =>
    intro done results hf hlen hres
    by_cases hcond : (results.length : Int) < maxResults
    · simp only [searchLoop, if_neg (not_not.mpr hcond)]
      cases hex : pages.extract (done + 1) with
      | none =>
        simp only []
        exact ⟨⟨_, rfl⟩, fun rs h => by cases h⟩
      | some pageResults =>
        have hcat := pagesConcat_succ pages done pageResults hex
        simp only []
        by_cases hempty : pageResults.length = 0
        · rw [if_pos hempty]
          refine ⟨⟨_, rfl⟩, ?_⟩
          intro rs h
          cases h
          exact ⟨hlen, done, [], by rw [← hres]; simp⟩
        · rw [if_neg hempty]
          by_cases henough : ((results ++ pageResults).length : Int) ≥ maxResults
          · rw [if_pos henough]
            refine ⟨⟨_, rfl⟩, ?_⟩
            intro rs h
            cases h
            refine ⟨?_, done + 1, (results ++ pageResults).drop maxResults.toNat, ?_⟩
            · rw [List.length_take]
              have : (min maxResults.toNat (results ++ pageResults).length : Nat)
                  ≤ maxResults.toNat := Nat.min_le_left _ _
              omega
            · rw [hcat, ← hres, List.take_append_drop]
          · rw [if_neg henough]
            have hlen1 : ((results ++ pageResults).length : Int) ≤ max maxResults 0 := by omega
            have hres1 : results ++ pageResults = pagesConcat pages (done + 1) := by
              rw [hcat, ← hres]
            cases hnext : pages.next (done + 1) with
            | none =>
              simp only []
              refine ⟨⟨_, rfl⟩, ?_⟩
              intro rs h
              cases h
              exact ⟨hlen1, done + 1, [], by rw [← hres1]; simp⟩
            | some hasNext =>
              simp only []
              by_cases hn : hasNext = false
              · rw [if_pos hn]
                refine ⟨⟨_, rfl⟩, ?_⟩
                intro rs h
                cases h
                exact ⟨hlen1, done + 1, [], by rw [← hres1]; simp⟩
              · rw [if_neg hn]
                have hpos : 0 < pageResults.length := Nat.pos_of_ne_zero hempty
                have hf1 : maxResults ≤ ((results ++ pageResults).length : Int) + (fuel : Int) := by
                  rw [List.length_append]
                  push_cast at hf ⊢
                  omega
                exact ih (done + 1) (results ++ pageResults) hf1 hlen1 hres1
    · simp only [searchLoop, if_pos hcond]
      refine ⟨⟨_, rfl⟩, ?_⟩
      intro rs h
      cases h
      exact ⟨hlen, done, [], by rw [← hres]; simp⟩

/-- Claim C28: for every maxResults and every sequence of per-page extraction results and
next-page outcomes, Search returns, and when it returns without error its result list has
at most max(maxResults, 0) entries and is a prefix of the concatenation of the extracted
page results in page order. -/
theorem C28_Search_results (pages : SearchPages) (maxResults : Int) :
    (∃ out, Search pages maxResults = some out) ∧
    ∀ results, Search pages maxResults = some (.ok results) →
      (results.length : Int) ≤ max maxResults 0 ∧
      ∃ j rest, pagesConcat pages j = results ++ rest := by
  unfold Search
  by_cases hnav : pages.navigateFails = true
  · rw [if_pos hnav]
    exact ⟨⟨_, rfl⟩, fun rs h => by cases h⟩
  · rw [if_neg hnav]
    by_cases hw : pages.waitLoadFails = true
    · rw [if_pos hw]
      exact ⟨⟨_, rfl⟩, fun rs h => by cases h⟩
    · rw [if_neg hw]
      exact searchLoop_spec pages maxResults maxResults.toNat 0 []
        (by simp only [List.length_nil]; push_cast; omega)
        (by simp only [List.length_nil]; push_cast; omega) rfl

/-! ### Instances of the theorems above at concrete inputs -/

theorem C1_witness :
    (2 : Int) ≤ 5 ∧ ∃ path, BezierCurve.sample.GeneratePath 5 = some path ∧
      path.head? = some BezierCurve.sample.Start ∧
      path.getLast? = some BezierCurve.sample.End :=
  ⟨by decide, C1_GeneratePath_endpoints BezierCurve.sample 5 (by decide)⟩

theorem C10_witness :
    (2 : Int) ≤ 5 ∧ ∃ path, BezierCurve.sample.GeneratePath 5 = some path ∧
      (path.length : Int) = 5 :=
  ⟨by decide, C10_GeneratePath_length BezierCurve.sample 5 (by decide)⟩

theorem C7_witness :
    (MoveMouseBezier MathLib.sample RandSource.zero 0 Page.reliable 100 0
        (some { Duration := 1000, Overshoot := true, Steps := 5 })).2 = .ok ∧
    (moveTargets (MoveMouseBezier MathLib.sample RandSource.zero 0 Page.reliable 100 0
        (some { Duration := 1000, Overshoot := true, Steps := 5 })).1).getLast?
      = some { X := 100, Y := 0 } :=
  C7_MoveMouseBezier_last_position MathLib.sample RandSource.zero 0 Page.reliable 100 0
    { Duration := 1000, Overshoot := true, Steps := 5 } (by decide) (fun _ _ => rfl)

theorem C8_witness :
    ((stepDelays { Duration := 1000, Overshoot := false, Steps := 20 }).length : Int) = 20 ∧
    (stepDelays { Duration := 1000, Overshoot := false, Steps := 20 }).sum
      = 20 * (1000 / 20 * Millisecond) + (20 / 4 + (20 - 1 - 20 * 3 / 4)) * (1000 / 20 * 500000) ∧
    1000 * Millisecond - 20 * Millisecond
      < (stepDelays { Duration := 1000, Overshoot := false, Steps := 20 }).sum ∧
    (stepDelays { Duration := 1000, Overshoot := false, Steps := 20 }).sum * 2
      ≤ 1000 * Millisecond * 3 :=
  C8_step_delay_sum 1000 20 false (by decide) (by decide) (by decide)

theorem C9_witness :
    ∃ (chunks : Int) (fs : List ℚ) (tail : List (ℚ × Int)),
      3 ≤ chunks ∧ chunks ≤ 7 ∧ (fs.length : Int) = chunks ∧
      (∀ f ∈ fs, 0 ≤ f ∧ f < 1) ∧
      (ScrollWithVariation RandSource.zero 0 Page.reliable 300).2 = .ok ∧
      scrolls (ScrollWithVariation RandSource.zero 0 Page.reliable 300).1
        = fs.map (fun f => (round64 (round64 (300 / (chunks : ℚ)) * scrollFactor f), chunks))
          ++ tail ∧
      (tail = [] ∨ tail = [(round64 (-300 * round64 (1 / 10)), 1)]) ∧
      (∀ f ∈ fs, 8 / 10 * (1 - 1 / 2 ^ 51) ≤ scrollFactor f ∧
        scrollFactor f ≤ 12 / 10 * (1 + 1 / 2 ^ 51)) ∧
      8 / 10 * (1 - 1 / 2 ^ 50) * |(300 : ℚ)|
        ≤ (fs.map fun f => |round64 (round64 (300 / (chunks : ℚ)) * scrollFactor f)|).sum ∧
      (fs.map fun f => |round64 (round64 (300 / (chunks : ℚ)) * scrollFactor f)|).sum
        ≤ 12 / 10 * (1 + 1 / 2 ^ 50) * |(300 : ℚ)| ∧
      ∀ f ∈ fs, SignType.sign (round64 (round64 (300 / (chunks : ℚ)) * scrollFactor f))
        = SignType.sign (300 : ℚ) :=
  C9_ScrollWithVariation_chunks RandSource.zero 0 Page.reliable 300 (fun _ _ _ _ => rfl)
    (Or.inr (by norm_num))

theorem C5_witness :
    IsSessionValid JsonCodec.sample
        (SaveSession JsonCodec.sample Page.loggedIn (FileSystem.empty Session) "session.json" 0).1
        "session.json" (0 + Hour) = true ∧
    IsSessionValid JsonCodec.sample
        (SaveSession JsonCodec.sample Page.loggedIn (FileSystem.empty Session) "session.json" 0).1
        "session.json" (0 + 8 * 24 * Hour) = false :=
  ⟨(C5_saved_session_validity JsonCodec.sample Page.loggedIn (FileSystem.empty Session)
      "session.json" 0 Hour rfl
      (by intro cs h; cases h; decide)
      (by intro s data h; cases h; rfl)).1 (by decide) (by decide),
   (C5_saved_session_validity JsonCodec.sample Page.loggedIn (FileSystem.empty Session)
      "session.json" 0 (8 * 24 * Hour) rfl
      (by intro cs h; cases h; decide)
      (by intro s data h; cases h; rfl)).2 (by decide)⟩

theorem C4_witness :
    (LoadSession JsonCodec.sample Page.reliable
        (SaveSession JsonCodec.sample Page.loggedIn (FileSystem.empty Session) "session.json" 0).1
        "session.json" Hour).params
      = some (NetworkCookie.samples.map cookieParam) ∧
    ((NetworkCookie.samples.map cookieParam).length = NetworkCookie.samples.length ∧
      (NetworkCookie.samples.map cookieParam).map
          (fun p => (p.Name, p.Value, p.Domain, p.Path, p.Secure, p.HTTPOnly, p.SameSite, p.Expires))
        = NetworkCookie.samples.map
          (fun c => (c.Name, c.Value, c.Domain, c.Path, c.Secure, c.HTTPOnly, c.SameSite, c.Expires))) ∧
    (LoadSession JsonCodec.sample Page.reliable
        (SaveSession JsonCodec.sample Page.loggedIn (FileSystem.empty Session) "session.json" 0).1
        "session.json" Hour).outcome
      = if Page.reliable.setCookiesFails (NetworkCookie.samples.map cookieParam) then
          .error "failed to set cookies"
        else .ok :=
  C4_save_load_roundtrip JsonCodec.sample Page.loggedIn Page.reliable (FileSystem.empty Session)
    "session.json" 0 Hour NetworkCookie.samples "UA-X" rfl rfl rfl
    (by intro s data h; cases h; rfl) (by decide)

theorem C6_witness :
    LoadSession JsonCodec.sample Page.reliable (FileSystem.empty Session) "session.json" 0
      = { outcome := .error "session file not found", session := none, params := none } ∧
    LoadSession JsonCodec.rejecting Page.reliable FileSystem.stored "session.json" 0
      = { outcome := .error "failed to unmarshal session", session := none, params := none } ∧
    (LoadSession JsonCodec.sample Page.reliable FileSystem.stored "session.json"
        (8 * 24 * Hour)).outcome = .error "session expired (older than 7 days)" ∧
    LoadSession JsonCodec.sample Page.reliable FileSystem.stored "session.json" Hour
      = { outcome := if Page.reliable.setCookiesFails
              ([NetworkCookie.sample "li_at" "v"].map cookieParam) then
            .error "failed to set cookies" else .ok
          session := some Session.sample
          params := some ([NetworkCookie.sample "li_at" "v"].map cookieParam) } :=
  ⟨(C6_LoadSession_cases JsonCodec.sample Page.reliable (FileSystem.empty Session)
      "session.json" 0).1 rfl,
   (C6_LoadSession_cases JsonCodec.rejecting Page.reliable FileSystem.stored
      "session.json" 0).2.1 Session.sample (by simp [FileSystem.stored]) rfl,
   (C6_LoadSession_cases JsonCodec.sample Page.reliable FileSystem.stored
      "session.json" (8 * 24 * Hour)).2.2.1 Session.sample Session.sample
      (by simp [FileSystem.stored]) rfl (by decide),
   (C6_LoadSession_cases JsonCodec.sample Page.reliable FileSystem.stored
      "session.json" Hour).2.2.2 Session.sample Session.sample [NetworkCookie.sample "li_at" "v"]
      (by simp [FileSystem.stored]) rfl (by decide) rfl⟩

theorem sumSquares_diagonal :
    Float64.sumSquares { X := 500, Y := 500 } { X := 800, Y := 900 } = 250000 := by
  have e3 : (800 : ℚ) - 500 = 300 := by norm_num
  have e4 : (900 : ℚ) - 500 = 400 := by norm_num
  have h3 : round64 300 = 300 := by
    have := round64_natCast 300 (by norm_num)
    simpa using this
  have h4 : round64 400 = 400 := by
    have := round64_natCast 400 (by norm_num)
    simpa using this
  have e9 : (300 : ℚ) * 300 = 90000 := by norm_num
  have e16 : (400 : ℚ) * 400 = 160000 := by norm_num
  have h9 : round64 90000 = 90000 := by
    have := round64_natCast 90000 (by norm_num)
    simpa using this
  have h16 : round64 160000 = 160000 := by
    have := round64_natCast 160000 (by norm_num)
    simpa using this
  have e25 : (90000 : ℚ) + 160000 = 250000 := by norm_num
  have h25 : round64 250000 = 250000 := by
    have := round64_natCast 250000 (by norm_num)
    simpa using this
  simp only [Float64.sumSquares, e3, e4, h3, h4, e9, e16, h9, h16, e25, h25]

theorem C11_witness :
    (Float64.NewBezierCurve MathLib.diagonal RandSource.eighth 0 { X := 500, Y := 500 }
        { X := 800, Y := 900 }).1.Start = { X := 500, Y := 500 } ∧
    (Float64.NewBezierCurve MathLib.diagonal RandSource.eighth 0 { X := 500, Y := 500 }
        { X := 800, Y := 900 }).1.End = { X := 800, Y := 900 } ∧
    (20 / 100 * (1 - 1 / 2 ^ 20)) ^ 2 * distSq { X := 800, Y := 900 } { X := 500, Y := 500 }
      ≤ distSq (Float64.NewBezierCurve MathLib.diagonal RandSource.eighth 0 { X := 500, Y := 500 }
        { X := 800, Y := 900 }).1.Control1
          (chordPoint { X := 500, Y := 500 } { X := 800, Y := 900 } (25 / 100)) ∧
    distSq (Float64.NewBezierCurve MathLib.diagonal RandSource.eighth 0 { X := 500, Y := 500 }
        { X := 800, Y := 900 }).1.Control1
        (chordPoint { X := 500, Y := 500 } { X := 800, Y := 900 } (25 / 100))
      ≤ (50 / 100 * (1 + 1 / 2 ^ 20)) ^ 2 * distSq { X := 800, Y := 900 } { X := 500, Y := 500 } ∧
    (20 / 100 * (1 - 1 / 2 ^ 20)) ^ 2 * distSq { X := 800, Y := 900 } { X := 500, Y := 500 }
      ≤ distSq (Float64.NewBezierCurve MathLib.diagonal RandSource.eighth 0 { X := 500, Y := 500 }
        { X := 800, Y := 900 }).1.Control2
          (chordPoint { X := 500, Y := 500 } { X := 800, Y := 900 } (75 / 100)) ∧
    distSq (Float64.NewBezierCurve MathLib.diagonal RandSource.eighth 0 { X := 500, Y := 500 }
        { X := 800, Y := 900 }).1.Control2
        (chordPoint { X := 500, Y := 500 } { X := 800, Y := 900 } (75 / 100))
      ≤ (50 / 100 * (1 + 1 / 2 ^ 20)) ^ 2 * distSq { X := 800, Y := 900 } { X := 500, Y := 500 } ∧
    (20 / 100 * (1 - 1 / 2 ^ 20)) ^ 2 * distSq { X := 800, Y := 900 } { X := 500, Y := 500 }
      ≤ (Float64.offsetMagnitudeOf MathLib.diagonal RandSource.eighth 0 { X := 500, Y := 500 }
        { X := 800, Y := 900 }) ^ 2 ∧
    (Float64.offsetMagnitudeOf MathLib.diagonal RandSource.eighth 0 { X := 500, Y := 500 }
        { X := 800, Y := 900 }) ^ 2
      ≤ (50 / 100 * (1 + 1 / 2 ^ 20)) ^ 2 * distSq { X := 800, Y := 900 } { X := 500, Y := 500 } :=
  C11_NewBezierCurve_controls MathLib.diagonal RandSource.eighth 0 { X := 500, Y := 500 } { X := 800, Y := 900 } 1024
    (by norm_num) (by norm_num) (by norm_num [abs_of_pos]) (by norm_num [abs_of_pos])
    (by norm_num [abs_of_pos]) (by norm_num [abs_of_pos]) (by norm_num [distSq])
    (by rw [sumSquares_diagonal]; norm_num [Float64.chordDistance, MathLib.diagonal, MathLib.constant])
    (by rw [abs_le]; norm_num [MathLib.diagonal, MathLib.constant])
    (by rw [abs_le]; norm_num [MathLib.diagonal, MathLib.constant])

theorem C12_witness :
    distSq (Float64.CalculatePoint MathLib.diagonal (Float64.NewBezierCurve MathLib.diagonal RandSource.eighth 0 { X := 500, Y := 500 }
        { X := 800, Y := 900 }).1 (1 / 2))
        (midpoint { X := 500, Y := 500 } { X := 800, Y := 900 })
      ≤ (76 / 100 * (Float64.offsetMagnitudeOf MathLib.diagonal RandSource.eighth 0 { X := 500, Y := 500 }
        { X := 800, Y := 900 })) ^ 2 ∧
    distSq (Float64.CalculatePoint MathLib.diagonal (Float64.NewBezierCurve MathLib.diagonal RandSource.eighth 0 { X := 500, Y := 500 }
        { X := 800, Y := 900 }).1 (1 / 2))
        (midpoint { X := 500, Y := 500 } { X := 800, Y := 900 })
      ≤ (Float64.offsetMagnitudeOf MathLib.diagonal RandSource.eighth 0 { X := 500, Y := 500 }
        { X := 800, Y := 900 }) ^ 2 ∧
    distSq (Float64.CalculatePoint MathLib.diagonal (Float64.NewBezierCurve MathLib.diagonal RandSource.eighth 0 { X := 500, Y := 500 }
        { X := 800, Y := 900 }).1 (1 / 2))
        (midpoint { X := 500, Y := 500 } { X := 800, Y := 900 })
      ≤ (50 / 100) ^ 2 * distSq { X := 800, Y := 900 } { X := 500, Y := 500 } ∧
    0 ≤ Float64.offsetMagnitudeOf MathLib.diagonal RandSource.eighth 0 { X := 500, Y := 500 }
        { X := 800, Y := 900 } ∧
    ∀ j : Nat, 1 ≤ j → j < 2 ^ 52 → ∃ path,
      Float64.GeneratePath MathLib.diagonal (Float64.NewBezierCurve MathLib.diagonal RandSource.eighth 0 { X := 500, Y := 500 }
        { X := 800, Y := 900 }).1
        (2 * (j : Int) + 1) = some path ∧
      path[j]? = some
        (Float64.CalculatePoint MathLib.diagonal (Float64.NewBezierCurve MathLib.diagonal RandSource.eighth 0 { X := 500, Y := 500 }
        { X := 800, Y := 900 }).1 (1 / 2)) :=
  C12_midpoint_deviation MathLib.diagonal RandSource.eighth 0 { X := 500, Y := 500 } { X := 800, Y := 900 } 1024
    (by norm_num) (by norm_num) (by norm_num [abs_of_pos]) (by norm_num [abs_of_pos])
    (by norm_num [abs_of_pos]) (by norm_num [abs_of_pos]) (by norm_num [distSq])
    (by rw [sumSquares_diagonal]; norm_num [Float64.chordDistance, MathLib.diagonal, MathLib.constant])
    (by rw [abs_le]; norm_num [MathLib.diagonal, MathLib.constant])
    (by rw [abs_le]; norm_num [MathLib.diagonal, MathLib.constant])
    (by norm_num [MathLib.diagonal, MathLib.constant])
    (by norm_num [MathLib.diagonal, MathLib.constant])

theorem C13_witness :
    (NewBezierCurve MathLib.axis RandSource.zero 0 { X := 3, Y := 4 } { X := 3, Y := 4 }).1
      = { Start := { X := 3, Y := 4 }, End := { X := 3, Y := 4 },
          Control1 := { X := 3, Y := 4 }, Control2 := { X := 3, Y := 4 } } :=
  (C13_NewBezierCurve_degenerate MathLib.axis RandSource.zero 0 { X := 3, Y := 4 }).2.2
    (by norm_num [MathLib.axis])

theorem C14_witness :
    ((0 : Int) < 0 ∧ BezierCurve.sample.GeneratePath 0 = none) ∨
    ((0 : Int) = 0 ∧ BezierCurve.sample.GeneratePath 0 = some []) ∨
    ((0 : Int) = 1 ∧ ∃ p, BezierCurve.sample.GeneratePath 0 = some [p]) :=
  C14_GeneratePath_small BezierCurve.sample 0 (by decide)

theorem C15_witness :
    ClearSession (FileSystem.empty Session) "session.json" = (FileSystem.empty Session, .ok) ∧
    ((ClearSession FileSystem.stored "session.json").1.files "session.json" = .absent ∧
      ClearSession (ClearSession FileSystem.stored "session.json").1 "session.json"
        = ((ClearSession FileSystem.stored "session.json").1, .ok) ∧
      IsSessionValid JsonCodec.sample (ClearSession FileSystem.stored "session.json").1
        "session.json" Hour = false) ∧
    ClearSession FileSystem.locked "session.json"
      = (FileSystem.locked, .error "failed to remove session file") :=
  ⟨(C15_ClearSession_idempotent JsonCodec.sample (FileSystem.empty Session)
      "session.json" Hour).1 rfl,
   (C15_ClearSession_idempotent JsonCodec.sample FileSystem.stored "session.json" Hour).2.2.1
      (by simp [ClearSession, FileSystem.Remove, FileSystem.stored]),
   ((C15_ClearSession_idempotent JsonCodec.sample FileSystem.locked "session.json" Hour).2.2.2
      (by simp [FileSystem.locked, FileSystem.stored]) rfl).1⟩

theorem C16_witness :
    (∃ typos t, typoMap.lookup (lowerRune Unicode.sample (rune 'q')) = some typos ∧ t ∈ typos ∧
      getTypoChar Unicode.sample RandSource.zero 0 (rune 'q') = some (t, 0 + 1) ∧
      rune 'a' ≤ t ∧ t ≤ rune 'z') ∧
    (∃ typos t, typoMap.lookup (lowerRune Unicode.sample (rune 'Q')) = some typos ∧ t ∈ typos ∧
      getTypoChar Unicode.sample RandSource.zero 0 (rune 'Q')
        = some (t - (rune 'a' - rune 'A'), 0 + 1) ∧
      rune 'a' ≤ t ∧ t ≤ rune 'z') ∧
    (∃ w, w ∈ nearby ∧ getTypoChar Unicode.sample RandSource.zero 0 (rune '1') = some (w, 0 + 1)) :=
  ⟨((C16_getTypoChar_table Unicode.sample RandSource.zero 0 (rune 'q')).1
      ⟨by decide, by decide⟩).2,
   ((C16_getTypoChar_table Unicode.sample RandSource.zero 0 (rune 'Q')).2.1
      ⟨by decide, by decide⟩).2,
   (C16_getTypoChar_table Unicode.sample RandSource.zero 0 (rune '1')).2.2 (by decide)⟩

theorem C20_witness :
    stepDelayOf { Duration := 1000, Overshoot := false, Steps := 20 }
      = Int.tdiv 1000 20 * Millisecond ∧
    ((16 : Int) < 20 / 4 ∨ (16 : Int) > 20 * 3 / 4 →
      2 * pathDelay (stepDelayOf { Duration := 1000, Overshoot := false, Steps := 20 }) 20 16
        = 3 * (Int.tdiv 1000 20 * Millisecond)) ∧
    (¬ ((16 : Int) < 20 / 4 ∨ (16 : Int) > 20 * 3 / 4) →
      pathDelay (stepDelayOf { Duration := 1000, Overshoot := false, Steps := 20 }) 20 16
        = Int.tdiv 1000 20 * Millisecond) :=
  C20_pathDelay_cases 1000 20 16 false (by decide) (by decide) (by decide)

theorem C24_witness :
    (0 : Int) < DefaultTypingOptions.MinDelay ∧
    DefaultTypingOptions.MinDelay < DefaultTypingOptions.MaxDelay ∧
    ∀ msg, (TypeHumanLike Unicode.sample RandSource.zero 0 Page.reliable
      [rune 'h', rune 'i'] none).2 ≠ .panic msg :=
  ⟨by decide, by decide,
    (C24_no_random_range_panic Unicode.sample RandSource.zero 0 Page.reliable
      [rune 'h', rune 'i'] none (by decide) (by decide) (by decide)).1⟩

theorem C27_witness :
    (0 : Int) < 1 ∧
    (BulkConnect (fun i => i == 0) (fun _ => false) SearchResult.samples
      (some { Message := "", DelayBetweenRequests := 30, MaxRequestsPerSession := 1 })).counts
      = { successCount := 1, errorCount := 0, skippedCount := 1 } ∧
    (BulkConnect (fun i => i == 0) (fun _ => false) SearchResult.samples
      (some { Message := "", DelayBetweenRequests := 30,
              MaxRequestsPerSession := 1 })).counts.successCount ≤ 1 :=
  ⟨by decide, by decide,
    (C27_BulkConnect_counts (fun i => i == 0) (fun _ => false) SearchResult.samples
      (some { Message := "", DelayBetweenRequests := 30, MaxRequestsPerSession := 1 })
      (by decide)).1⟩

theorem C28_witness :
    Search SearchPages.sample 5 = some (.ok (SearchResult.samples ++ SearchResult.samples.take 2)) ∧
    ((SearchResult.samples ++ SearchResult.samples.take 2).length : Int) ≤ max 5 0 ∧
    ∃ j rest, pagesConcat SearchPages.sample j
      = (SearchResult.samples ++ SearchResult.samples.take 2) ++ rest :=
  ⟨by decide, (C28_Search_results SearchPages.sample 5).2 _ (by decide)⟩

end LinkedinBot
